import Mathlib

/-!
# cc-plans-lister: a shallow embedding of the rendering layer

The Go sources are embedded as Lean functions.  A Go `string` is the sequence of its
bytes: `len` is the byte count, `s[:n]` cuts at a byte offset and `==`, `<` compare byte
for byte.  A Go `int` is an `Int`; none of the arithmetic below can leave the 64-bit range
(the only subtraction, `maxLen-3`, is reached with `maxLen > 3`).  A run-time panic is the
value `none`.
-/

namespace CcPlansLister

/-! ## Strings -/

/-- One byte of a Go string. -/
abbrev Byte := Fin 256

/-- Go `string`: an immutable sequence of bytes. -/
abbrev GoString := List Byte

/-- String literal: the UTF-8 bytes of the text, as the Go compiler stores it. -/
def str (s : String) : GoString := s.toUTF8.data.toList.map (fun b => b.val)

/-- Slice expression `s[:n]`: panics unless `0 <= n <= len(s)`. -/
def sliceTo (s : GoString) (n : Int) : Option GoString :=
  if 0 ≤ n ∧ n ≤ (s.length : Int) then some (s.take n.toNat) else none

/-! ## internal/formatters/pdf.go: truncateText -/

/-- Function `truncateText(text string, maxLen int) string` of pdf.go. -/
def truncateText (text : GoString) (maxLen : Int) : Option GoString :=
  if maxLen ≤ 0 then
    some (str "")
  else if (text.length : Int) ≤ maxLen then
    some text
  else if maxLen ≤ 3 then
    if maxLen = 1 then
      some (str ".")
    else
      some (str "...") -- for maxLen 2 or 3
  else
    (sliceTo text (maxLen - 3)).map (fun head => head ++ str "...")

/-! ## internal/formatters/formatter.go: GetFormatter -/

/-- The four implementations of the `Formatter` interface (the dynamic type of the
value `GetFormatter` returns; each is an empty struct). -/
inductive Formatter where
  | MarkdownFormatter
  | TextFormatter
  | CSVFormatter
  | PDFFormatter
  deriving DecidableEq, Repr

/-- Function `GetFormatter(format string) Formatter`: a `switch` on the string. -/
def GetFormatter (format : GoString) : Formatter :=
  if format = str "markdown" then Formatter.MarkdownFormatter
  else if format = str "txt" then Formatter.TextFormatter
  else if format = str "csv" then Formatter.CSVFormatter
  else if format = str "pdf" then Formatter.PDFFormatter
  else Formatter.MarkdownFormatter -- default to markdown

/-! ## internal/config/config.go: ValidateOutputFormat -/

/-- Go `map[string]bool` literal: its key/value pairs. -/
abbrev GoMap := List (GoString × Bool)

/-- Index expression `m[k]` on a `map[string]bool`: the stored value, or the zero value
`false` when the key is absent. -/
def GoMap.index (m : GoMap) (k : GoString) : Bool :=
  match m.find? (fun kv => kv.1 == k) with
  | some kv => kv.2
  | none => false

/-- Function `ValidateOutputFormat(format string) bool`. -/
def ValidateOutputFormat (format : GoString) : Bool :=
  let validFormats : GoMap := [
    (str "markdown", true),
    (str "txt", true),
    (str "csv", true),
    (str "pdf", true)]
  validFormats.index format

/-! ## pkg/clevercloud/types.go

Field names are the Go ones; `Type` is reserved in Lean, so `ProductInstance.Type` is
`Type_`.  Every field defaults to the zero value of its Go type, so a structure instance
reads like a Go composite literal.  `Flavor.Disk` (of type `any`, read by no renderer) is
left out. -/

/-- Go `float64`, by its IEEE-754 binary64 bit pattern (sign, 11 exponent bits, 52
fraction bits). -/
structure Float64 where
  bits : Nat := 0
  deriving DecidableEq, Repr

/-- Struct `AddonPlan`. -/
structure AddonPlan where
  ID : GoString := []
  Name : GoString := []
  Slug : GoString := []
  deriving DecidableEq, Repr

/-- Struct `AddonProvider`. -/
structure AddonProvider where
  ID : GoString := []
  Name : GoString := []
  Plans : List AddonPlan := []
  deriving DecidableEq, Repr

/-- Struct `Variant`. -/
structure Variant where
  ID : GoString := []
  Slug : GoString := []
  Name : GoString := []
  DeployType : GoString := []
  Logo : GoString := []
  deriving DecidableEq, Repr

/-- Struct `Memory`. -/
structure Memory where
  Unit : GoString := []
  Value : Int := 0
  Formatted : GoString := []
  deriving DecidableEq, Repr

/-- Struct `Flavor`. -/
structure Flavor where
  Name : GoString := []
  Mem : Int := 0
  Cpus : Int := 0
  Gpus : Int := 0
  Price : Float64 := {}
  Available : Bool := false
  Microservice : Bool := false
  MachineLearning : Bool := false
  Nice : Int := 0
  PriceID : GoString := []
  Memory : Memory := {}
  deriving DecidableEq, Repr

/-- Struct `ProductInstance`. -/
structure ProductInstance where
  Type_ : GoString := []
  Version : GoString := []
  Name : GoString := []
  Variant : Variant := {}
  Description : GoString := []
  Enabled : Bool := false
  ComingSoon : Bool := false
  MaxInstances : Int := 0
  Tags : List GoString := []
  Deployments : List GoString := []
  Flavors : List Flavor := []
  DefaultFlavor : Flavor := {}
  BuildFlavor : Flavor := {}
  deriving DecidableEq, Repr

/-! ## Standard library: strconv, strings, sort -/

/-- Decimal digits of a natural number, as bytes. -/
def decimal (n : Nat) : GoString :=
  (Nat.toDigits 10 n).map (fun c => Fin.ofNat c.toNat)

/-- Function `strconv.Itoa`. -/
def strconv.Itoa (i : Int) : GoString :=
  if i < 0 then str "-" ++ decimal (-i).toNat else decimal i.toNat

/-- Function `strconv.FormatBool`. -/
def strconv.FormatBool (b : Bool) : GoString :=
  if b then str "true" else str "false"

/-- The call `strconv.FormatFloat(x, 'f', 2, 64)`: the exact value of the binary64 number,
rounded to two decimals (to nearest, ties to even), with its sign; "NaN", "+Inf" and
"-Inf" for the special values. -/
def strconv.FormatFloat2 (x : Float64) : GoString :=
  let sign := x.bits / 2 ^ 63 % 2
  let e := x.bits / 2 ^ 52 % 2048
  let frac := x.bits % 2 ^ 52
  if e = 2047 then
    if frac ≠ 0 then str "NaN" else if sign = 1 then str "-Inf" else str "+Inf"
  else
    -- the value is m * 2 ^ (ex - 1075)
    let m := if e = 0 then frac else frac + 2 ^ 52
    let ex := if e = 0 then 1 else e
    -- hundredths = num / den, rounded half to even
    let num := m * 100 * 2 ^ (ex - 1075)
    let den := 2 ^ (1075 - ex)
    let q := num / den
    let r := num % den
    let h := if 2 * r > den ∨ (2 * r = den ∧ q % 2 = 1) then q + 1 else q
    (if sign = 1 then str "-" else []) ++ decimal (h / 100) ++ str "." ++
      decimal (h % 100 / 10) ++ decimal (h % 10)

/-- Function `strings.Join`. -/
def strings.Join : List GoString → GoString → GoString
  | [], _ => []
  | [a], _ => a
  | a :: b :: rest, sep => a ++ sep ++ strings.Join (b :: rest) sep

/-- Operator `<` on Go strings, as the `less` closures passed to `sort.Slice` use it. -/
def stringLess (a b : GoString) : Bool := decide (a < b)

/-- The function `sort.Slice(x, less)`, seen as a function from the comparison and the
elements of the slice to the elements in their new order.  The library documents only a
contract (the slice ends up sorted by `less`; equal elements may be reordered), so the
renderers take the routine as a parameter. -/
abbrev SortSlice := (α : Type) → (α → α → Bool) → List α → List α

/-- First half of the contract of `sort.Slice`: it only swaps elements, so the result is a
rearrangement of the input. -/
def SortSlice.Permutes (sortSlice : SortSlice) : Prop :=
  ∀ (α : Type) (less : α → α → Bool) (l : List α), (sortSlice α less l).Perm l

/-- Inner loop of the library's `insertionSortLessFunc`: the new element `x` moves left
while `less(x, left neighbour)`.  The list is the part of the slice before `x`, nearest
neighbour first. -/
def insertLeft {α : Type} (less : α → α → Bool) (x : α) : List α → List α
  | [] => [x]
  | y :: ys => if less x y then y :: insertLeft less x ys else x :: y :: ys

/-- The library's `insertionSortLessFunc`, which is what `sort.Slice` runs on a slice of
at most 12 elements. -/
def insertionSortLessFunc : SortSlice :=
  fun _ less l => (l.foldl (fun sorted x => insertLeft less x sorted) []).reverse

/-! ## Standard library: io.Writer, bufio.Writer, encoding/csv

The sink a renderer writes to is an `io.Writer`.  In the model a `Write` call either takes
the whole byte slice or fails taking nothing.  The CSV renderer reaches the sink through
`csv.NewWriter`, which wraps it in a `bufio.Writer` with the default 4096-byte buffer. -/

/-- Go `error` value; the nil error is `none : Option GoError`. -/
structure GoError where
  msg : GoString
  deriving DecidableEq, Repr

/-- An `io.Writer`: the bytes it has accepted, how many more `Write` calls will succeed
(`none`: all of them), and how many `Write` calls have returned an error so far. -/
structure Sink where
  data : List Byte := []
  okWrites : Option Nat := none
  failed : Nat := 0
  deriving DecidableEq, Repr

/-- The error a failing `Sink` returns. -/
def Sink.failure : GoError := ⟨str "write failed"⟩

/-- Method `Write(p []byte) (n int, err error)` of the sink; `n` is `len(p)` on success
and 0 on failure. -/
def Sink.Write (s : Sink) (p : List Byte) : Sink × Option GoError :=
  match s.okWrites with
  | none => ({ s with data := s.data ++ p }, none)
  | some 0 => ({ s with failed := s.failed + 1 }, some Sink.failure)
  | some (n + 1) => ({ s with data := s.data ++ p, okWrites := some n }, none)

/-- Type `bufio.Writer`: the buffered bytes `buf[0:n]`, the sticky error and the
underlying writer. -/
structure bufio.Writer where
  buf : List Byte := []
  err : Option GoError := none
  wr : Sink
  deriving DecidableEq, Repr

/-- Constant `defaultBufSize` of package bufio: `len(b.buf)`. -/
def bufio.defaultBufSize : Nat := 4096

/-- Method `Available`: `len(b.buf) - b.n`. -/
def bufio.Writer.Available (b : bufio.Writer) : Nat :=
  bufio.defaultBufSize - b.buf.length

/-- Method `Flush`. -/
def bufio.Writer.Flush (b : bufio.Writer) : bufio.Writer × Option GoError :=
  if b.err ≠ none then
    (b, b.err)
  else if b.buf.length = 0 then
    (b, none)
  else
    match b.wr.Write b.buf with
    | (wr, some err) => ({ b with wr := wr, err := some err }, some err)
    | (wr, none) => ({ b with wr := wr, buf := [] }, none)

/-- Method `WriteByte`. -/
def bufio.Writer.WriteByte (b : bufio.Writer) (c : Byte) : bufio.Writer × Option GoError :=
  if b.err ≠ none then
    (b, b.err)
  else if b.Available ≤ 0 then
    match b.Flush with
    | (b1, some _) => (b1, b1.err)
    | (b1, none) => ({ b1 with buf := b1.buf ++ [c] }, none)
  else
    ({ b with buf := b.buf ++ [c] }, none)

/-- One turn of the loop `for len(s) > b.Available() && b.err == nil` of `WriteString`:
with an empty buffer the string is forwarded whole to the sink (an `*os.File` or a
`bytes.Buffer` is an `io.StringWriter`); otherwise the buffer is filled and flushed.
Returns the writer and what is left of `s`. -/
def bufio.Writer.writeStringTurn (b : bufio.Writer) (s : GoString) :
    bufio.Writer × GoString :=
  if b.buf.length = 0 then
    match b.wr.Write s with
    | (wr, some err) => ({ b with wr := wr, err := some err }, s)
    | (wr, none) => ({ b with wr := wr }, [])
  else
    let n := b.Available
    (({ b with buf := b.buf ++ s.take n }).Flush.1, s.drop n)

/-- The loop of `WriteString`, for at most `turns` turns. -/
def bufio.Writer.writeStringLoop : Nat → bufio.Writer → GoString → bufio.Writer × GoString
  | 0, b, s => (b, s)
  | turns + 1, b, s =>
    if s.length > b.Available ∧ b.err = none then
      let r := b.writeStringTurn s
      bufio.Writer.writeStringLoop turns r.1 r.2
    else
      (b, s)

/-- Method `WriteString`.  Its loop ends within two turns (`writeStringLoop_done`): a turn
leaves an error, or an empty rest, or an empty buffer, and on an empty buffer the next
turn forwards the rest whole. -/
def bufio.Writer.WriteString (b : bufio.Writer) (s : GoString) :
    bufio.Writer × Option GoError :=
  let r := b.writeStringLoop 2 s
  if r.1.err ≠ none then
    (r.1, r.1.err)
  else
    ({ r.1 with buf := r.1.buf ++ r.2 }, none)

/-- Type `csv.Writer` as `csv.NewWriter` builds it and the renderer leaves it: `Comma` is
`,` and `UseCRLF` is false; `w` is the `bufio.Writer`. -/
structure csv.Writer where
  w : bufio.Writer
  deriving DecidableEq, Repr

/-- Function `csv.NewWriter`. -/
def csv.NewWriter (writer : Sink) : csv.Writer := ⟨{ wr := writer }⟩

/-- Whether the field starts with a rune for which `unicode.IsSpace` holds: the UTF-8
encodings of U+0009..U+000D, U+0020, U+0085, U+00A0, U+1680, U+2000..U+200A, U+2028,
U+2029, U+202F, U+205F and U+3000. -/
def csv.startsWithSpace : GoString → Bool
  | [] => false
  | [c] => (9 ≤ c ∧ c ≤ 13) ∨ c = 32
  | [c, d] => (9 ≤ c ∧ c ≤ 13) ∨ c = 32 ∨ (c = 0xC2 ∧ (d = 0x85 ∨ d = 0xA0))
  | c :: d :: e :: _ =>
    (9 ≤ c ∧ c ≤ 13) ∨ c = 32 ∨ (c = 0xC2 ∧ (d = 0x85 ∨ d = 0xA0)) ∨
    (c = 0xE1 ∧ d = 0x9A ∧ e = 0x80) ∨
    (c = 0xE2 ∧ d = 0x80 ∧ ((0x80 ≤ e ∧ e ≤ 0x8A) ∨ e = 0xA8 ∨ e = 0xA9 ∨ e = 0xAF)) ∨
    (c = 0xE2 ∧ d = 0x81 ∧ e = 0x9F) ∨
    (c = 0xE3 ∧ d = 0x80 ∧ e = 0x80)

/-- Method `fieldNeedsQuotes` of `csv.Writer`, for `Comma = ','`. -/
def csv.fieldNeedsQuotes (field : GoString) : Bool :=
  if field = str "" then
    false
  else if field = str "\\." then
    true
  else if field.any (fun c => c = 10 ∨ c = 13 ∨ c = 34 ∨ c = 44) then
    true
  else
    csv.startsWithSpace field

/-- Whether the byte is none of the double quote, `\r`, `\n`: the bytes
`strings.IndexAny(field, "\"\r\n")` skips. -/
def csv.plain (c : Byte) : Bool := ¬ (c = 34 ∨ c = 13 ∨ c = 10)

set_option linter.unusedVariables false in
/-- The loop `for len(field) > 0` of `csv.Writer.Write` that writes a quoted field: the
run of plain bytes is written with `WriteString`, then the special byte is encoded (a
double quote is doubled; `\r` and `\n` are written as they are since `UseCRLF` is false). -/
def csv.writeQuoted (field : GoString) (b : bufio.Writer) : bufio.Writer × Option GoError :=
  if field.length = 0 then
    (b, none)
  else
    match b.WriteString (field.takeWhile csv.plain) with
    | (b1, some err) => (b1, some err)
    | (b1, none) =>
      match h : field.dropWhile csv.plain with
      | [] => (b1, none)
      | c :: rest =>
        match (if c = 34 then b1.WriteString (str "\"\"") else b1.WriteByte c) with
        | (b2, some err) => (b2, some err)
        | (b2, none) => csv.writeQuoted rest b2
termination_by field.length
decreasing_by
  have h1 := (List.dropWhile_suffix (l := field) csv.plain).length_le
  rw [h] at h1
  simp only [List.length_cons] at h1
  omega

/-- Body of the loop `for n, field := range record` of `csv.Writer.Write`. -/
def csv.writeField (n : Nat) (field : GoString) (b : bufio.Writer) :
    bufio.Writer × Option GoError :=
  match (if n > 0 then b.WriteByte 44 else (b, none)) with
  | (b1, some err) => (b1, some err)
  | (b1, none) =>
    if ¬ csv.fieldNeedsQuotes field then
      b1.WriteString field
    else
      match b1.WriteByte 34 with
      | (b2, some err) => (b2, some err)
      | (b2, none) =>
        match csv.writeQuoted field b2 with
        | (b3, some err) => (b3, some err)
        | (b3, none) => b3.WriteByte 34

/-- The loop `for n, field := range record` of `csv.Writer.Write`, from index `n` on. -/
def csv.writeFields : Nat → List GoString → bufio.Writer → bufio.Writer × Option GoError
  | _, [], b => (b, none)
  | n, field :: rest, b =>
    match csv.writeField n field b with
    | (b1, some err) => (b1, some err)
    | (b1, none) => csv.writeFields (n + 1) rest b1

/-- Method `Write(record []string) error` of `csv.Writer`. -/
def csv.Writer.Write (record : List GoString) (w : csv.Writer) : csv.Writer × Option GoError :=
  match csv.writeFields 0 record w.w with
  | (b, some err) => (⟨b⟩, some err)
  | (b, none) =>
    match b.WriteByte 10 with
    | (b1, err) => (⟨b1⟩, err)

/-- Method `Flush()` of `csv.Writer`; it returns nothing (the error stays in the
`bufio.Writer`, where `csv.Writer.Error` would read it). -/
def csv.Writer.Flush (w : csv.Writer) : csv.Writer := ⟨w.w.Flush.1⟩

/-! ## internal/formatters/csv.go: CSVFormatter.Format -/

/-- A statement of `Format` that acts on the `csv.Writer` and yields an `err`. -/
abbrev Step := csv.Writer → csv.Writer × Option GoError

/-- Statements run in order, each followed by `if err != nil { return err }`: the first
error ends the run.  A `for ... range` loop whose body is such a statement is the run of
its iterations. -/
def Step.seq : List Step → Step
  | [], w => (w, none)
  | step :: rest, w =>
    match step w with
    | (w1, some err) => (w1, some err)
    | (w1, none) => Step.seq rest w1

/-- The record written for a provider without plans. -/
def CSVFormatter.noPlansRecord (provider : AddonProvider) : List GoString :=
  [str "addon", provider.ID, provider.Name, str "", str "No plans available", str ""]

/-- The record written for a plan of a provider. -/
def CSVFormatter.planRecord (provider : AddonProvider) (plan : AddonPlan) : List GoString :=
  [str "addon",
   provider.ID,
   provider.Name,
   plan.ID,
   plan.Name,
   plan.Slug]

/-- Body of the loop `for _, provider := range providers` ("Write addon data"). -/
def CSVFormatter.writeProvider (sortSlice : SortSlice) (provider : AddonProvider) : Step :=
  if provider.Plans.length = 0 then
    csv.Writer.Write (CSVFormatter.noPlansRecord provider)
    -- continue
  else
    -- Sort plans by slug for consistent output (on a copy)
    let plans := sortSlice AddonPlan (fun a b => stringLess a.Slug b.Slug) provider.Plans
    Step.seq (plans.map fun plan => csv.Writer.Write (CSVFormatter.planRecord provider plan))

/-- The record written for an instance without flavors. -/
def CSVFormatter.noFlavorsRecord (instance_ : ProductInstance) : List GoString :=
  [str "application",
   instance_.Type_,
   instance_.Name,
   instance_.Version,
   instance_.Description,
   strconv.FormatBool instance_.Enabled,
   strconv.Itoa instance_.MaxInstances,
   strings.Join instance_.Tags (str "|"),
   strings.Join instance_.Deployments (str "|"),
   str "", str "", str "", str "", str "", str "", str "", str "", str "", str "", str ""]

/-- The record written for a flavor of an instance. -/
def CSVFormatter.flavorRecord (instance_ : ProductInstance) (flavor : Flavor) :
    List GoString :=
  let isDefault : Bool := flavor.Name = instance_.DefaultFlavor.Name
  [str "application",
   instance_.Type_,
   instance_.Name,
   instance_.Version,
   instance_.Description,
   strconv.FormatBool instance_.Enabled,
   strconv.Itoa instance_.MaxInstances,
   strings.Join instance_.Tags (str "|"),
   strings.Join instance_.Deployments (str "|"),
   flavor.Name,
   flavor.Memory.Formatted,
   strconv.Itoa flavor.Memory.Value,
   flavor.Memory.Unit,
   strconv.Itoa flavor.Cpus,
   strconv.Itoa flavor.Gpus,
   strconv.FormatFloat2 flavor.Price,
   strconv.FormatBool flavor.Available,
   strconv.FormatBool flavor.Microservice,
   strconv.FormatBool flavor.MachineLearning,
   strconv.FormatBool isDefault]

/-- Body of the loop `for _, instance := range instances` ("Write application data"). -/
def CSVFormatter.writeInstance (sortSlice : SortSlice) (instance_ : ProductInstance) :
    Step :=
  if instance_.Flavors.length = 0 then
    csv.Writer.Write (CSVFormatter.noFlavorsRecord instance_)
    -- continue
  else
    -- Sort flavors by name for consistent output (on a copy)
    let flavors := sortSlice Flavor (fun a b => stringLess a.Name b.Name) instance_.Flavors
    Step.seq (flavors.map fun flavor =>
      csv.Writer.Write (CSVFormatter.flavorRecord instance_ flavor))

/-- The header record of the addon section. -/
def CSVFormatter.addonHeader : List GoString :=
  [str "Type", str "Provider_ID", str "Provider_Name", str "Plan_ID", str "Plan_Name",
   str "Plan_Slug"]

/-- The header record of the application section. -/
def CSVFormatter.applicationHeader : List GoString :=
  [str "Type", str "Instance_Type", str "Instance_Name", str "Version", str "Description",
   str "Enabled", str "Max_Instances",
   str "Tags", str "Deployments", str "Flavor_Name", str "Memory_Formatted",
   str "Memory_Value", str "Memory_Unit",
   str "CPUs", str "GPUs", str "Price", str "Available", str "Microservice",
   str "MachineLearning", str "IsDefault"]

/-- The statements of `Format` between `defer csvWriter.Flush()` and the final
`return nil`. -/
def CSVFormatter.body (sortSlice : SortSlice) (providers : List AddonProvider)
    (instances : List ProductInstance) : Step :=
  Step.seq [
    -- Write header comment (as a single-column row)
    csv.Writer.Write [str "# Complete Clever Cloud Services Overview - CSV Export"],
    csv.Writer.Write [str "# Automatically generated via Clever Cloud API"],
    csv.Writer.Write [], -- empty row
    -- Addon Providers section
    csv.Writer.Write [str "# ADDON PROVIDERS"],
    csv.Writer.Write CSVFormatter.addonHeader,
    -- Write addon data
    Step.seq (providers.map (CSVFormatter.writeProvider sortSlice)),
    -- Empty row separator
    csv.Writer.Write [],
    -- Application Instances section
    csv.Writer.Write [str "# APPLICATION INSTANCES"],
    csv.Writer.Write CSVFormatter.applicationHeader,
    -- Write application data
    Step.seq (instances.map (CSVFormatter.writeInstance sortSlice))]

/-- Method `(f *CSVFormatter) Format(providers, instances, writer) error`.  Returns the
sink as the call leaves it and the returned error.  The deferred `csvWriter.Flush()` runs
on every return path, after the result is set; nothing reads its outcome. -/
def CSVFormatter.Format (sortSlice : SortSlice) (providers : List AddonProvider)
    (instances : List ProductInstance) (writer : Sink) : Sink × Option GoError :=
  let csvWriter := csv.NewWriter writer
  match CSVFormatter.body sortSlice providers instances csvWriter with
  | (csvWriter, err) => (csvWriter.Flush.w.wr, err)

/-! ## The CSV renderer's output, record by record

The encoding `csv.Writer.Write` gives a record, and the records `Format` passes to it, as
plain functions; `CSVFormatter.Format_ok` relates them to `Format`. -/

/-- The bytes `csv.Writer.Write` produces for one field: the field itself, or the field
between double quotes with every double quote in it doubled. -/
def csv.encodeField (field : GoString) : List Byte :=
  if csv.fieldNeedsQuotes field then
    [34] ++ field.flatMap (fun c => if c = 34 then [34, 34] else [c]) ++ [34]
  else
    field

/-- The line `csv.Writer.Write` produces for a record: the encoded fields separated by
commas, then a newline. -/
def csv.encodeRecord (record : List GoString) : List Byte :=
  strings.Join (record.map csv.encodeField) [44] ++ [10]

/-- The lines of a list of records. -/
def csv.encodeRecords (records : List (List GoString)) : List Byte :=
  records.flatMap csv.encodeRecord

/-- The records of one provider: the placeholder, or one per plan of the sorted copy. -/
def CSVFormatter.providerRecords (sortSlice : SortSlice) (provider : AddonProvider) :
    List (List GoString) :=
  if provider.Plans.length = 0 then
    [CSVFormatter.noPlansRecord provider]
  else
    (sortSlice AddonPlan (fun a b => stringLess a.Slug b.Slug) provider.Plans).map
      (CSVFormatter.planRecord provider)

/-- The addon data rows: the records of the providers, in the order of the list. -/
def CSVFormatter.addonRows (sortSlice : SortSlice) (providers : List AddonProvider) :
    List (List GoString) :=
  providers.flatMap (CSVFormatter.providerRecords sortSlice)

/-- The records of one instance: the placeholder, or one per flavor of the sorted copy. -/
def CSVFormatter.instanceRecords (sortSlice : SortSlice) (instance_ : ProductInstance) :
    List (List GoString) :=
  if instance_.Flavors.length = 0 then
    [CSVFormatter.noFlavorsRecord instance_]
  else
    (sortSlice Flavor (fun a b => stringLess a.Name b.Name) instance_.Flavors).map
      (CSVFormatter.flavorRecord instance_)

/-- The application data rows: the records of the instances, in the order of the list. -/
def CSVFormatter.applicationRows (sortSlice : SortSlice) (instances : List ProductInstance) :
    List (List GoString) :=
  instances.flatMap (CSVFormatter.instanceRecords sortSlice)

/-- All the records of a render, in order: two comment rows, an empty row, the addon
section (comment row, header, data rows), an empty row, the application section. -/
def CSVFormatter.records (sortSlice : SortSlice) (providers : List AddonProvider)
    (instances : List ProductInstance) : List (List GoString) :=
  [[str "# Complete Clever Cloud Services Overview - CSV Export"],
   [str "# Automatically generated via Clever Cloud API"],
   [],
   [str "# ADDON PROVIDERS"],
   CSVFormatter.addonHeader] ++
  CSVFormatter.addonRows sortSlice providers ++
  [[],
   [str "# APPLICATION INSTANCES"],
   CSVFormatter.applicationHeader] ++
  CSVFormatter.applicationRows sortSlice instances

/-! ## Healthy writers

Predicates used to state what a render writes when the sink never fails. -/

/-- The writer `b` was built on the sink `s0`, has met no error, and has received the
bytes `sent` since: they are in the sink or still in the buffer. -/
def bufio.Writer.Holds (b : bufio.Writer) (s0 : Sink) (sent : List Byte) : Prop :=
  b.err = none ∧ b.wr.okWrites = none ∧ b.wr.failed = s0.failed ∧
    b.wr.data ++ b.buf = s0.data ++ sent

/-- On a healthy writer the statement ends without error and sends exactly `bytes`. -/
def Step.Emits (step : Step) (bytes : List Byte) : Prop :=
  ∀ (w : csv.Writer) (s0 : Sink) (sent : List Byte), w.w.Holds s0 sent →
    ∃ w1, step w = (w1, none) ∧ w1.w.Holds s0 (sent ++ bytes)

/-! ## test/fixtures/test_data.go -/

/-- Function `TestAddonProviders`. -/
def TestAddonProviders : List AddonProvider := [
  { ID := str "redis",
    Name := str "Redis",
    Plans := [
      { ID := str "redis_small", Name := str "Small Redis", Slug := str "small" },
      { ID := str "redis_large", Name := str "Large Redis", Slug := str "large" }] },
  { ID := str "postgresql",
    Name := str "PostgreSQL",
    Plans := [
      { ID := str "pg_dev", Name := str "Dev PostgreSQL", Slug := str "dev" },
      { ID := str "pg_prod", Name := str "Production PostgreSQL", Slug := str "prod" }] }]

/-- Function `TestProductInstances`; the prices 0.02 and 0.04 are the binary64 numbers
0x3F947AE147AE147B and 0x3FA47AE147AE147B. -/
def TestProductInstances : List ProductInstance := [
  { Type_ := str "node",
    Version := str "20",
    Name := str "Node.js",
    Description := str "Node.js runtime",
    Enabled := true,
    MaxInstances := 20,
    Tags := [str "runtime", str "javascript"],
    Deployments := [str "git", str "docker"],
    Flavors := [
      { Name := str "nano",
        Mem := 256,
        Cpus := 1,
        Price := ⟨0x3F947AE147AE147B⟩,
        Available := true,
        Microservice := true,
        MachineLearning := false,
        Memory := { Unit := str "MB", Value := 256, Formatted := str "256 MB" } },
      { Name := str "small",
        Mem := 512,
        Cpus := 1,
        Price := ⟨0x3FA47AE147AE147B⟩,
        Available := true,
        Microservice := false,
        MachineLearning := false,
        Memory := { Unit := str "MB", Value := 512, Formatted := str "512 MB" } }],
    DefaultFlavor := { Name := str "nano" } },
  { Type_ := str "python",
    Version := str "3.11",
    Name := str "Python",
    Description := str "Python runtime",
    Enabled := true,
    MaxInstances := 10,
    Tags := [str "runtime", str "python"],
    Deployments := [str "git"],
    Flavors := [
      { Name := str "small",
        Mem := 512,
        Cpus := 1,
        Price := ⟨0x3FA47AE147AE147B⟩,
        Available := true,
        Microservice := false,
        MachineLearning := true,
        Memory := { Unit := str "MB", Value := 512, Formatted := str "512 MB" } }],
    DefaultFlavor := { Name := str "small" } }]

/-! ## Contract of sort.Slice, second half -/

/-- Second half of the contract of `sort.Slice`, for the comparisons the program passes
(`less(i, j)` is `key(x[i]) < key(x[j])` for a string key): afterwards no element is
less than an earlier one, that is the keys are non-decreasing. -/
def SortSlice.Sorts (sortSlice : SortSlice) : Prop :=
  ∀ (α : Type) (key : α → GoString) (l : List α),
    (sortSlice α (fun a b => stringLess (key a) (key b)) l).Pairwise
      (fun a b => key a ≤ key b)

/-! ## Loops that write text

A renderer that fills a `strings.Builder` is modelled by the list of the strings it passes
to `builder.WriteString`, in order; `builder.String()` is their concatenation. -/

/-- The loop `for i, x := range xs` whose body produces one value per element, with the
index starting at `i`. -/
def rangeFrom {α β : Type} (body : Nat → α → β) : Nat → List α → List β
  | _, [] => []
  | i, x :: xs => body i x :: rangeFrom body (i + 1) xs

/-- Verb `%d` of package fmt on an `int`. -/
def fmt.d (i : Int) : GoString := strconv.Itoa i

/-- Verb `%.2f` of package fmt on a `float64`; it prints what
`strconv.FormatFloat(x, 'f', 2, 64)` returns. -/
def fmt.f2 (x : Float64) : GoString := strconv.FormatFloat2 x

/-! ## internal/formatters/markdown.go: MarkdownFormatter.Format -/

/-- Row of the "Addon Summary" table. -/
def MarkdownFormatter.addonSummaryRow (provider : AddonProvider) : GoString :=
  str "| `" ++ provider.ID ++ str "` | " ++ provider.Name ++ str " | " ++
    fmt.d provider.Plans.length ++ str " |\n"

/-- Section "Addon Summary". -/
def MarkdownFormatter.addonSummary (providers : List AddonProvider) : List GoString :=
  [str "## Addon Summary\n\n",
   str "| Provider ID | Name | Number of Plans |\n",
   str "|-------------|------|----------------|\n"] ++
  providers.map MarkdownFormatter.addonSummaryRow

/-- Row of the "Application Summary" table. -/
def MarkdownFormatter.applicationSummaryRow (instance_ : ProductInstance) : GoString :=
  let enabledStr := if instance_.Enabled then str "Yes" else str "No"
  str "| `" ++ instance_.Type_ ++ str "` | " ++ instance_.Name ++ str " | " ++
    instance_.Version ++ str " | " ++ enabledStr ++ str " | " ++
    fmt.d instance_.Flavors.length ++ str " | `" ++ instance_.DefaultFlavor.Name ++
    str "` |\n"

/-- Section "Application Summary". -/
def MarkdownFormatter.applicationSummary (instances : List ProductInstance) :
    List GoString :=
  [str "\n## Application Summary\n\n",
   str "| Type | Name | Version | Enabled | Number of Flavors | Default Flavor |\n",
   str "|------|------|---------|---------|-------------------|----------------|\n"] ++
  instances.map MarkdownFormatter.applicationSummaryRow

/-- Row of the "Detailed Addon Plans" table for the plan at index `i` of the sorted
copy. -/
def MarkdownFormatter.planRow (provider : AddonProvider) (i : Nat) (plan : AddonPlan) :
    GoString :=
  let providerCell := if i = 0 then str "`" ++ provider.ID ++ str "`" else str ""
  let nameCell := if i = 0 then provider.Name else str ""
  str "| " ++ providerCell ++ str " | " ++ nameCell ++ str " | `" ++ plan.ID ++
    str "` | " ++ plan.Name ++ str " | `" ++ plan.Slug ++ str "` |\n"

/-- Row of the "Detailed Addon Plans" table for a provider without plans. -/
def MarkdownFormatter.noPlansRow (provider : AddonProvider) : GoString :=
  str "| `" ++ provider.ID ++ str "` | " ++ provider.Name ++
    str " | - | No plans available | - |\n"

/-- Body of the loop over the providers in "Detailed Addon Plans". -/
def MarkdownFormatter.providerPlanRows (sortSlice : SortSlice) (provider : AddonProvider) :
    List GoString :=
  if provider.Plans.length = 0 then
    [MarkdownFormatter.noPlansRow provider]
    -- continue
  else
    -- Sort plans by slug for consistent output (on a copy)
    let plans := sortSlice AddonPlan (fun a b => stringLess a.Slug b.Slug) provider.Plans
    rangeFrom (MarkdownFormatter.planRow provider) 0 plans

/-- Section "Detailed Addon Plans". -/
def MarkdownFormatter.detailedAddonPlans (sortSlice : SortSlice)
    (providers : List AddonProvider) : List GoString :=
  [str "\n## Detailed Addon Plans\n\n",
   str "| Provider ID | Provider Name | Plan ID | Plan Name | Plan Slug |\n",
   str "|-------------|---------------|---------|-----------|----------|\n"] ++
  providers.flatMap (MarkdownFormatter.providerPlanRows sortSlice)

/-- Row of the "Detailed Application Flavors" table for the flavor at index `i` of the
sorted copy. -/
def MarkdownFormatter.flavorRow (instance_ : ProductInstance) (i : Nat) (flavor : Flavor) :
    GoString :=
  let typeCell := if i = 0 then str "`" ++ instance_.Type_ ++ str "`" else str ""
  let nameCell := if i = 0 then instance_.Name else str ""
  let availableStr := if flavor.Available then str "Yes" else str "No"
  let microserviceStr := if flavor.Microservice then str "Yes" else str "No"
  let mlStr := if flavor.MachineLearning then str "Yes" else str "No"
  str "| " ++ typeCell ++ str " | " ++ nameCell ++ str " | `" ++ flavor.Name ++
    str "` | " ++ flavor.Memory.Formatted ++ str " | " ++ fmt.d flavor.Cpus ++ str " | " ++
    fmt.f2 flavor.Price ++ str "€ | " ++ availableStr ++ str " | " ++ microserviceStr ++
    str " | " ++ mlStr ++ str " |\n"

/-- Row of the "Detailed Application Flavors" table for an instance without flavors. -/
def MarkdownFormatter.noFlavorsRow (instance_ : ProductInstance) : GoString :=
  str "| `" ++ instance_.Type_ ++ str "` | " ++ instance_.Name ++
    str " | - | - | - | - | - | - | - |\n"

/-- Body of the loop over the instances in "Detailed Application Flavors". -/
def MarkdownFormatter.instanceFlavorRows (sortSlice : SortSlice)
    (instance_ : ProductInstance) : List GoString :=
  if ¬ instance_.Enabled then
    [] -- continue: skip disabled instances
  else if instance_.Flavors.length = 0 then
    [MarkdownFormatter.noFlavorsRow instance_]
    -- continue
  else
    -- Sort flavors by name for consistent output (on a copy)
    let flavors := sortSlice Flavor (fun a b => stringLess a.Name b.Name) instance_.Flavors
    rangeFrom (MarkdownFormatter.flavorRow instance_) 0 flavors

/-- Section "Detailed Application Flavors". -/
def MarkdownFormatter.detailedApplicationFlavors (sortSlice : SortSlice)
    (instances : List ProductInstance) : List GoString :=
  [str "\n## Detailed Application Flavors\n\n",
   str "| Type | Name | Flavor | Memory | CPU | Price | Available | Microservice | ML |\n",
   str "|------|------|--------|--------|-----|-------|-----------|-------------|----|\n"] ++
  instances.flatMap (MarkdownFormatter.instanceFlavorRows sortSlice)

/-- Bullet of a plan in "Plans by Addon Provider". -/
def MarkdownFormatter.planBullet (plan : AddonPlan) : GoString :=
  str "- **" ++ plan.Name ++ str "** (`" ++ plan.Slug ++ str "`) - ID: `" ++ plan.ID ++
    str "`\n"

/-- Body of the loop over the providers in "Plans by Addon Provider". -/
def MarkdownFormatter.providerPlanList (sortSlice : SortSlice) (provider : AddonProvider) :
    List GoString :=
  [str "### " ++ provider.Name ++ str " (`" ++ provider.ID ++ str "`)\n\n"] ++
  (if provider.Plans.length = 0 then
    [str "No plans available.\n\n"]
    -- continue
  else
    let plans := sortSlice AddonPlan (fun a b => stringLess a.Slug b.Slug) provider.Plans
    plans.map MarkdownFormatter.planBullet ++ [str "\n"])

/-- Section "Plans by Addon Provider". -/
def MarkdownFormatter.plansByProvider (sortSlice : SortSlice)
    (providers : List AddonProvider) : List GoString :=
  [str "\n## Plans by Addon Provider\n\n"] ++
  providers.flatMap (MarkdownFormatter.providerPlanList sortSlice)

/-- The slice `tags` built for a flavor in "Flavors by Application Type". -/
def flavorTags (flavor : Flavor) : List GoString :=
  (if ¬ flavor.Available then [str "Unavailable"] else []) ++
  (if flavor.Microservice then [str "Microservice"] else []) ++
  (if flavor.MachineLearning then [str "ML"] else [])

/-- The strings written for one flavor in "Flavors by Application Type": the bullet, the
bracketed tags when there are any, the end of line. -/
def MarkdownFormatter.flavorBullet (instance_ : ProductInstance) (flavor : Flavor) :
    List GoString :=
  let defaultMarker :=
    if flavor.Name = instance_.DefaultFlavor.Name then str " *(default)*" else str ""
  let tags := flavorTags flavor
  [str "- **" ++ flavor.Name ++ str "**" ++ defaultMarker ++ str " - " ++
    flavor.Memory.Formatted ++ str ", " ++ fmt.d flavor.Cpus ++ str " CPU, " ++
    fmt.f2 flavor.Price ++ str "€/h"] ++
  (if tags.length > 0 then [str " *[" ++ strings.Join tags (str ", ") ++ str "]*"]
   else []) ++
  [str "\n"]

/-- The strings that open the subsection of an instance in "Flavors by Application
Type". -/
def MarkdownFormatter.instanceHeading (instance_ : ProductInstance) : List GoString :=
  [str "### " ++ instance_.Name ++ str " (`" ++ instance_.Type_ ++ str "`) - Version " ++
     instance_.Version ++ str "\n\n",
   str "**Description**: " ++ instance_.Description ++ str "\n\n",
   str "**Max instances**: " ++ fmt.d instance_.MaxInstances ++ str "\n\n",
   str "**Tags**: " ++ strings.Join instance_.Tags (str ", ") ++ str "\n\n",
   str "**Deployments**: " ++ strings.Join instance_.Deployments (str ", ") ++
     str "\n\n"]

/-- Body of the loop over the instances in "Flavors by Application Type". -/
def MarkdownFormatter.instanceFlavorList (sortSlice : SortSlice)
    (instance_ : ProductInstance) : List GoString :=
  if ¬ instance_.Enabled then
    [] -- continue: skip disabled instances
  else
    MarkdownFormatter.instanceHeading instance_ ++
    (if instance_.Flavors.length = 0 then
      [str "No flavors available.\n\n"]
      -- continue
    else
      let flavors :=
        sortSlice Flavor (fun a b => stringLess a.Name b.Name) instance_.Flavors
      [str "**Available flavors**:\n\n"] ++
      flavors.flatMap (MarkdownFormatter.flavorBullet instance_) ++
      [str "\n"])

/-- Section "Flavors by Application Type". -/
def MarkdownFormatter.flavorsByType (sortSlice : SortSlice)
    (instances : List ProductInstance) : List GoString :=
  [str "\n## Flavors by Application Type\n\n"] ++
  instances.flatMap (MarkdownFormatter.instanceFlavorList sortSlice)

/-- The strings `Format` passes to `builder.WriteString`, in order. -/
def MarkdownFormatter.writes (sortSlice : SortSlice) (providers : List AddonProvider)
    (instances : List ProductInstance) : List GoString :=
  [str "# Complete Clever Cloud Services Overview\n\n",
   str ("This document lists all available addon types AND application types on " ++
     "Clever Cloud with their respective plans/flavors.\n\n"),
   str "*Automatically generated via Clever Cloud API*\n\n"] ++
  MarkdownFormatter.addonSummary providers ++
  MarkdownFormatter.applicationSummary instances ++
  MarkdownFormatter.detailedAddonPlans sortSlice providers ++
  MarkdownFormatter.detailedApplicationFlavors sortSlice instances ++
  MarkdownFormatter.plansByProvider sortSlice providers ++
  MarkdownFormatter.flavorsByType sortSlice instances

/-- Method `(f *MarkdownFormatter) Format(providers, instances, writer) error`: the
document is built in a `strings.Builder` and written to the sink in one `Write`. -/
def MarkdownFormatter.Format (sortSlice : SortSlice) (providers : List AddonProvider)
    (instances : List ProductInstance) (writer : Sink) : Sink × Option GoError :=
  writer.Write (MarkdownFormatter.writes sortSlice providers instances).flatten

/-! ## internal/formatters/txt.go: TextFormatter.Format

The tables go through a `text/tabwriter` writer created with
`tabwriter.NewWriter(&builder, 0, 0, 2, ' ', 0)`: the renderer writes tab-separated lines
to it and `w.Flush()` leaves the aligned text in the builder.  The aligned text is a
function of the bytes written; the renderer takes that function as the parameter
`tabwriter`. -/

/-- Line of the "ADDON SUMMARY" table, as written to the tabwriter. -/
def TextFormatter.addonSummaryLine (provider : AddonProvider) : GoString :=
  provider.ID ++ str "\t" ++ provider.Name ++ str "\t" ++ fmt.d provider.Plans.length ++
    str "\n"

/-- Lines of the "ADDON SUMMARY" table, as written to the tabwriter. -/
def TextFormatter.addonSummaryLines (providers : List AddonProvider) : List GoString :=
  [str "Provider ID\tName\tNumber of Plans" ++ str "\n",
   str "-----------\t----\t---------------" ++ str "\n"] ++
  providers.map TextFormatter.addonSummaryLine

/-- Line of the "APPLICATION SUMMARY" table. -/
def TextFormatter.applicationSummaryLine (instance_ : ProductInstance) : GoString :=
  let enabledStr := if instance_.Enabled then str "Yes" else str "No"
  instance_.Type_ ++ str "\t" ++ instance_.Name ++ str "\t" ++ instance_.Version ++
    str "\t" ++ enabledStr ++ str "\t" ++ fmt.d instance_.Flavors.length ++ str "\t" ++
    instance_.DefaultFlavor.Name ++ str "\n"

/-- Lines of the "APPLICATION SUMMARY" table. -/
def TextFormatter.applicationSummaryLines (instances : List ProductInstance) :
    List GoString :=
  [str "Type\tName\tVersion\tEnabled\tFlavors\tDefault Flavor" ++ str "\n",
   str "----\t----\t-------\t-------\t-------\t--------------" ++ str "\n"] ++
  instances.map TextFormatter.applicationSummaryLine

/-- Line of the "DETAILED ADDON PLANS" table for the plan at index `i` of the sorted
copy. -/
def TextFormatter.planLine (provider : AddonProvider) (i : Nat) (plan : AddonPlan) :
    GoString :=
  let providerID := if i = 0 then provider.ID else str ""
  let providerName := if i = 0 then provider.Name else str ""
  providerID ++ str "\t" ++ providerName ++ str "\t" ++ plan.ID ++ str "\t" ++
    plan.Name ++ str "\t" ++ plan.Slug ++ str "\n"

/-- Body of the loop over the providers in "DETAILED ADDON PLANS". -/
def TextFormatter.providerPlanLines (sortSlice : SortSlice) (provider : AddonProvider) :
    List GoString :=
  if provider.Plans.length = 0 then
    [provider.ID ++ str "\t" ++ provider.Name ++ str "\t-\tNo plans available\t-\n"]
    -- continue
  else
    -- Sort plans by slug for consistent output (on a copy)
    let plans := sortSlice AddonPlan (fun a b => stringLess a.Slug b.Slug) provider.Plans
    rangeFrom (TextFormatter.planLine provider) 0 plans

/-- Lines of the "DETAILED ADDON PLANS" table. -/
def TextFormatter.detailedAddonPlansLines (sortSlice : SortSlice)
    (providers : List AddonProvider) : List GoString :=
  [str "Provider ID\tProvider Name\tPlan ID\tPlan Name\tPlan Slug" ++ str "\n",
   str "-----------\t-------------\t-------\t---------\t---------" ++ str "\n"] ++
  providers.flatMap (TextFormatter.providerPlanLines sortSlice)

/-- Line of the "DETAILED APPLICATION FLAVORS" table for the flavor at index `i` of the
sorted copy. -/
def TextFormatter.flavorLine (instance_ : ProductInstance) (i : Nat) (flavor : Flavor) :
    GoString :=
  let typeCell := if i = 0 then instance_.Type_ else str ""
  let nameCell := if i = 0 then instance_.Name else str ""
  let availableStr := if flavor.Available then str "Yes" else str "No"
  let microserviceStr := if flavor.Microservice then str "Yes" else str "No"
  let mlStr := if flavor.MachineLearning then str "Yes" else str "No"
  typeCell ++ str "\t" ++ nameCell ++ str "\t" ++ flavor.Name ++ str "\t" ++
    flavor.Memory.Formatted ++ str "\t" ++ fmt.d flavor.Cpus ++ str "\t" ++
    fmt.f2 flavor.Price ++ str "€\t" ++ availableStr ++ str "\t" ++ microserviceStr ++
    str "\t" ++ mlStr ++ str "\n"

/-- Line of the "DETAILED APPLICATION FLAVORS" table for an instance without flavors. -/
def TextFormatter.noFlavorsLine (instance_ : ProductInstance) : GoString :=
  instance_.Type_ ++ str "\t" ++ instance_.Name ++ str "\t-\t-\t-\t-\t-\t-\t-\n"

/-- Body of the loop over the instances in "DETAILED APPLICATION FLAVORS". -/
def TextFormatter.instanceFlavorLines (sortSlice : SortSlice)
    (instance_ : ProductInstance) : List GoString :=
  if ¬ instance_.Enabled then
    [] -- continue
  else if instance_.Flavors.length = 0 then
    [TextFormatter.noFlavorsLine instance_]
    -- continue
  else
    -- Sort flavors by name for consistent output (on a copy)
    let flavors := sortSlice Flavor (fun a b => stringLess a.Name b.Name) instance_.Flavors
    rangeFrom (TextFormatter.flavorLine instance_) 0 flavors

/-- Lines of the "DETAILED APPLICATION FLAVORS" table. -/
def TextFormatter.detailedApplicationFlavorsLines (sortSlice : SortSlice)
    (instances : List ProductInstance) : List GoString :=
  [str "Type\tName\tFlavor\tMemory\tCPU\tPrice\tAvailable\tMicroservice\tML" ++ str "\n",
   str "----\t----\t------\t------\t---\t-----\t---------\t------------\t--" ++ str "\n"] ++
  instances.flatMap (TextFormatter.instanceFlavorLines sortSlice)

/-- Function `strings.Repeat("-", n)`. -/
def dashes (n : Nat) : GoString := List.replicate n 45

/-- Body of the loop over the providers in "PLANS BY ADDON PROVIDER". -/
def TextFormatter.providerPlanList (sortSlice : SortSlice) (provider : AddonProvider) :
    List GoString :=
  [provider.Name ++ str " (" ++ provider.ID ++ str ")\n",
   dashes (provider.Name.length + provider.ID.length + 3) ++ str "\n"] ++
  (if provider.Plans.length = 0 then
    [str "No plans available.\n\n"]
    -- continue
  else
    let plans := sortSlice AddonPlan (fun a b => stringLess a.Slug b.Slug) provider.Plans
    plans.map (fun plan =>
      str "- " ++ plan.Name ++ str " (" ++ plan.Slug ++ str ") - ID: " ++ plan.ID ++
        str "\n") ++
    [str "\n"])

/-- The strings written for one flavor in "FLAVORS BY APPLICATION TYPE": the bullet, the
bracketed tags when there are any, the end of line. -/
def TextFormatter.flavorBullet (instance_ : ProductInstance) (flavor : Flavor) :
    List GoString :=
  let defaultMarker :=
    if flavor.Name = instance_.DefaultFlavor.Name then str " (default)" else str ""
  let tags := flavorTags flavor
  [str "- " ++ flavor.Name ++ defaultMarker ++ str " - " ++ flavor.Memory.Formatted ++
    str ", " ++ fmt.d flavor.Cpus ++ str " CPU, " ++ fmt.f2 flavor.Price ++ str "€/h"] ++
  (if tags.length > 0 then [str " [" ++ strings.Join tags (str ", ") ++ str "]"]
   else []) ++
  [str "\n"]

/-- The title of an instance in "FLAVORS BY APPLICATION TYPE". -/
def TextFormatter.instanceTitle (instance_ : ProductInstance) : GoString :=
  instance_.Name ++ str " (" ++ instance_.Type_ ++ str ") - Version " ++ instance_.Version

/-- The strings that open the subsection of an instance in "FLAVORS BY APPLICATION
TYPE". -/
def TextFormatter.instanceHeading (instance_ : ProductInstance) : List GoString :=
  let title := TextFormatter.instanceTitle instance_
  [title ++ str "\n",
   dashes title.length ++ str "\n",
   str "Description: " ++ instance_.Description ++ str "\n",
   str "Max instances: " ++ fmt.d instance_.MaxInstances ++ str "\n",
   str "Tags: " ++ strings.Join instance_.Tags (str ", ") ++ str "\n",
   str "Deployments: " ++ strings.Join instance_.Deployments (str ", ") ++ str "\n\n"]

/-- Body of the loop over the instances in "FLAVORS BY APPLICATION TYPE". -/
def TextFormatter.instanceFlavorList (sortSlice : SortSlice)
    (instance_ : ProductInstance) : List GoString :=
  if ¬ instance_.Enabled then
    [] -- continue
  else
    TextFormatter.instanceHeading instance_ ++
    (if instance_.Flavors.length = 0 then
      [str "No flavors available.\n\n"]
      -- continue
    else
      let flavors :=
        sortSlice Flavor (fun a b => stringLess a.Name b.Name) instance_.Flavors
      [str "Available flavors:\n"] ++
      flavors.flatMap (TextFormatter.flavorBullet instance_) ++
      [str "\n"])

/-- Section "DETAILED APPLICATION FLAVORS": title, rule, and the table as the tabwriter
leaves it at `Flush`. -/
def TextFormatter.detailedApplicationFlavors (tabwriter : GoString → GoString)
    (sortSlice : SortSlice) (instances : List ProductInstance) : List GoString :=
  [str "\n\nDETAILED APPLICATION FLAVORS\n",
   str "============================\n\n",
   tabwriter (TextFormatter.detailedApplicationFlavorsLines sortSlice instances).flatten]

/-- Section "FLAVORS BY APPLICATION TYPE". -/
def TextFormatter.flavorsByType (sortSlice : SortSlice)
    (instances : List ProductInstance) : List GoString :=
  [str "FLAVORS BY APPLICATION TYPE\n",
   str "===========================\n\n"] ++
  instances.flatMap (TextFormatter.instanceFlavorList sortSlice)

/-- The strings that reach the builder, in order (what a tabwriter leaves at its `Flush`
counts as one string). -/
def TextFormatter.writes (tabwriter : GoString → GoString) (sortSlice : SortSlice)
    (providers : List AddonProvider) (instances : List ProductInstance) : List GoString :=
  [str "COMPLETE CLEVER CLOUD SERVICES OVERVIEW\n",
   str "========================================\n\n",
   str "Automatically generated via Clever Cloud API\n\n",
   -- Addon Summary
   str "ADDON SUMMARY\n",
   str "=============\n\n",
   tabwriter (TextFormatter.addonSummaryLines providers).flatten,
   -- Application Summary
   str "\n\nAPPLICATION SUMMARY\n",
   str "===================\n\n",
   tabwriter (TextFormatter.applicationSummaryLines instances).flatten,
   -- Detailed Addon Plans
   str "\n\nDETAILED ADDON PLANS\n",
   str "====================\n\n",
   tabwriter (TextFormatter.detailedAddonPlansLines sortSlice providers).flatten] ++
  -- Detailed Application Flavors
  TextFormatter.detailedApplicationFlavors tabwriter sortSlice instances ++
  -- Plans by Provider
  [str "\n\nPLANS BY ADDON PROVIDER\n",
   str "=======================\n\n"] ++
  providers.flatMap (TextFormatter.providerPlanList sortSlice) ++
  -- Flavors by Application Type
  TextFormatter.flavorsByType sortSlice instances

/-! ## What the flavor sections show -/

/-- The entries of a flavor section, as the specification describes them: the enabled
instances in the order of the list, each with its flavors in the order of the sorted copy
(no flavor for an instance whose flavor list is empty). -/
def shownFlavors (sortSlice : SortSlice) (instances : List ProductInstance) :
    List (ProductInstance × List Flavor) :=
  (instances.filter (fun instance_ => instance_.Enabled)).map (fun instance_ =>
    (instance_,
     if instance_.Flavors.length = 0 then []
     else sortSlice Flavor (fun a b => stringLess a.Name b.Name) instance_.Flavors))

/-- Method `(f *TextFormatter) Format(providers, instances, writer) error`. -/
def TextFormatter.Format (tabwriter : GoString → GoString) (sortSlice : SortSlice)
    (providers : List AddonProvider) (instances : List ProductInstance) (writer : Sink) :
    Sink × Option GoError :=
  writer.Write (TextFormatter.writes tabwriter sortSlice providers instances).flatten

/-! ## internal/api/client.go

`client.Get` belongs to the Clever Cloud client library; its outcome (an error, or the
decoded payload) is the parameter `addonRes` / `instanceRes`. -/

/-- The `*client.Response[T]` a `client.Get` call returns: `HasError()`, `Error()` and
the slice behind `Payload()`. -/
structure Response (α : Type) where
  error : Option GoError := none
  payload : List α := []

/-- Method `HasError` of the response. -/
def Response.HasError {α : Type} (res : Response α) : Bool := res.error.isSome

/-- Method `(c *Client) GetAddonProviders(ctx) ([]AddonProvider, error)`. -/
def Client.GetAddonProviders (sortSlice : SortSlice) (addonRes : Response AddonProvider) :
    List AddonProvider × Option GoError :=
  if addonRes.HasError then
    ([], addonRes.error)
  else
    let providers := addonRes.payload
    -- Sort providers by ID for consistent output
    (sortSlice AddonProvider (fun a b => stringLess a.ID b.ID) providers, none)

/-- Method `(c *Client) GetProductInstances(ctx) ([]ProductInstance, error)`. -/
def Client.GetProductInstances (sortSlice : SortSlice)
    (instanceRes : Response ProductInstance) : List ProductInstance × Option GoError :=
  if instanceRes.HasError then
    ([], instanceRes.error)
  else
    let instances := instanceRes.payload
    -- Sort instances by type for consistent output
    (sortSlice ProductInstance (fun a b => stringLess a.Type_ b.Type_) instances, none)

/-! ## internal/config/config.go: LoadConfig -/

/-- The process environment: the variables that are set, each with its value. -/
abbrev Environ := List (GoString × GoString)

/-- Function `os.Getenv`: the value of the variable, or "" when it is not set. -/
def os.Getenv (env : Environ) (key : GoString) : GoString :=
  match env.find? (fun kv => kv.1 == key) with
  | some kv => kv.2
  | none => str ""

/-- Struct `Config`. -/
structure Config where
  APIToken : GoString := []
  OutputFormat : GoString := []
  OutputFile : GoString := []
  deriving DecidableEq, Repr

/-- Function `LoadConfig() (*Config, error)`, on the environment it reads; a nil
`*Config` is `none`. -/
def LoadConfig (env : Environ) : Option Config × Option GoError :=
  let token := os.Getenv env (str "CLEVER_API_TOKEN")
  if token = str "" then
    (none, some ⟨str "CLEVER_API_TOKEN environment variable is required"⟩)
  else
    (some {
      APIToken := token,
      OutputFormat := str "markdown", -- default format
      OutputFile := str "" -- default to stdout
    }, none)

/-! ## cmd/cc-plans-lister/main.go: runList -/

/-- Which arm of the `switch` of `GetFormatter` a format takes: `some k` for the k-th
`case` (0 "markdown", 1 "txt", 2 "csv", 3 "pdf"), `none` for `default`. -/
def GetFormatter.arm (format : GoString) : Option Nat :=
  if format = str "markdown" then some 0
  else if format = str "txt" then some 1
  else if format = str "csv" then some 2
  else if format = str "pdf" then some 3
  else none

/-- Function `fmt.Errorf(prefix + ": %w", err)`. -/
def wrapError (pre : GoString) (err : GoError) : GoError := ⟨pre ++ str ": " ++ err.msg⟩

/-- Function `runList`, from its start to the line `formatter :=
formatters.GetFormatter(outputFormat)`: the formatter it goes on with, or the error it
returns before.  `outputFormat` is the value of the `--format` flag; the outcomes of the
two fetches are parameters. -/
def runList.formatter (env : Environ) (sortSlice : SortSlice) (outputFormat : GoString)
    (addonRes : Response AddonProvider) (instanceRes : Response ProductInstance) :
    Option Formatter × Option GoError :=
  -- Load configuration
  match LoadConfig env with
  | (_, some err) => (none, some (wrapError (str "failed to load configuration") err))
  | (_, none) =>
    -- Validate output format
    if ¬ ValidateOutputFormat outputFormat then
      (none, some ⟨str "unsupported output format: " ++ outputFormat ++
        str " (supported: markdown, txt, csv, pdf)"⟩)
    else
      -- Fetch addon providers
      match Client.GetAddonProviders sortSlice addonRes with
      | (_, some err) => (none, some (wrapError (str "failed to fetch addon providers") err))
      | (_, none) =>
        -- Fetch product instances
        match Client.GetProductInstances sortSlice instanceRes with
        | (_, some err) =>
          (none, some (wrapError (str "failed to fetch product instances") err))
        | (_, none) =>
          -- Get formatter
          (some (GetFormatter outputFormat), none)

/-! ## internal/formatters/pdf.go: PDFFormatter.Format

The document is built through calls on a `*gofpdf.Fpdf`; the model keeps the calls, in
order.  Widths, heights and font sizes are whole numbers of the unit in the source.
`pdf.Output(writer)`, which encodes the document and writes it to the sink, belongs to
the gofpdf library and is the parameter `output`. -/

/-- A call on the `*gofpdf.Fpdf`. -/
inductive PdfOp where
  | AddPage
  | SetFont (family style : GoString) (size : Nat)
  | Cell (w h : Nat) (txt : GoString)
  | Ln (h : Nat)
  deriving DecidableEq, Repr

/-- The value of the call `truncateText(text, maxLen)`; the call never panics
(`truncateText_isSome`). -/
def truncated (text : GoString) (maxLen : Int) : GoString :=
  (truncateText text maxLen).getD []

/-- Row of the "Addon Summary" table. -/
def PDFFormatter.addonSummaryRow (provider : AddonProvider) : List PdfOp :=
  [PdfOp.Cell 60 6 provider.ID,
   PdfOp.Cell 80 6 (truncated provider.Name 35),
   PdfOp.Cell 30 6 (fmt.d provider.Plans.length),
   PdfOp.Ln 6]

/-- Row of the "Application Summary" table. -/
def PDFFormatter.applicationSummaryRow (instance_ : ProductInstance) : List PdfOp :=
  let enabledStr := if instance_.Enabled then str "Yes" else str "No"
  [PdfOp.Cell 25 6 (truncated instance_.Type_ 12),
   PdfOp.Cell 45 6 (truncated instance_.Name 20),
   PdfOp.Cell 20 6 (truncated instance_.Version 10),
   PdfOp.Cell 20 6 enabledStr,
   PdfOp.Cell 20 6 (fmt.d instance_.Flavors.length),
   PdfOp.Cell 30 6 (truncated instance_.DefaultFlavor.Name 15),
   PdfOp.Ln 6]

/-- The line of a plan in "Detailed Addon Plans", before truncation. -/
def PDFFormatter.planText (plan : AddonPlan) : GoString :=
  str "  • " ++ plan.Name ++ str " (" ++ plan.Slug ++ str ") - ID: " ++ plan.ID

/-- Body of the loop over the providers in "Detailed Addon Plans". -/
def PDFFormatter.providerPlans (sortSlice : SortSlice) (provider : AddonProvider) :
    List PdfOp :=
  [PdfOp.SetFont (str "Arial") (str "B") 11,
   PdfOp.Cell 190 8 (provider.Name ++ str " (" ++ provider.ID ++ str ")"),
   PdfOp.Ln 8,
   PdfOp.SetFont (str "Arial") (str "") 9] ++
  (if provider.Plans.length = 0 then
    [PdfOp.Cell 190 6 (str "  No plans available"),
     PdfOp.Ln 6]
    -- continue
  else
    -- Sort plans by slug for consistent output (on a copy)
    let plans := sortSlice AddonPlan (fun a b => stringLess a.Slug b.Slug) provider.Plans
    plans.flatMap (fun plan =>
      [PdfOp.Cell 190 6 (truncated (PDFFormatter.planText plan) 80),
       PdfOp.Ln 6]) ++
    [PdfOp.Ln 4])

/-- The line of a flavor in "Detailed Application Flavors", before truncation. -/
def PDFFormatter.flavorText (instance_ : ProductInstance) (flavor : Flavor) : GoString :=
  let defaultMarker :=
    if flavor.Name = instance_.DefaultFlavor.Name then str " (default)" else str ""
  let availableStr := if ¬ flavor.Available then str "Unavailable" else str "Available"
  let features :=
    (if flavor.Microservice then [str "Microservice"] else []) ++
    (if flavor.MachineLearning then [str "ML"] else [])
  let featuresStr :=
    if features.length > 0 then str " [" ++ strings.Join features (str ", ") ++ str "]"
    else str ""
  str "  • " ++ flavor.Name ++ defaultMarker ++ str " - " ++ flavor.Memory.Formatted ++
    str ", " ++ fmt.d flavor.Cpus ++ str " CPU, " ++ fmt.f2 flavor.Price ++ str "€/h - " ++
    availableStr ++ featuresStr

/-- Body of the loop over the instances in "Detailed Application Flavors". -/
def PDFFormatter.instanceFlavors (sortSlice : SortSlice) (instance_ : ProductInstance) :
    List PdfOp :=
  if ¬ instance_.Enabled then
    [] -- continue
  else
    let title := instance_.Name ++ str " (" ++ instance_.Type_ ++ str ") - Version " ++
      instance_.Version
    [PdfOp.SetFont (str "Arial") (str "B") 11,
     PdfOp.Cell 190 8 title,
     PdfOp.Ln 8,
     PdfOp.SetFont (str "Arial") (str "") 9,
     PdfOp.Cell 190 6 (str "Description: " ++ truncated instance_.Description 80),
     PdfOp.Ln 6,
     PdfOp.Cell 190 6 (str "Max instances: " ++ fmt.d instance_.MaxInstances),
     PdfOp.Ln 6,
     PdfOp.Cell 190 6 (str "Tags: " ++ strings.Join instance_.Tags (str ", ")),
     PdfOp.Ln 6] ++
    (if instance_.Flavors.length = 0 then
      [PdfOp.Cell 190 6 (str "  No flavors available"),
       PdfOp.Ln 6]
      -- continue
    else
      -- Sort flavors by name for consistent output (on a copy)
      let flavors :=
        sortSlice Flavor (fun a b => stringLess a.Name b.Name) instance_.Flavors
      [PdfOp.Cell 190 6 (str "Available flavors:"),
       PdfOp.Ln 6] ++
      flavors.flatMap (fun flavor =>
        [PdfOp.Cell 190 6 (truncated (PDFFormatter.flavorText instance_ flavor) 90),
         PdfOp.Ln 6]) ++
      [PdfOp.Ln 6])

/-- The calls `Format` makes on the document between `gofpdf.New` and `pdf.Output`. -/
def PDFFormatter.ops (sortSlice : SortSlice) (providers : List AddonProvider)
    (instances : List ProductInstance) : List PdfOp :=
  [PdfOp.AddPage,
   -- Set up fonts - gofpdf has built-in fonts
   PdfOp.SetFont (str "Arial") (str "B") 16,
   PdfOp.Cell 190 10 (str "Complete Clever Cloud Services Overview"),
   PdfOp.Ln 15,
   PdfOp.SetFont (str "Arial") (str "") 10,
   PdfOp.Cell 190 5 (str "Automatically generated via Clever Cloud API"),
   PdfOp.Ln 10,
   -- Addon Summary Section
   PdfOp.SetFont (str "Arial") (str "B") 14,
   PdfOp.Cell 190 10 (str "Addon Summary"),
   PdfOp.Ln 12,
   PdfOp.SetFont (str "Arial") (str "B") 10,
   PdfOp.Cell 60 8 (str "Provider ID"),
   PdfOp.Cell 80 8 (str "Name"),
   PdfOp.Cell 30 8 (str "Plans"),
   PdfOp.Ln 8,
   PdfOp.SetFont (str "Arial") (str "") 9] ++
  providers.flatMap PDFFormatter.addonSummaryRow ++
  [PdfOp.Ln 10,
   -- Application Summary Section
   PdfOp.SetFont (str "Arial") (str "B") 14,
   PdfOp.Cell 190 10 (str "Application Summary"),
   PdfOp.Ln 12,
   PdfOp.SetFont (str "Arial") (str "B") 9,
   PdfOp.Cell 25 8 (str "Type"),
   PdfOp.Cell 45 8 (str "Name"),
   PdfOp.Cell 20 8 (str "Version"),
   PdfOp.Cell 20 8 (str "Enabled"),
   PdfOp.Cell 20 8 (str "Flavors"),
   PdfOp.Cell 30 8 (str "Default"),
   PdfOp.Ln 8,
   PdfOp.SetFont (str "Arial") (str "") 8] ++
  instances.flatMap PDFFormatter.applicationSummaryRow ++
  -- Start new page for detailed information
  [PdfOp.AddPage,
   -- Detailed Addon Plans
   PdfOp.SetFont (str "Arial") (str "B") 14,
   PdfOp.Cell 190 10 (str "Detailed Addon Plans"),
   PdfOp.Ln 12] ++
  providers.flatMap (PDFFormatter.providerPlans sortSlice) ++
  -- Start new page for application flavors
  [PdfOp.AddPage,
   -- Detailed Application Flavors
   PdfOp.SetFont (str "Arial") (str "B") 14,
   PdfOp.Cell 190 10 (str "Detailed Application Flavors"),
   PdfOp.Ln 12] ++
  instances.flatMap (PDFFormatter.instanceFlavors sortSlice)

/-- Method `(f *PDFFormatter) Format(providers, instances, writer) error`. -/
def PDFFormatter.Format (output : List PdfOp → Sink → Sink × Option GoError)
    (sortSlice : SortSlice) (providers : List AddonProvider)
    (instances : List ProductInstance) (writer : Sink) : Sink × Option GoError :=
  -- Write PDF to writer
  output (PDFFormatter.ops sortSlice providers instances) writer

/-! ## Slices in memory

To state what a render call does to the caller's data, slices are laid out in memory: a
slice value is a header (backing array, offset, length), the backing arrays of one element
type are listed by address, `make` appends a new array, and `copy` and `sort.Slice` write
through a header into its array. -/

/-- The backing arrays of the slices of one element type; the address of an array is its
position in the list. -/
abbrev Arrays (α : Type) := List (List α)

/-- A slice value: the address of its backing array, the offset of its first element and
its length. -/
structure Slice where
  array : Nat := 0
  off : Nat := 0
  len : Nat := 0
  deriving DecidableEq, Repr

/-- The elements of a slice. -/
def Slice.read {α : Type} (s : Slice) (m : Arrays α) : List α :=
  ((m.getD s.array []).drop s.off).take s.len

/-- Assignment of the values `v` to the elements of a slice: only the array of the slice
changes, between `off` and `off + len`. -/
def Slice.write {α : Type} (s : Slice) (v : List α) (m : Arrays α) : Arrays α :=
  m.set s.array
    ((m.getD s.array []).take s.off ++ v.take s.len ++
      (m.getD s.array []).drop (s.off + s.len))

/-- Builtin `make([]T, n)`: a new array of `n` zero values and the slice over it. -/
def Arrays.make {α : Type} (m : Arrays α) (n : Nat) (zero : α) : Arrays α × Slice :=
  (m ++ [List.replicate n zero], { array := m.length, off := 0, len := n })

/-- Builtin `copy(dst, src)`: the first min(len(dst), len(src)) elements of `src` are
assigned to those of `dst`. -/
def copySlice {α : Type} (dst src : Slice) (m : Arrays α) : Arrays α :=
  let n := min dst.len src.len
  dst.write ((src.read m).take n ++ (dst.read m).drop n) m

/-- Function `sort.Slice(x, less)` on a slice in memory: the elements of `x` are
rearranged in place. -/
def sortInPlace {α : Type} (sortSlice : SortSlice) (less : α → α → Bool) (x : Slice)
    (m : Arrays α) : Arrays α :=
  x.write (sortSlice α less (x.read m)) m

/-- The three statements every renderer uses before it ranges over plans or flavors:
`c := make([]T, len(src))`, `copy(c, src)`, `sort.Slice(c, less)`.  Returns the memory
and the slice `c`. -/
def sortedCopy {α : Type} (sortSlice : SortSlice) (less : α → α → Bool) (zero : α)
    (src : Slice) (m : Arrays α) : Arrays α × Slice :=
  let made := Arrays.make m src.len zero
  let m2 := copySlice made.2 src made.1
  (sortInPlace sortSlice less made.2 m2, made.2)

/-- An `AddonProvider` in memory: its field `Plans` is a slice header. -/
structure AddonProviderCell where
  ID : GoString := []
  Name : GoString := []
  Plans : Slice := {}
  deriving DecidableEq, Repr

/-- A `ProductInstance` in memory: its field `Flavors` is a slice header; `head` holds
the other fields. -/
structure ProductInstanceCell where
  head : ProductInstance := {}
  Flavors : Slice := {}
  deriving DecidableEq, Repr

/-- The memory a render call works in: the arrays behind the provider and instance
slices, and those behind the plans and flavors slices. -/
structure Heap where
  providers : Arrays AddonProviderCell := []
  instances : Arrays ProductInstanceCell := []
  plans : Arrays AddonPlan := []
  flavors : Arrays Flavor := []
  deriving DecidableEq, Repr

/-- The provider a cell stands for. -/
def AddonProviderCell.load (m : Heap) (c : AddonProviderCell) : AddonProvider :=
  { ID := c.ID, Name := c.Name, Plans := c.Plans.read m.plans }

/-- The instance a cell stands for. -/
def ProductInstanceCell.load (m : Heap) (c : ProductInstanceCell) : ProductInstance :=
  { c.head with Flavors := c.Flavors.read m.flavors }

/-- What a loop `for _, provider := range providers` of a renderer does to memory: for
each provider with plans, a sorted copy of the plans. -/
def plansLoop (sortSlice : SortSlice) (providers : List AddonProviderCell) (m : Heap) :
    Heap :=
  providers.foldl (fun m provider =>
    if provider.Plans.len = 0 then
      m -- continue
    else
      { m with plans := (sortedCopy sortSlice (fun a b => stringLess a.Slug b.Slug) {}
          provider.Plans m.plans).1 }) m

/-- What a loop `for _, instance := range instances` of a renderer does to memory: for
each instance with flavors (each enabled one when the loop skips disabled instances), a
sorted copy of the flavors. -/
def flavorsLoop (sortSlice : SortSlice) (enabledOnly : Bool)
    (instances : List ProductInstanceCell) (m : Heap) : Heap :=
  instances.foldl (fun m instance_ =>
    if enabledOnly ∧ ¬ instance_.head.Enabled then
      m -- continue
    else if instance_.Flavors.len = 0 then
      m -- continue
    else
      { m with flavors := (sortedCopy sortSlice (fun a b => stringLess a.Name b.Name) {}
          instance_.Flavors m.flavors).1 }) m

/-- Memory after `CSVFormatter.Format`, called with the slices `providers` and
`instances`, when the run went through `k` providers and `j` instances (all of them
unless a write failed). -/
def CSVFormatter.memory (sortSlice : SortSlice) (k j : Nat) (providers instances : Slice)
    (m : Heap) : Heap :=
  flavorsLoop sortSlice false ((instances.read m.instances).take j)
    (plansLoop sortSlice ((providers.read m.providers).take k) m)

/-- Memory after `MarkdownFormatter.Format`: its four loops that sort. -/
def MarkdownFormatter.memory (sortSlice : SortSlice) (providers instances : Slice)
    (m : Heap) : Heap :=
  flavorsLoop sortSlice true (instances.read m.instances)
    (plansLoop sortSlice (providers.read m.providers)
      (flavorsLoop sortSlice true (instances.read m.instances)
        (plansLoop sortSlice (providers.read m.providers) m)))

/-- Memory after `TextFormatter.Format`: its four loops that sort. -/
def TextFormatter.memory (sortSlice : SortSlice) (providers instances : Slice)
    (m : Heap) : Heap :=
  flavorsLoop sortSlice true (instances.read m.instances)
    (plansLoop sortSlice (providers.read m.providers)
      (flavorsLoop sortSlice true (instances.read m.instances)
        (plansLoop sortSlice (providers.read m.providers) m)))

/-- Memory after `PDFFormatter.Format`: its two loops that sort. -/
def PDFFormatter.memory (sortSlice : SortSlice) (providers instances : Slice)
    (m : Heap) : Heap :=
  flavorsLoop sortSlice true (instances.read m.instances)
    (plansLoop sortSlice (providers.read m.providers) m)

/-! ## Lemmas: sort.Slice -/

theorem insertLeft_perm {α : Type} (less : α → α → Bool) (x : α) (l : List α) :
    (insertLeft less x l).Perm (x :: l) := by
  induction l with
  | nil => exact List.Perm.refl _
  | cons y ys ih =>
    unfold insertLeft
    split
    · exact ((List.Perm.cons y ih).trans (List.Perm.swap x y ys))
    · exact List.Perm.refl _

theorem foldl_insertLeft_perm {α : Type} (less : α → α → Bool) (l acc : List α) :
    (l.foldl (fun sorted x => insertLeft less x sorted) acc).Perm (acc ++ l) := by
  induction l generalizing acc with
  | nil => simp
  | cons x xs ih =>
    simp only [List.foldl_cons]
    refine (ih (insertLeft less x acc)).trans ?_
    refine (List.Perm.append_right xs (insertLeft_perm less x acc)).trans ?_
    simpa using (List.perm_middle : (acc ++ x :: xs).Perm (x :: (acc ++ xs))).symm

/-- The library's insertion sort meets the permutation half of the contract. -/
theorem insertionSortLessFunc_permutes : SortSlice.Permutes insertionSortLessFunc := by
  intro α less l
  unfold insertionSortLessFunc
  refine (List.reverse_perm _).trans ?_
  simpa using foldl_insertLeft_perm less l []

/-! ## Lemmas: bufio.Writer -/

/-- The loop of `WriteString` is over after two turns: its condition is false then. -/
theorem writeStringLoop_done (b : bufio.Writer) (s : GoString) :
    ¬ ((b.writeStringLoop 2 s).2.length > (b.writeStringLoop 2 s).1.Available ∧
        (b.writeStringLoop 2 s).1.err = none) := by
  have flush_out : ∀ c : bufio.Writer, c.err = none → c.buf.length ≠ 0 →
      c.Flush.1.err ≠ none ∨ c.Flush.1.buf = [] := by
    intro c hc hn
    unfold bufio.Writer.Flush
    simp only [hc, ne_eq, not_true_eq_false, if_false, hn]
    cases hw : c.wr.Write c.buf with
    | mk wr e =>
      cases e with
      | none => right; rfl
      | some err => left; simp
  have direct_out : ∀ (c : bufio.Writer) (t : GoString), c.buf.length = 0 →
      (c.writeStringTurn t).1.err ≠ none ∨ (c.writeStringTurn t).2 = [] := by
    intro c t hc
    unfold bufio.Writer.writeStringTurn
    simp only [hc, if_true]
    cases hw : c.wr.Write t with
    | mk wr e =>
      cases e with
      | none => right; rfl
      | some err => left; simp
  unfold bufio.Writer.writeStringLoop
  by_cases h1 : s.length > b.Available ∧ b.err = none
  · simp only [h1, and_self, if_true]
    unfold bufio.Writer.writeStringLoop
    by_cases h2 : (b.writeStringTurn s).2.length > (b.writeStringTurn s).1.Available ∧
        (b.writeStringTurn s).1.err = none
    · simp only [h2, and_self, if_true, bufio.Writer.writeStringLoop]
      -- the first turn left no error and a rest: it flushed, so the buffer is empty
      have hb : (b.writeStringTurn s).1.buf.length = 0 := by
        by_cases hb0 : b.buf.length = 0
        · rcases direct_out b s hb0 with h | h
          · exact absurd h2.2 h
          · have := h2.1
            rw [h] at this
            simp at this
        · have hturn : (b.writeStringTurn s).1 =
              ({ b with buf := b.buf ++ s.take b.Available } : bufio.Writer).Flush.1 := by
            unfold bufio.Writer.writeStringTurn
            simp [hb0]
          rw [hturn] at h2 ⊢
          rcases flush_out { b with buf := b.buf ++ s.take b.Available } h1.2
              (by simp; intro h; exact absurd (by simp [h]) hb0) with h | h
          · exact absurd h2.2 h
          · simp [h]
      rcases direct_out _ (b.writeStringTurn s).2 hb with h | h
      · intro hc
        exact h hc.2
      · intro hc
        rw [h] at hc
        simp at hc
    · simpa only [h2, if_false] using h2
  · simpa only [h1, if_false] using h1

theorem Sink.Write_ok (s : Sink) (p : List Byte) (h : s.okWrites = none) :
    s.Write p = ({ s with data := s.data ++ p }, none) := by
  unfold Sink.Write
  rw [h]

theorem bufio.Writer.Flush_holds (b : bufio.Writer) (s0 : Sink) (sent : List Byte)
    (h : b.Holds s0 sent) :
    b.Flush.2 = none ∧ b.Flush.1.Holds s0 sent ∧ b.Flush.1.buf = [] := by
  obtain ⟨he, hok, hf, hd⟩ := h
  unfold bufio.Writer.Flush
  by_cases hn : b.buf.length = 0
  · have hnil : b.buf = [] := List.length_eq_zero.mp hn
    rw [hnil, List.append_nil] at hd
    simp [he, hn, bufio.Writer.Holds, hok, hf, hd, hnil]
  · simp only [he, ne_eq, not_true_eq_false, if_false, hn, Sink.Write_ok _ _ hok]
    exact ⟨trivial, ⟨rfl, hok, hf, by simpa using hd⟩, trivial⟩

theorem bufio.Writer.WriteByte_holds (b : bufio.Writer) (c : Byte) (s0 : Sink)
    (sent : List Byte) (h : b.Holds s0 sent) :
    (b.WriteByte c).2 = none ∧ (b.WriteByte c).1.Holds s0 (sent ++ [c]) := by
  have hfl := bufio.Writer.Flush_holds b s0 sent h
  obtain ⟨he, hok, hf, hd⟩ := h
  unfold bufio.Writer.WriteByte
  simp only [he, ne_eq, not_true_eq_false, if_false]
  by_cases ha : b.Available ≤ 0
  · simp only [ha, if_true]
    obtain ⟨h2, ⟨he1, hok1, hf1, hd1⟩, _⟩ := hfl
    cases hfe : b.Flush with
    | mk b1 e =>
      rw [hfe] at h2 he1 hok1 hf1 hd1
      simp only at h2 he1 hok1 hf1 hd1
      subst h2
      refine ⟨rfl, he1, hok1, hf1, ?_⟩
      simp only [← List.append_assoc, hd1]
  · simp only [ha, if_false]
    refine ⟨trivial, rfl, hok, hf, ?_⟩
    simp only [← List.append_assoc, hd]

theorem bufio.Writer.writeStringTurn_holds (b : bufio.Writer) (s : GoString) (s0 : Sink)
    (sent : List Byte) (h : b.Holds s0 sent) :
    ∃ done, s = done ++ (b.writeStringTurn s).2 ∧
      (b.writeStringTurn s).1.Holds s0 (sent ++ done) := by
  obtain ⟨he, hok, hf, hd⟩ := h
  unfold bufio.Writer.writeStringTurn
  by_cases hn : b.buf.length = 0
  · have hnil : b.buf = [] := List.length_eq_zero.mp hn
    simp only [hn, if_true, Sink.Write_ok _ _ hok]
    refine ⟨s, by simp, he, hok, hf, ?_⟩
    rw [hnil] at hd ⊢
    simp only [List.append_nil] at hd ⊢
    rw [hd, List.append_assoc]
  · simp only [hn, if_false]
    have hb2 : ({ b with buf := b.buf ++ s.take b.Available } : bufio.Writer).Holds s0
        (sent ++ s.take b.Available) := by
      refine ⟨he, hok, hf, ?_⟩
      simp only [← List.append_assoc, hd]
    exact ⟨s.take b.Available, (List.take_append_drop _ _).symm,
      (bufio.Writer.Flush_holds _ s0 _ hb2).2.1⟩

theorem bufio.Writer.writeStringLoop_holds (turns : Nat) (b : bufio.Writer) (s : GoString)
    (s0 : Sink) (sent : List Byte) (h : b.Holds s0 sent) :
    ∃ done, s = done ++ (b.writeStringLoop turns s).2 ∧
      (b.writeStringLoop turns s).1.Holds s0 (sent ++ done) := by
  induction turns generalizing b s sent with
  | zero => exact ⟨[], by simp [bufio.Writer.writeStringLoop], by
      simpa [bufio.Writer.writeStringLoop] using h⟩
  | succ n ih =>
    unfold bufio.Writer.writeStringLoop
    by_cases hc : s.length > b.Available ∧ b.err = none
    · simp only [hc, and_self, if_true]
      obtain ⟨d1, hs1, hh1⟩ := bufio.Writer.writeStringTurn_holds b s s0 sent h
      obtain ⟨d2, hs2, hh2⟩ := ih _ (b.writeStringTurn s).2 _ hh1
      refine ⟨d1 ++ d2, ?_, ?_⟩
      · rw [List.append_assoc, ← hs2, ← hs1]
      · rw [← List.append_assoc]
        exact hh2
    · simp only [hc, if_false]
      exact ⟨[], by simp, by simpa using h⟩

theorem bufio.Writer.WriteString_holds (b : bufio.Writer) (s : GoString) (s0 : Sink)
    (sent : List Byte) (h : b.Holds s0 sent) :
    (b.WriteString s).2 = none ∧ (b.WriteString s).1.Holds s0 (sent ++ s) := by
  obtain ⟨done, hs, he, hok, hf, hd⟩ := bufio.Writer.writeStringLoop_holds 2 b s s0 sent h
  unfold bufio.Writer.WriteString
  simp only [he, ne_eq, not_true_eq_false, if_false]
  refine ⟨trivial, rfl, hok, hf, ?_⟩
  simp only [← List.append_assoc, hd]
  rw [List.append_assoc, List.append_assoc, ← hs]
  simp

/-! ## Lemmas: csv.Writer -/

theorem csv.flatMap_takeWhile_plain (field : GoString) :
    (field.takeWhile csv.plain).flatMap (fun c => if c = 34 then [34, 34] else [c]) =
      field.takeWhile csv.plain := by
  induction field with
  | nil => rfl
  | cons c cs ih =>
    by_cases hc : csv.plain c = true
    · have h34 : ¬ c = 34 := by
        intro h
        subst h
        exact absurd hc (by decide)
      simp only [List.takeWhile_cons, hc, if_true, List.flatMap_cons, h34, if_false, ih]
      rfl
    · simp [List.takeWhile_cons, hc]

theorem csv.writeQuoted_holds (field : GoString) (b : bufio.Writer) (s0 : Sink)
    (sent : List Byte) (h : b.Holds s0 sent) :
    (csv.writeQuoted field b).2 = none ∧
    (csv.writeQuoted field b).1.Holds s0
      (sent ++ field.flatMap (fun c => if c = 34 then [34, 34] else [c])) := by
  generalize hn : field.length = n
  induction n using Nat.strong_induction_on generalizing field b sent with
  | _ n ih =>
    rw [csv.writeQuoted]
    by_cases h0 : field.length = 0
    · have hnil : field = [] := List.length_eq_zero.mp h0
      subst hnil
      simpa using h
    · simp only [h0, if_false]
      obtain ⟨hw2, hw1⟩ := bufio.Writer.WriteString_holds b (field.takeWhile csv.plain) s0 sent h
      have hsplit := List.takeWhile_append_dropWhile csv.plain field
      cases hws : b.WriteString (field.takeWhile csv.plain) with
      | mk b1 e1 =>
        rw [hws] at hw2 hw1
        simp only at hw2 hw1
        subst hw2
        simp only
        split
        · rename_i hd
          rw [hd, List.append_nil] at hsplit
          refine ⟨rfl, ?_⟩
          rw [← hsplit, csv.flatMap_takeWhile_plain]
          rw [hsplit]
          rw [hsplit] at hw1
          exact hw1
        · rename_i c rest hd
          have hlen : rest.length < n := by
            have := congrArg List.length hsplit
            rw [hd] at this
            simp at this
            omega
          have hflat : field.flatMap (fun c => if c = 34 then [34, 34] else [c]) =
              field.takeWhile csv.plain ++ (if c = 34 then [34, 34] else [c]) ++
                rest.flatMap (fun c => if c = 34 then [34, 34] else [c]) := by
            conv_lhs => rw [← hsplit, hd]
            simp [List.flatMap_append, csv.flatMap_takeWhile_plain]
          have hstep : ∃ b2, (if c = 34 then b1.WriteString (str "\"\"") else b1.WriteByte c)
                = (b2, none) ∧
              b2.Holds s0 (sent ++ field.takeWhile csv.plain ++
                (if c = 34 then [34, 34] else [c])) := by
            by_cases hc : c = 34
            · simp only [hc, if_true]
              obtain ⟨r2, r1⟩ := bufio.Writer.WriteString_holds b1 (str "\"\"") s0 _ hw1
              refine ⟨(b1.WriteString (str "\"\"")).1, Prod.ext rfl r2, ?_⟩
              have : str "\"\"" = [34, 34] := by decide
              rw [this] at r1
              exact r1
            · simp only [hc, if_false]
              obtain ⟨r2, r1⟩ := bufio.Writer.WriteByte_holds b1 c s0 _ hw1
              exact ⟨(b1.WriteByte c).1, Prod.ext rfl r2, r1⟩
          obtain ⟨b2, hb2, hh2⟩ := hstep
          rw [hb2]
          simp only
          have := ih rest.length hlen rest b2 _ hh2 rfl
          rw [hflat]
          simpa [List.append_assoc] using this

theorem csv.writeField_holds (n : Nat) (field : GoString) (b : bufio.Writer) (s0 : Sink)
    (sent : List Byte) (h : b.Holds s0 sent) :
    (csv.writeField n field b).2 = none ∧
    (csv.writeField n field b).1.Holds s0
      (sent ++ (if n > 0 then [44] else []) ++ csv.encodeField field) := by
  unfold csv.writeField
  have hcomma : ∃ b1, (if n > 0 then b.WriteByte 44 else (b, none)) = (b1, none) ∧
      b1.Holds s0 (sent ++ (if n > 0 then [44] else [])) := by
    by_cases hn : n > 0
    · simp only [hn, if_true]
      obtain ⟨r2, r1⟩ := bufio.Writer.WriteByte_holds b 44 s0 sent h
      exact ⟨(b.WriteByte 44).1, Prod.ext rfl r2, r1⟩
    · simp only [hn, if_false]
      exact ⟨b, rfl, by simpa using h⟩
  obtain ⟨b1, hb1, hh1⟩ := hcomma
  rw [hb1]
  simp only
  unfold csv.encodeField
  by_cases hq : csv.fieldNeedsQuotes field = true
  · simp only [hq, not_true_eq_false, if_false, if_true]
    obtain ⟨q2, q1⟩ := bufio.Writer.WriteByte_holds b1 34 s0 _ hh1
    cases hw : b1.WriteByte 34 with
    | mk b2 e2 =>
      rw [hw] at q2 q1
      simp only at q2 q1
      subst q2
      simp only
      obtain ⟨p2, p1⟩ := csv.writeQuoted_holds field b2 s0 _ q1
      cases hwq : csv.writeQuoted field b2 with
      | mk b3 e3 =>
        rw [hwq] at p2 p1
        simp only at p2 p1
        subst p2
        simp only
        obtain ⟨t2, t1⟩ := bufio.Writer.WriteByte_holds b3 34 s0 _ p1
        refine ⟨t2, ?_⟩
        simpa [List.append_assoc] using t1
  · simp only [hq, not_false_eq_true, if_true, if_false]
    exact bufio.Writer.WriteString_holds b1 field s0 _ hh1

theorem csv.writeFields_holds (n : Nat) (record : List GoString) (b : bufio.Writer)
    (s0 : Sink) (sent : List Byte) (h : b.Holds s0 sent) (hn : n > 0) :
    (csv.writeFields n record b).2 = none ∧
    (csv.writeFields n record b).1.Holds s0
      (sent ++ record.flatMap (fun field => [44] ++ csv.encodeField field)) := by
  induction record generalizing n b sent with
  | nil => simpa [csv.writeFields] using h
  | cons field rest ih =>
    unfold csv.writeFields
    obtain ⟨r2, r1⟩ := csv.writeField_holds n field b s0 sent h
    cases hw : csv.writeField n field b with
    | mk b1 e1 =>
      rw [hw] at r2 r1
      simp only at r2 r1
      subst r2
      simp only [hn, if_true] at r1
      simp only
      have := ih (n + 1) b1 _ r1 (Nat.succ_pos n)
      simpa [List.append_assoc] using this

theorem strings.Join_cons (a : GoString) (l : List GoString) (sep : GoString) :
    strings.Join (a :: l) sep = a ++ l.flatMap (fun x => sep ++ x) := by
  induction l generalizing a with
  | nil => simp [strings.Join]
  | cons b rest ih =>
    rw [strings.Join, ih b]
    simp [List.append_assoc]

theorem csv.writeFields_zero_holds (record : List GoString) (b : bufio.Writer)
    (s0 : Sink) (sent : List Byte) (h : b.Holds s0 sent) :
    (csv.writeFields 0 record b).2 = none ∧
    (csv.writeFields 0 record b).1.Holds s0
      (sent ++ strings.Join (record.map csv.encodeField) [44]) := by
  cases record with
  | nil => simpa [csv.writeFields, strings.Join] using h
  | cons field rest =>
    unfold csv.writeFields
    obtain ⟨r2, r1⟩ := csv.writeField_holds 0 field b s0 sent h
    cases hw : csv.writeField 0 field b with
    | mk b1 e1 =>
      rw [hw] at r2 r1
      simp only at r2 r1
      subst r2
      simp only [gt_iff_lt, lt_self_iff_false, if_false, List.append_nil] at r1
      simp only
      have := csv.writeFields_holds 1 rest b1 s0 _ r1 Nat.one_pos
      rw [List.map_cons, strings.Join_cons, List.flatMap_map]
      simpa [List.append_assoc] using this

/-- On a healthy writer `Write` sends the line of the record and returns nil. -/
theorem csv.Writer.Write_emits (record : List GoString) :
    Step.Emits (csv.Writer.Write record) (csv.encodeRecord record) := by
  intro w s0 sent h
  unfold csv.Writer.Write
  obtain ⟨r2, r1⟩ := csv.writeFields_zero_holds record w.w s0 sent h
  cases hw : csv.writeFields 0 record w.w with
  | mk b1 e1 =>
    rw [hw] at r2 r1
    simp only at r2 r1
    subst r2
    simp only
    obtain ⟨t2, t1⟩ := bufio.Writer.WriteByte_holds b1 10 s0 _ r1
    refine ⟨⟨(b1.WriteByte 10).1⟩, ?_, ?_⟩
    · rw [← t2]
    · simpa [csv.encodeRecord, List.append_assoc] using t1

theorem Step.seq_emits (steps : List Step) (bytes : List (List Byte))
    (h : List.Forall₂ Step.Emits steps bytes) :
    Step.Emits (Step.seq steps) bytes.flatten := by
  induction h with
  | nil =>
    intro w s0 sent hw
    exact ⟨w, rfl, by simpa using hw⟩
  | cons hab _ ih =>
    intro w s0 sent hw
    obtain ⟨w1, e1, h1⟩ := hab w s0 sent hw
    obtain ⟨w2, e2, h2⟩ := ih w1 s0 _ h1
    refine ⟨w2, ?_, ?_⟩
    · simp only [Step.seq, e1, e2]
    · simpa [List.append_assoc] using h2

theorem Step.seq_map_emits {α : Type} (f : α → Step) (g : α → List Byte) (l : List α)
    (h : ∀ a, Step.Emits (f a) (g a)) :
    Step.Emits (Step.seq (l.map f)) (l.flatMap g) := by
  have := Step.seq_emits (l.map f) (l.map g) (by
    induction l with
    | nil => exact List.Forall₂.nil
    | cons a rest ih => exact List.Forall₂.cons (h a) ih)
  simpa [List.flatMap] using this

theorem CSVFormatter.writeProvider_emits (sortSlice : SortSlice) (provider : AddonProvider) :
    Step.Emits (CSVFormatter.writeProvider sortSlice provider)
      (csv.encodeRecords (CSVFormatter.providerRecords sortSlice provider)) := by
  unfold CSVFormatter.writeProvider CSVFormatter.providerRecords csv.encodeRecords
  by_cases h : provider.Plans.length = 0
  · simp only [h, if_true, List.flatMap_cons, List.flatMap_nil, List.append_nil]
    exact csv.Writer.Write_emits _
  · simp only [h, if_false, List.flatMap_map]
    exact Step.seq_map_emits _ _ _ (fun plan => csv.Writer.Write_emits _)

theorem CSVFormatter.writeInstance_emits (sortSlice : SortSlice)
    (instance_ : ProductInstance) :
    Step.Emits (CSVFormatter.writeInstance sortSlice instance_)
      (csv.encodeRecords (CSVFormatter.instanceRecords sortSlice instance_)) := by
  unfold CSVFormatter.writeInstance CSVFormatter.instanceRecords csv.encodeRecords
  by_cases h : instance_.Flavors.length = 0
  · simp only [h, if_true, List.flatMap_cons, List.flatMap_nil, List.append_nil]
    exact csv.Writer.Write_emits _
  · simp only [h, if_false, List.flatMap_map]
    exact Step.seq_map_emits _ _ _ (fun flavor => csv.Writer.Write_emits _)

theorem csv.encodeRecords_append (a b : List (List GoString)) :
    csv.encodeRecords (a ++ b) = csv.encodeRecords a ++ csv.encodeRecords b := by
  simp [csv.encodeRecords]

theorem CSVFormatter.body_emits (sortSlice : SortSlice) (providers : List AddonProvider)
    (instances : List ProductInstance) :
    Step.Emits (CSVFormatter.body sortSlice providers instances)
      (csv.encodeRecords (CSVFormatter.records sortSlice providers instances)) := by
  have hp := Step.seq_map_emits (CSVFormatter.writeProvider sortSlice) _ providers
    (CSVFormatter.writeProvider_emits sortSlice)
  have hi := Step.seq_map_emits (CSVFormatter.writeInstance sortSlice) _ instances
    (CSVFormatter.writeInstance_emits sortSlice)
  have := Step.seq_emits _ _
    (List.Forall₂.cons (csv.Writer.Write_emits
        [str "# Complete Clever Cloud Services Overview - CSV Export"])
     (List.Forall₂.cons (csv.Writer.Write_emits
        [str "# Automatically generated via Clever Cloud API"])
     (List.Forall₂.cons (csv.Writer.Write_emits [])
     (List.Forall₂.cons (csv.Writer.Write_emits [str "# ADDON PROVIDERS"])
     (List.Forall₂.cons (csv.Writer.Write_emits CSVFormatter.addonHeader)
     (List.Forall₂.cons hp
     (List.Forall₂.cons (csv.Writer.Write_emits [])
     (List.Forall₂.cons (csv.Writer.Write_emits [str "# APPLICATION INSTANCES"])
     (List.Forall₂.cons (csv.Writer.Write_emits CSVFormatter.applicationHeader)
     (List.Forall₂.cons hi List.Forall₂.nil))))))))))
  unfold CSVFormatter.body
  convert this using 1
  simp [CSVFormatter.records, csv.encodeRecords, CSVFormatter.addonRows,
    CSVFormatter.applicationRows, List.flatMap_append, List.flatten, List.flatMap_assoc]

/-- On a sink that never fails, `Format` returns nil and leaves in the sink, after what it
held, the lines of `CSVFormatter.records`. -/
theorem CSVFormatter.Format_ok (sortSlice : SortSlice) (providers : List AddonProvider)
    (instances : List ProductInstance) (writer : Sink) (hw : writer.okWrites = none) :
    CSVFormatter.Format sortSlice providers instances writer =
      ({ writer with data := writer.data ++
          csv.encodeRecords (CSVFormatter.records sortSlice providers instances) }, none) := by
  unfold CSVFormatter.Format
  have h0 : (csv.NewWriter writer).w.Holds writer [] :=
    ⟨rfl, hw, rfl, by simp [csv.NewWriter]⟩
  obtain ⟨w1, e1, h1⟩ := CSVFormatter.body_emits sortSlice providers instances _ _ _ h0
  simp only [e1]
  obtain ⟨_, ⟨_, hok, hf, hd⟩, hb⟩ := bufio.Writer.Flush_holds w1.w writer _ h1
  refine Prod.ext ?_ rfl
  simp only [csv.Writer.Flush]
  rw [hb, List.append_nil, List.nil_append] at hd
  cases hs : w1.w.Flush.1.wr with
  | mk d o f =>
    rw [hs] at hok hf hd
    simp only at hok hf hd
    subst hok hf hd
    cases writer
    simp_all

/-! ## Theorems: truncateText -/

/-- C1: for every text and every maxLen >= 4 with len(text) > maxLen, truncateText returns
(without panicking) the first maxLen - 3 bytes of text followed by "...". -/
theorem truncateText_long (text : GoString) (maxLen : Int)
    (h4 : 4 ≤ maxLen) (hlen : maxLen < (text.length : Int)) :
    truncateText text maxLen = some (text.take (maxLen - 3).toNat ++ str "...") := by
  have h1 : ¬ maxLen ≤ 0 := by omega
  have h2 : ¬ (text.length : Int) ≤ maxLen := by omega
  have h3 : ¬ maxLen ≤ 3 := by omega
  have h5 : 0 ≤ maxLen - 3 ∧ maxLen - 3 ≤ (text.length : Int) := by omega
  simp [truncateText, sliceTo, h1, h2, h3, h5]

/-- Witness of C1 at the two rows of the test table that truncate:
("this is a very long text", 10) and ("toolong", 5). -/
theorem truncateText_long_witness :
    truncateText (str "this is a very long text") 10 = some (str "this is...") ∧
    truncateText (str "toolong") 5 = some (str "to...") :=
  ⟨(truncateText_long (str "this is a very long text") 10 (by decide) (by decide)).trans
      (by decide),
   (truncateText_long (str "toolong") 5 (by decide) (by decide)).trans (by decide)⟩

/-- C2: for every text and every maxLen > 0 with len(text) <= maxLen, truncateText returns
text unchanged. -/
theorem truncateText_fits (text : GoString) (maxLen : Int)
    (hpos : 0 < maxLen) (hlen : (text.length : Int) ≤ maxLen) :
    truncateText text maxLen = some text := by
  have h1 : ¬ maxLen ≤ 0 := by omega
  simp [truncateText, h1, hlen]

/-- Witness of C2 at ("short", 10), ("exact", 5) and ("x", 3). -/
theorem truncateText_fits_witness :
    truncateText (str "short") 10 = some (str "short") ∧
    truncateText (str "exact") 5 = some (str "exact") ∧
    truncateText (str "x") 3 = some (str "x") :=
  ⟨truncateText_fits (str "short") 10 (by decide) (by decide),
   truncateText_fits (str "exact") 5 (by decide) (by decide),
   truncateText_fits (str "x") 3 (by decide) (by decide)⟩

/-- C3: for every text, empty or not, and every maxLen <= 0, truncateText returns the
empty string. -/
theorem truncateText_nonpositive (text : GoString) (maxLen : Int) (h : maxLen ≤ 0) :
    truncateText text maxLen = some [] := by
  simp [truncateText, h, str]
  rfl

/-- Witness of C3 at ("toolong", 0), ("", 0) and ("toolong", -5). -/
theorem truncateText_nonpositive_witness :
    truncateText (str "toolong") 0 = some [] ∧
    truncateText [] 0 = some [] ∧
    truncateText (str "toolong") (-5) = some [] :=
  ⟨truncateText_nonpositive (str "toolong") 0 (by decide),
   truncateText_nonpositive [] 0 (by decide),
   truncateText_nonpositive (str "toolong") (-5) (by decide)⟩

/-- C4: for every text longer than maxLen, truncateText returns "." when maxLen = 1 and
the three-byte "..." when maxLen is 2 or 3; at maxLen = 2 the result is one byte longer
than maxLen. -/
theorem truncateText_tiny (text : GoString) (maxLen : Int)
    (hlen : maxLen < (text.length : Int)) :
    (maxLen = 1 → truncateText text maxLen = some (str ".")) ∧
    (maxLen = 2 ∨ maxLen = 3 → truncateText text maxLen = some (str "...")) ∧
    (maxLen = 2 → ∃ r, truncateText text maxLen = some r ∧ (r.length : Int) = maxLen + 1) := by
  have h2 : ¬ (text.length : Int) ≤ maxLen := by omega
  refine ⟨?_, ?_, ?_⟩
  · intro h
    subst h
    simp [truncateText, h2]
  · intro h
    have h1 : ¬ maxLen ≤ 0 := by omega
    have h3 : maxLen ≤ 3 := by omega
    have h4 : ¬ maxLen = 1 := by omega
    simp [truncateText, h1, h2, h3, h4]
  · intro h
    subst h
    refine ⟨str "...", ?_, by decide⟩
    simp [truncateText, h2]

/-- Witness of C4 at ("toolong", 1), ("toolong", 2) and ("toolong", 3). -/
theorem truncateText_tiny_witness :
    truncateText (str "toolong") 1 = some (str ".") ∧
    truncateText (str "toolong") 2 = some (str "...") ∧
    truncateText (str "toolong") 3 = some (str "...") ∧
    ((str "...").length : Int) = 2 + 1 :=
  ⟨(truncateText_tiny (str "toolong") 1 (by decide)).1 rfl,
   (truncateText_tiny (str "toolong") 2 (by decide)).2.1 (Or.inl rfl),
   (truncateText_tiny (str "toolong") 3 (by decide)).2.1 (Or.inr rfl),
   by decide⟩

/-! ## Theorems: GetFormatter and ValidateOutputFormat -/

/-- C5: GetFormatter maps "markdown" to MarkdownFormatter, "txt" to TextFormatter, "csv" to
CSVFormatter and "pdf" to PDFFormatter, and these four renderer kinds are pairwise
distinct. -/
theorem GetFormatter_recognised :
    GetFormatter (str "markdown") = Formatter.MarkdownFormatter ∧
    GetFormatter (str "txt") = Formatter.TextFormatter ∧
    GetFormatter (str "csv") = Formatter.CSVFormatter ∧
    GetFormatter (str "pdf") = Formatter.PDFFormatter ∧
    [Formatter.MarkdownFormatter, Formatter.TextFormatter, Formatter.CSVFormatter,
      Formatter.PDFFormatter].Nodup := by
  refine ⟨by decide, by decide, by decide, by decide, by decide⟩

/-- C6: for every format string that is none of "markdown", "txt", "csv", "pdf",
GetFormatter returns the Markdown renderer; the function is total and its result carries
no error component. -/
theorem GetFormatter_fallback (format : GoString)
    (hm : format ≠ str "markdown") (ht : format ≠ str "txt")
    (hc : format ≠ str "csv") (hp : format ≠ str "pdf") :
    GetFormatter format = Formatter.MarkdownFormatter := by
  simp [GetFormatter, hm, ht, hc, hp]

/-- Witness of C6 at "", "unknown" and the differently-cased "CSV". -/
theorem GetFormatter_fallback_witness :
    GetFormatter (str "") = Formatter.MarkdownFormatter ∧
    GetFormatter (str "unknown") = Formatter.MarkdownFormatter ∧
    GetFormatter (str "CSV") = Formatter.MarkdownFormatter :=
  ⟨GetFormatter_fallback (str "") (by decide) (by decide) (by decide) (by decide),
   GetFormatter_fallback (str "unknown") (by decide) (by decide) (by decide) (by decide),
   GetFormatter_fallback (str "CSV") (by decide) (by decide) (by decide) (by decide)⟩

/-- C7: for every string f, ValidateOutputFormat(f) is true if and only if f is exactly one
of "markdown", "txt", "csv", "pdf"; "MARKDOWN" and the empty string are rejected. -/
theorem ValidateOutputFormat_iff (f : GoString) :
    (ValidateOutputFormat f = true ↔
      f = str "markdown" ∨ f = str "txt" ∨ f = str "csv" ∨ f = str "pdf") ∧
    ValidateOutputFormat (str "MARKDOWN") = false ∧
    ValidateOutputFormat (str "") = false := by
  refine ⟨?_, by decide, by decide⟩
  by_cases h1 : f = str "markdown"
  · subst h1; simp; decide
  by_cases h2 : f = str "txt"
  · subst h2; simp; decide
  by_cases h3 : f = str "csv"
  · subst h3; simp; decide
  by_cases h4 : f = str "pdf"
  · subst h4; simp; decide
  have e1 : (str "markdown" == f) = false := by simpa using fun h => h1 h.symm
  have e2 : (str "txt" == f) = false := by simpa using fun h => h2 h.symm
  have e3 : (str "csv" == f) = false := by simpa using fun h => h3 h.symm
  have e4 : (str "pdf" == f) = false := by simpa using fun h => h4 h.symm
  simp [ValidateOutputFormat, GoMap.index, List.find?, e1, e2, e3, e4, h1, h2, h3, h4]

/-! ## Theorems: the CSV renderer -/

theorem CSVFormatter.providerRecords_length (sortSlice : SortSlice)
    (hs : sortSlice.Permutes) (provider : AddonProvider) :
    (CSVFormatter.providerRecords sortSlice provider).length =
      max 1 provider.Plans.length := by
  unfold CSVFormatter.providerRecords
  by_cases h : provider.Plans.length = 0
  · simp [h]
  · simp only [h, if_false, List.length_map, (hs _ _ _).length_eq]
    omega

theorem CSVFormatter.instanceRecords_length (sortSlice : SortSlice)
    (hs : sortSlice.Permutes) (instance_ : ProductInstance) :
    (CSVFormatter.instanceRecords sortSlice instance_).length =
      max 1 instance_.Flavors.length := by
  unfold CSVFormatter.instanceRecords
  by_cases h : instance_.Flavors.length = 0
  · simp [h]
  · simp only [h, if_false, List.length_map, (hs _ _ _).length_eq]
    omega

theorem List.length_flatMap_eq_sum {α β : Type} (f : α → List β) (g : α → Nat)
    (l : List α) (h : ∀ a, (f a).length = g a) :
    (l.flatMap f).length = (l.map g).sum := by
  induction l with
  | nil => rfl
  | cons a rest ih => simp [List.flatMap_cons, h a, ih]

/-- C8: a provider whose plans list is empty gets exactly one addon row, between the rows
of the providers before it and those of the providers after it, with the six fields
"addon", provider id, provider name, "", "No plans available", ""; for the provider
redis/Redis the line is `addon,redis,Redis,,No plans available,`. -/
theorem CSVFormatter.no_plans_row (sortSlice : SortSlice)
    (before after : List AddonProvider) (provider : AddonProvider)
    (instances : List ProductInstance) (writer : Sink)
    (hw : writer.okWrites = none) (hp : provider.Plans = []) :
    CSVFormatter.Format sortSlice (before ++ provider :: after) instances writer =
      ({ writer with data := writer.data ++ csv.encodeRecords (
          [[str "# Complete Clever Cloud Services Overview - CSV Export"],
           [str "# Automatically generated via Clever Cloud API"],
           [],
           [str "# ADDON PROVIDERS"],
           CSVFormatter.addonHeader] ++
          CSVFormatter.addonRows sortSlice before ++
          [[str "addon", provider.ID, provider.Name, [], str "No plans available", []]] ++
          CSVFormatter.addonRows sortSlice after ++
          [[], [str "# APPLICATION INSTANCES"], CSVFormatter.applicationHeader] ++
          CSVFormatter.applicationRows sortSlice instances) }, none) ∧
    csv.encodeRecord
        [str "addon", str "redis", str "Redis", [], str "No plans available", []] =
      str "addon,redis,Redis,,No plans available,\n" := by
  refine ⟨?_, by decide⟩
  rw [CSVFormatter.Format_ok _ _ _ _ hw]
  have hrec : CSVFormatter.providerRecords sortSlice provider =
      [[str "addon", provider.ID, provider.Name, [], str "No plans available", []]] := by
    unfold CSVFormatter.providerRecords CSVFormatter.noPlansRecord
    simp only [hp, List.length_nil, if_true]
    rfl
  simp only [CSVFormatter.records, CSVFormatter.addonRows, List.flatMap_append,
    List.flatMap_cons, hrec, List.append_assoc]

/-- C9: the addon section holds the records of the providers in list order; a provider
with n >= 1 plans has exactly n rows, one per plan of a rearrangement of its plans, each
with "addon", the provider's id and name and the plan's id, name and slug; every addon
data row starts with "addon"; the rows number the sum over providers of
max(1, number of plans). -/
theorem CSVFormatter.addon_rows (sortSlice : SortSlice) (hs : sortSlice.Permutes)
    (providers : List AddonProvider) (instances : List ProductInstance) (writer : Sink)
    (hw : writer.okWrites = none) :
    CSVFormatter.Format sortSlice providers instances writer =
      ({ writer with data := writer.data ++ csv.encodeRecords (
          [[str "# Complete Clever Cloud Services Overview - CSV Export"],
           [str "# Automatically generated via Clever Cloud API"],
           [],
           [str "# ADDON PROVIDERS"],
           CSVFormatter.addonHeader] ++
          providers.flatMap (CSVFormatter.providerRecords sortSlice) ++
          [[], [str "# APPLICATION INSTANCES"], CSVFormatter.applicationHeader] ++
          CSVFormatter.applicationRows sortSlice instances) }, none) ∧
    (∀ provider : AddonProvider, 1 ≤ provider.Plans.length →
      (CSVFormatter.providerRecords sortSlice provider).length = provider.Plans.length ∧
      ∃ plans : List AddonPlan, plans.Perm provider.Plans ∧
        CSVFormatter.providerRecords sortSlice provider = plans.map (fun plan =>
          [str "addon", provider.ID, provider.Name, plan.ID, plan.Name, plan.Slug])) ∧
    (∀ row ∈ providers.flatMap (CSVFormatter.providerRecords sortSlice),
      row.head? = some (str "addon")) ∧
    (providers.flatMap (CSVFormatter.providerRecords sortSlice)).length =
      (providers.map (fun provider => max 1 provider.Plans.length)).sum := by
  refine ⟨?_, ?_, ?_, ?_⟩
  · rw [CSVFormatter.Format_ok _ _ _ _ hw]
    rfl
  · intro provider hn
    have h0 : ¬ provider.Plans.length = 0 := by omega
    refine ⟨?_, _, hs AddonPlan (fun a b => stringLess a.Slug b.Slug) provider.Plans, ?_⟩
    · rw [CSVFormatter.providerRecords_length sortSlice hs]
      omega
    · unfold CSVFormatter.providerRecords
      simp only [h0, if_false]
      rfl
  · intro row hrow
    obtain ⟨provider, _, hmem⟩ := List.mem_flatMap.mp hrow
    unfold CSVFormatter.providerRecords at hmem
    by_cases h0 : provider.Plans.length = 0
    · simp only [h0, if_true, List.mem_singleton] at hmem
      subst hmem
      rfl
    · simp only [h0, if_false, List.mem_map] at hmem
      obtain ⟨plan, _, hplan⟩ := hmem
      subst hplan
      rfl
  · exact List.length_flatMap_eq_sum _ _ _
      (CSVFormatter.providerRecords_length sortSlice hs)

/-- C10: the application section holds the records of every instance of the list, enabled
or not, in list order; an instance contributes max(1, number of flavors) rows, each of
20 fields, starting with "application" and with "true" or "false" in the Enabled field
according to the instance; an instance without flavors contributes one row whose last
eleven fields are empty. -/
theorem CSVFormatter.application_rows (sortSlice : SortSlice) (hs : sortSlice.Permutes)
    (providers : List AddonProvider) (instances : List ProductInstance) (writer : Sink)
    (hw : writer.okWrites = none) :
    CSVFormatter.Format sortSlice providers instances writer =
      ({ writer with data := writer.data ++ csv.encodeRecords (
          [[str "# Complete Clever Cloud Services Overview - CSV Export"],
           [str "# Automatically generated via Clever Cloud API"],
           [],
           [str "# ADDON PROVIDERS"],
           CSVFormatter.addonHeader] ++
          CSVFormatter.addonRows sortSlice providers ++
          [[], [str "# APPLICATION INSTANCES"], CSVFormatter.applicationHeader] ++
          instances.flatMap (CSVFormatter.instanceRecords sortSlice)) }, none) ∧
    (∀ instance_ : ProductInstance,
      (CSVFormatter.instanceRecords sortSlice instance_).length =
        max 1 instance_.Flavors.length ∧
      (∀ row ∈ CSVFormatter.instanceRecords sortSlice instance_,
        row.length = 20 ∧ row[0]? = some (str "application") ∧
        row[5]? = some (if instance_.Enabled then str "true" else str "false")) ∧
      (instance_.Flavors.length = 0 →
        ∃ row, CSVFormatter.instanceRecords sortSlice instance_ = [row] ∧
          row.drop 9 = List.replicate 11 [])) ∧
    (instances.flatMap (CSVFormatter.instanceRecords sortSlice)).length =
      (instances.map (fun instance_ => max 1 instance_.Flavors.length)).sum := by
  refine ⟨?_, ?_, ?_⟩
  · rw [CSVFormatter.Format_ok _ _ _ _ hw]
    rfl
  · intro instance_
    refine ⟨CSVFormatter.instanceRecords_length sortSlice hs instance_, ?_, ?_⟩
    · intro row hmem
      unfold CSVFormatter.instanceRecords at hmem
      by_cases h0 : instance_.Flavors.length = 0
      · simp only [h0, if_true, List.mem_singleton] at hmem
        subst hmem
        exact ⟨rfl, rfl, rfl⟩
      · simp only [h0, if_false, List.mem_map] at hmem
        obtain ⟨flavor, _, hflavor⟩ := hmem
        subst hflavor
        exact ⟨rfl, rfl, rfl⟩
    · intro h0
      refine ⟨CSVFormatter.noFlavorsRecord instance_, ?_, rfl⟩
      unfold CSVFormatter.instanceRecords
      simp only [h0, if_true]
  · exact List.length_flatMap_eq_sum _ _ _
      (CSVFormatter.instanceRecords_length sortSlice hs)

set_option maxRecDepth 1000000 in
/-- Witness of C8: the provider redis/Redis without plans, alone, on an empty sink that
never fails: the whole output, and the nil error. -/
theorem CSVFormatter.no_plans_row_witness :
    (CSVFormatter.Format insertionSortLessFunc
        [{ ID := str "redis", Name := str "Redis", Plans := [] }] [] {}).1.data =
      str "# Complete Clever Cloud Services Overview - CSV Export\n" ++
      str "# Automatically generated via Clever Cloud API\n" ++
      str "\n" ++
      str "# ADDON PROVIDERS\n" ++
      str "Type,Provider_ID,Provider_Name,Plan_ID,Plan_Name,Plan_Slug\n" ++
      str "addon,redis,Redis,,No plans available,\n" ++
      str "\n" ++
      str "# APPLICATION INSTANCES\n" ++
      csv.encodeRecord CSVFormatter.applicationHeader ∧
    (CSVFormatter.Format insertionSortLessFunc
        [{ ID := str "redis", Name := str "Redis", Plans := [] }] [] {}).2 = none :=
  by
  have h := (CSVFormatter.no_plans_row insertionSortLessFunc [] []
    { ID := str "redis", Name := str "Redis", Plans := [] } [] {} rfl rfl).1
  rw [List.nil_append] at h
  rw [h]
  exact ⟨by decide, rfl⟩

set_option maxRecDepth 1000000 in
/-- Witness of C9: the fixture providers (redis with the plans small, large; postgresql
with dev, prod) with the library's insertion sort, on an empty sink that never fails. -/
theorem CSVFormatter.addon_rows_witness :
    (CSVFormatter.Format insertionSortLessFunc TestAddonProviders [] {}).1.data =
      str "# Complete Clever Cloud Services Overview - CSV Export\n" ++
      str "# Automatically generated via Clever Cloud API\n" ++
      str "\n" ++
      str "# ADDON PROVIDERS\n" ++
      str "Type,Provider_ID,Provider_Name,Plan_ID,Plan_Name,Plan_Slug\n" ++
      str "addon,redis,Redis,redis_large,Large Redis,large\n" ++
      str "addon,redis,Redis,redis_small,Small Redis,small\n" ++
      str "addon,postgresql,PostgreSQL,pg_dev,Dev PostgreSQL,dev\n" ++
      str "addon,postgresql,PostgreSQL,pg_prod,Production PostgreSQL,prod\n" ++
      str "\n" ++
      str "# APPLICATION INSTANCES\n" ++
      csv.encodeRecord CSVFormatter.applicationHeader ∧
    (CSVFormatter.Format insertionSortLessFunc TestAddonProviders [] {}).2 = none ∧
    (TestAddonProviders.flatMap
        (CSVFormatter.providerRecords insertionSortLessFunc)).length = 4 :=
  by
  have h := CSVFormatter.addon_rows insertionSortLessFunc insertionSortLessFunc_permutes
    TestAddonProviders [] {} rfl
  rw [h.1]
  exact ⟨by decide, rfl, h.2.2.2.trans (by decide)⟩

set_option maxRecDepth 1000000 in
set_option exponentiation.threshold 1100 in
/-- Witness of C10: the fixture instances followed by a disabled instance with one flavor
and a disabled instance without flavors, on an empty sink that never fails. -/
theorem CSVFormatter.application_rows_witness :
    (CSVFormatter.Format insertionSortLessFunc []
        (TestProductInstances ++ [
          { Type_ := str "ruby", Name := str "Ruby", Enabled := false,
            Flavors := [{ Name := str "nano" }] },
          { Type_ := str "zig", Enabled := false }]) {}).1.data =
      str "# Complete Clever Cloud Services Overview - CSV Export\n" ++
      str "# Automatically generated via Clever Cloud API\n" ++
      str "\n" ++
      str "# ADDON PROVIDERS\n" ++
      str "Type,Provider_ID,Provider_Name,Plan_ID,Plan_Name,Plan_Slug\n" ++
      str "\n" ++
      str "# APPLICATION INSTANCES\n" ++
      csv.encodeRecord CSVFormatter.applicationHeader ++
      str "application,node,Node.js,20,Node.js runtime,true,20,runtime|javascript,git|docker,nano,256 MB,256,MB,1,0,0.02,true,true,false,true\n" ++
      str "application,node,Node.js,20,Node.js runtime,true,20,runtime|javascript,git|docker,small,512 MB,512,MB,1,0,0.04,true,false,false,false\n" ++
      str "application,python,Python,3.11,Python runtime,true,10,runtime|python,git,small,512 MB,512,MB,1,0,0.04,true,false,true,true\n" ++
      str "application,ruby,Ruby,,,false,0,,,nano,,0,,0,0,0.00,false,false,false,false\n" ++
      str "application,zig,,,,false,0,,,,,,,,,,,,,\n" ∧
    (CSVFormatter.Format insertionSortLessFunc []
        (TestProductInstances ++ [
          { Type_ := str "ruby", Name := str "Ruby", Enabled := false,
            Flavors := [{ Name := str "nano" }] },
          { Type_ := str "zig", Enabled := false }]) {}).2 = none :=
  by
  have h := (CSVFormatter.application_rows insertionSortLessFunc
    insertionSortLessFunc_permutes []
    (TestProductInstances ++ [
      { Type_ := str "ruby", Name := str "Ruby", Enabled := false,
        Flavors := [{ Name := str "nano" }] },
      { Type_ := str "zig", Enabled := false }]) {} rfl).1
  rw [h]
  exact ⟨by decide, rfl⟩

/-! ## Lemmas: sorted results and loops -/

theorem insertLeft_descending {α : Type} (key : α → GoString) (x : α) (l : List α)
    (h : l.Pairwise (fun a b => key b ≤ key a)) :
    (insertLeft (fun a b => stringLess (key a) (key b)) x l).Pairwise
      (fun a b => key b ≤ key a) := by
  induction l with
  | nil => simp [insertLeft]
  | cons y ys ih =>
    rw [List.pairwise_cons] at h
    unfold insertLeft
    by_cases hxy : key x < key y
    · simp only [stringLess, hxy, decide_True, if_true]
      rw [List.pairwise_cons]
      refine ⟨?_, ih h.2⟩
      intro b hb
      have hb2 := (insertLeft_perm (fun a b => stringLess (key a) (key b)) x ys).subset hb
      rcases List.mem_cons.mp hb2 with heq | hmem
      · rw [heq]
        exact le_of_lt hxy
      · exact h.1 b hmem
    · simp only [stringLess, hxy, decide_False, Bool.false_eq_true, if_false]
      have hyx : key y ≤ key x := not_lt.mp hxy
      rw [List.pairwise_cons]
      refine ⟨?_, List.pairwise_cons.mpr h⟩
      intro b hb
      rcases List.mem_cons.mp hb with heq | hmem
      · rw [heq]
        exact hyx
      · exact le_trans (h.1 b hmem) hyx

theorem foldl_insertLeft_descending {α : Type} (key : α → GoString) (l acc : List α)
    (h : acc.Pairwise (fun a b => key b ≤ key a)) :
    (l.foldl (fun sorted x => insertLeft (fun a b => stringLess (key a) (key b)) x sorted)
      acc).Pairwise (fun a b => key b ≤ key a) := by
  induction l generalizing acc with
  | nil => simpa using h
  | cons x xs ih =>
    simp only [List.foldl_cons]
    exact ih _ (insertLeft_descending key x acc h)

/-- The library's insertion sort meets the ordering half of the contract. -/
theorem insertionSortLessFunc_sorts : SortSlice.Sorts insertionSortLessFunc := by
  intro α key l
  unfold insertionSortLessFunc
  rw [List.pairwise_reverse]
  exact foldl_insertLeft_descending key l [] List.Pairwise.nil

theorem rangeFrom_length {α β : Type} (body : Nat → α → β) (i : Nat) (xs : List α) :
    (rangeFrom body i xs).length = xs.length := by
  induction xs generalizing i with
  | nil => rfl
  | cons x rest ih => simp [rangeFrom, ih]

theorem rangeFrom_succ {α β : Type} (body : Nat → α → β) (g : α → β) (i : Nat)
    (xs : List α) (h : ∀ j x, body (j + 1) x = g x) :
    rangeFrom body (i + 1) xs = xs.map g := by
  induction xs generalizing i with
  | nil => rfl
  | cons x rest ih => simp [rangeFrom, ih, h]

theorem flatMap_mem_split {α β : Type} (f : α → List β) (l : List α) (a : α)
    (h : a ∈ l) : ∃ pre post, l.flatMap f = pre ++ f a ++ post := by
  obtain ⟨s, t, rfl⟩ := List.append_of_mem h
  exact ⟨s.flatMap f, t.flatMap f, by simp [List.flatMap_append, List.flatMap_cons]⟩

theorem sorted_nonempty (sortSlice : SortSlice) (hs : sortSlice.Permutes) {α : Type}
    (less : α → α → Bool) (l : List α) (h : l.length ≠ 0) :
    (sortSlice α less l).length ≠ 0 := by
  rw [(hs α less l).length_eq]
  exact h

/-! ## Theorems: default flavor, enabled filter, tags -/

/-- C11: in every CSV application row that carries a flavor the IsDefault field (the
last of the 20) is "true" exactly when flavor.name equals instance.defaultFlavor.name and
"false" otherwise; so among the rows of an instance those marked default number the
flavors bearing the default flavor's name (zero, one or several). -/
theorem CSVFormatter.isDefault_column (sortSlice : SortSlice) (hs : sortSlice.Permutes)
    (instance_ : ProductInstance) :
    (∀ flavor : Flavor,
      (CSVFormatter.flavorRecord instance_ flavor).length = 20 ∧
      (CSVFormatter.flavorRecord instance_ flavor)[9]? = some flavor.Name ∧
      (CSVFormatter.flavorRecord instance_ flavor)[19]? =
        some (if flavor.Name = instance_.DefaultFlavor.Name then str "true"
              else str "false") ∧
      ((CSVFormatter.flavorRecord instance_ flavor)[19]? = some (str "true") ↔
        flavor.Name = instance_.DefaultFlavor.Name)) ∧
    (instance_.Flavors.length ≠ 0 →
      ∃ flavors : List Flavor, flavors.Perm instance_.Flavors ∧
        CSVFormatter.instanceRecords sortSlice instance_ =
          flavors.map (CSVFormatter.flavorRecord instance_)) ∧
    (CSVFormatter.instanceRecords sortSlice instance_).countP
        (fun row => row[19]? = some (str "true")) =
      instance_.Flavors.countP
        (fun flavor => flavor.Name = instance_.DefaultFlavor.Name) := by
  have hcell : ∀ flavor : Flavor,
      (CSVFormatter.flavorRecord instance_ flavor)[19]? =
        some (if flavor.Name = instance_.DefaultFlavor.Name then str "true"
              else str "false") := by
    intro flavor
    by_cases hd : flavor.Name = instance_.DefaultFlavor.Name
    · simp [CSVFormatter.flavorRecord, hd, strconv.FormatBool]
    · simp [CSVFormatter.flavorRecord, hd, strconv.FormatBool]
  have hrow : ∀ flavor : Flavor,
      ((CSVFormatter.flavorRecord instance_ flavor)[19]? = some (str "true") ↔
        flavor.Name = instance_.DefaultFlavor.Name) := by
    intro flavor
    rw [hcell flavor]
    by_cases hd : flavor.Name = instance_.DefaultFlavor.Name
    · simp [hd]
    · simp only [hd, if_false, iff_false]
      decide
  have hrec : instance_.Flavors.length ≠ 0 →
      CSVFormatter.instanceRecords sortSlice instance_ =
        (sortSlice Flavor (fun a b => stringLess a.Name b.Name) instance_.Flavors).map
          (CSVFormatter.flavorRecord instance_) := by
    intro h0
    unfold CSVFormatter.instanceRecords
    simp only [h0, if_false]
  refine ⟨?_, ?_, ?_⟩
  · intro flavor
    exact ⟨rfl, rfl, hcell flavor, hrow flavor⟩
  · intro h0
    exact ⟨_, hs Flavor _ instance_.Flavors, hrec h0⟩
  · by_cases h0 : instance_.Flavors.length = 0
    · have hnil : instance_.Flavors = [] := List.length_eq_zero.mp h0
      have hone : CSVFormatter.instanceRecords sortSlice instance_ =
          [CSVFormatter.noFlavorsRecord instance_] := by
        unfold CSVFormatter.instanceRecords
        simp only [h0, if_true]
      rw [hone, hnil]
      have hlast : (CSVFormatter.noFlavorsRecord instance_)[19]? = some (str "") := rfl
      simp only [List.countP_cons, List.countP_nil, hlast]
      decide
    · rw [hrec h0, List.countP_map, ← (hs Flavor _ instance_.Flavors).countP_eq]
      apply List.countP_congr
      intro flavor _
      simpa using hrow flavor

set_option maxRecDepth 1000000 in
/-- Witness of C11: the fixture instance "node" (flavors nano and small, default nano)
has one row marked default, the row of nano. -/
theorem CSVFormatter.isDefault_column_witness :
    (CSVFormatter.instanceRecords insertionSortLessFunc
        (TestProductInstances.headD {})).countP
      (fun row => row[19]? = some (str "true")) = 1 ∧
    (CSVFormatter.instanceRecords insertionSortLessFunc
        (TestProductInstances.headD {})).map (fun row => (row[9]?, row[19]?)) =
      [(some (str "nano"), some (str "true")), (some (str "small"), some (str "false"))] :=
  ⟨(CSVFormatter.isDefault_column insertionSortLessFunc insertionSortLessFunc_permutes
      (TestProductInstances.headD {})).2.2.trans (by decide),
   by decide⟩

/-- C12: the strings the Markdown renderer writes for the "Detailed Application Flavors"
table and for the "Flavors by Application Type" section are those it writes when the
instances with enabled = false are first removed from the list; every instance, disabled
or not, has its row in the "Application Summary" table. -/
theorem MarkdownFormatter.disabled_skipped (sortSlice : SortSlice)
    (instances : List ProductInstance) :
    MarkdownFormatter.detailedApplicationFlavors sortSlice instances =
      MarkdownFormatter.detailedApplicationFlavors sortSlice
        (instances.filter (fun instance_ => instance_.Enabled)) ∧
    MarkdownFormatter.flavorsByType sortSlice instances =
      MarkdownFormatter.flavorsByType sortSlice
        (instances.filter (fun instance_ => instance_.Enabled)) ∧
    (∀ instance_ ∈ instances, instance_.Enabled = false →
      MarkdownFormatter.instanceFlavorRows sortSlice instance_ = [] ∧
      MarkdownFormatter.instanceFlavorList sortSlice instance_ = [] ∧
      ∃ pre post, MarkdownFormatter.applicationSummary instances =
        pre ++ [MarkdownFormatter.applicationSummaryRow instance_] ++ post) := by
  have hrows : ∀ l : List ProductInstance,
      l.flatMap (MarkdownFormatter.instanceFlavorRows sortSlice) =
        (l.filter (fun instance_ => instance_.Enabled)).flatMap
          (MarkdownFormatter.instanceFlavorRows sortSlice) := by
    intro l
    induction l with
    | nil => rfl
    | cons a rest ih =>
      by_cases h : a.Enabled = true
      · rw [List.filter_cons_of_pos h, List.flatMap_cons, List.flatMap_cons, ih]
      · rw [List.filter_cons_of_neg h, List.flatMap_cons, ih]
        simp [MarkdownFormatter.instanceFlavorRows, h]
  have hlist : ∀ l : List ProductInstance,
      l.flatMap (MarkdownFormatter.instanceFlavorList sortSlice) =
        (l.filter (fun instance_ => instance_.Enabled)).flatMap
          (MarkdownFormatter.instanceFlavorList sortSlice) := by
    intro l
    induction l with
    | nil => rfl
    | cons a rest ih =>
      by_cases h : a.Enabled = true
      · rw [List.filter_cons_of_pos h, List.flatMap_cons, List.flatMap_cons, ih]
      · rw [List.filter_cons_of_neg h, List.flatMap_cons, ih]
        simp [MarkdownFormatter.instanceFlavorList, h]
  refine ⟨?_, ?_, ?_⟩
  · unfold MarkdownFormatter.detailedApplicationFlavors
    rw [hrows instances]
  · unfold MarkdownFormatter.flavorsByType
    rw [hlist instances]
  · intro instance_ hmem hdis
    refine ⟨by simp [MarkdownFormatter.instanceFlavorRows, hdis],
      by simp [MarkdownFormatter.instanceFlavorList, hdis], ?_⟩
    obtain ⟨s, t, rfl⟩ := List.append_of_mem hmem
    refine ⟨[str "\n## Application Summary\n\n",
      str "| Type | Name | Version | Enabled | Number of Flavors | Default Flavor |\n",
      str "|------|------|---------|---------|-------------------|----------------|\n"] ++
      s.map MarkdownFormatter.applicationSummaryRow,
      t.map MarkdownFormatter.applicationSummaryRow, ?_⟩
    simp [MarkdownFormatter.applicationSummary]

theorem flatMap_shownFlavors {β : Type} (sortSlice : SortSlice)
    (f : ProductInstance → List β) (g : ProductInstance × List Flavor → List β)
    (hdis : ∀ i : ProductInstance, i.Enabled = false → f i = [])
    (hen : ∀ i : ProductInstance, i.Enabled = true →
      f i = g (i, if i.Flavors.length = 0 then []
        else sortSlice Flavor (fun a b => stringLess a.Name b.Name) i.Flavors))
    (instances : List ProductInstance) :
    instances.flatMap f = (shownFlavors sortSlice instances).flatMap g := by
  unfold shownFlavors
  induction instances with
  | nil => rfl
  | cons a rest ih =>
    by_cases h : a.Enabled = true
    · rw [List.filter_cons_of_pos h, List.map_cons, List.flatMap_cons, List.flatMap_cons,
        ih, hen a h]
    · rw [List.filter_cons_of_neg h, List.flatMap_cons, ih, hdis a (by simpa using h)]
      rfl

/-- C13: the Text renderer shows, in its "DETAILED APPLICATION FLAVORS" table and in its
"FLAVORS BY APPLICATION TYPE" section, the same sequence of entries as the Markdown
renderer in the corresponding sections: the enabled instances in list order, each with
its flavors in the order of the sorted copy; no entry is a disabled instance. -/
theorem TextFormatter.same_entries_as_markdown (sortSlice : SortSlice)
    (hs : sortSlice.Permutes) (instances : List ProductInstance) :
    TextFormatter.detailedApplicationFlavorsLines sortSlice instances =
      [str "Type\tName\tFlavor\tMemory\tCPU\tPrice\tAvailable\tMicroservice\tML\n",
       str "----\t----\t------\t------\t---\t-----\t---------\t------------\t--\n"] ++
      (shownFlavors sortSlice instances).flatMap (fun entry =>
        if entry.2.length = 0 then [TextFormatter.noFlavorsLine entry.1]
        else rangeFrom (TextFormatter.flavorLine entry.1) 0 entry.2) ∧
    MarkdownFormatter.detailedApplicationFlavors sortSlice instances =
      [str "\n## Detailed Application Flavors\n\n",
       str "| Type | Name | Flavor | Memory | CPU | Price | Available | Microservice | ML |\n",
       str "|------|------|--------|--------|-----|-------|-----------|-------------|----|\n"] ++
      (shownFlavors sortSlice instances).flatMap (fun entry =>
        if entry.2.length = 0 then [MarkdownFormatter.noFlavorsRow entry.1]
        else rangeFrom (MarkdownFormatter.flavorRow entry.1) 0 entry.2) ∧
    TextFormatter.flavorsByType sortSlice instances =
      [str "FLAVORS BY APPLICATION TYPE\n",
       str "===========================\n\n"] ++
      (shownFlavors sortSlice instances).flatMap (fun entry =>
        TextFormatter.instanceHeading entry.1 ++
        (if entry.2.length = 0 then [str "No flavors available.\n\n"]
         else [str "Available flavors:\n"] ++
           entry.2.flatMap (TextFormatter.flavorBullet entry.1) ++ [str "\n"])) ∧
    MarkdownFormatter.flavorsByType sortSlice instances =
      [str "\n## Flavors by Application Type\n\n"] ++
      (shownFlavors sortSlice instances).flatMap (fun entry =>
        MarkdownFormatter.instanceHeading entry.1 ++
        (if entry.2.length = 0 then [str "No flavors available.\n\n"]
         else [str "**Available flavors**:\n\n"] ++
           entry.2.flatMap (MarkdownFormatter.flavorBullet entry.1) ++ [str "\n"])) ∧
    (∀ entry ∈ shownFlavors sortSlice instances, entry.1.Enabled = true) ∧
    (shownFlavors sortSlice instances).map (fun entry => entry.1) =
      instances.filter (fun instance_ => instance_.Enabled) := by
  have hne : ∀ i : ProductInstance, ¬ i.Flavors.length = 0 →
      ¬ (sortSlice Flavor (fun a b => stringLess a.Name b.Name) i.Flavors).length = 0 :=
    fun i h => sorted_nonempty sortSlice hs _ _ h
  refine ⟨?_, ?_, ?_, ?_, ?_, ?_⟩
  · unfold TextFormatter.detailedApplicationFlavorsLines
    congr 1
    apply flatMap_shownFlavors
    · intro i hi
      simp [TextFormatter.instanceFlavorLines, hi]
    · intro i hi
      by_cases h0 : i.Flavors.length = 0
      · simp [TextFormatter.instanceFlavorLines, hi, h0]
      · simp [TextFormatter.instanceFlavorLines, hi, h0, hne i h0]
  · unfold MarkdownFormatter.detailedApplicationFlavors
    congr 1
    apply flatMap_shownFlavors
    · intro i hi
      simp [MarkdownFormatter.instanceFlavorRows, hi]
    · intro i hi
      by_cases h0 : i.Flavors.length = 0
      · simp [MarkdownFormatter.instanceFlavorRows, hi, h0]
      · simp [MarkdownFormatter.instanceFlavorRows, hi, h0, hne i h0]
  · unfold TextFormatter.flavorsByType
    congr 1
    apply flatMap_shownFlavors
    · intro i hi
      simp [TextFormatter.instanceFlavorList, hi]
    · intro i hi
      by_cases h0 : i.Flavors.length = 0
      · simp [TextFormatter.instanceFlavorList, hi, h0]
      · simp [TextFormatter.instanceFlavorList, hi, h0, hne i h0]
  · unfold MarkdownFormatter.flavorsByType
    congr 1
    apply flatMap_shownFlavors
    · intro i hi
      simp [MarkdownFormatter.instanceFlavorList, hi]
    · intro i hi
      by_cases h0 : i.Flavors.length = 0
      · simp [MarkdownFormatter.instanceFlavorList, hi, h0]
      · simp [MarkdownFormatter.instanceFlavorList, hi, h0, hne i h0]
  · intro entry hmem
    unfold shownFlavors at hmem
    obtain ⟨i, hi, rfl⟩ := List.mem_map.mp hmem
    simpa using (List.mem_filter.mp hi).2
  · unfold shownFlavors
    rw [List.map_map]
    exact List.map_id' _

set_option maxRecDepth 1000000 in
/-- Witness of C13: the fixture instances followed by a disabled instance "ruby" with
one flavor: both renderers show node (nano, small) and python (small), not ruby. -/
theorem TextFormatter.same_entries_as_markdown_witness :
    (shownFlavors insertionSortLessFunc (TestProductInstances ++ [
        { Type_ := str "ruby", Enabled := false, Flavors := [{ Name := str "nano" }] }])).map
      (fun entry => entry.1) = TestProductInstances ∧
    (shownFlavors insertionSortLessFunc (TestProductInstances ++ [
        { Type_ := str "ruby", Enabled := false, Flavors := [{ Name := str "nano" }] }])).map
      (fun entry => (entry.1.Type_, entry.2.map (fun flavor => flavor.Name))) =
      [(str "node", [str "nano", str "small"]), (str "python", [str "small"])] ∧
    TextFormatter.detailedApplicationFlavorsLines insertionSortLessFunc
      (TestProductInstances ++ [
        { Type_ := str "ruby", Enabled := false, Flavors := [{ Name := str "nano" }] }]) =
      [str "Type\tName\tFlavor\tMemory\tCPU\tPrice\tAvailable\tMicroservice\tML\n",
       str "----\t----\t------\t------\t---\t-----\t---------\t------------\t--\n",
       str "node\tNode.js\tnano\t256 MB\t1\t0.02€\tYes\tYes\tNo\n",
       str "\t\tsmall\t512 MB\t1\t0.04€\tYes\tNo\tNo\n",
       str "python\tPython\tsmall\t512 MB\t1\t0.04€\tYes\tNo\tYes\n"] :=
  ⟨(TextFormatter.same_entries_as_markdown insertionSortLessFunc
      insertionSortLessFunc_permutes (TestProductInstances ++ [
        { Type_ := str "ruby", Enabled := false,
          Flavors := [{ Name := str "nano" }] }])).2.2.2.2.2.trans (by decide),
   by decide, by decide⟩

set_option maxRecDepth 1000000 in
/-- Counterexample to C14: for the fixture instances (node with the flavors nano and
small and defaultFlavor nano) the rows of the "Detailed Application Flavors" table, in
Markdown and in Text, carry no mark on nano, and the tables are the same when no flavor
is the default. -/
theorem flavor_table_unmarked :
    MarkdownFormatter.detailedApplicationFlavors insertionSortLessFunc
        TestProductInstances =
      [str "\n## Detailed Application Flavors\n\n",
       str "| Type | Name | Flavor | Memory | CPU | Price | Available | Microservice | ML |\n",
       str "|------|------|--------|--------|-----|-------|-----------|-------------|----|\n",
       str "| `node` | Node.js | `nano` | 256 MB | 1 | 0.02€ | Yes | Yes | No |\n",
       str "|  |  | `small` | 512 MB | 1 | 0.04€ | Yes | No | No |\n",
       str "| `python` | Python | `small` | 512 MB | 1 | 0.04€ | Yes | No | Yes |\n"] ∧
    MarkdownFormatter.detailedApplicationFlavors insertionSortLessFunc
        TestProductInstances =
      MarkdownFormatter.detailedApplicationFlavors insertionSortLessFunc
        (TestProductInstances.map (fun instance_ =>
          { instance_ with DefaultFlavor := { Name := str "none" } })) ∧
    TextFormatter.detailedApplicationFlavorsLines insertionSortLessFunc
        TestProductInstances =
      [str "Type\tName\tFlavor\tMemory\tCPU\tPrice\tAvailable\tMicroservice\tML\n",
       str "----\t----\t------\t------\t---\t-----\t---------\t------------\t--\n",
       str "node\tNode.js\tnano\t256 MB\t1\t0.02€\tYes\tYes\tNo\n",
       str "\t\tsmall\t512 MB\t1\t0.04€\tYes\tNo\tNo\n",
       str "python\tPython\tsmall\t512 MB\t1\t0.04€\tYes\tNo\tYes\n"] ∧
    TextFormatter.detailedApplicationFlavorsLines insertionSortLessFunc
        TestProductInstances =
      TextFormatter.detailedApplicationFlavorsLines insertionSortLessFunc
        (TestProductInstances.map (fun instance_ =>
          { instance_ with DefaultFlavor := { Name := str "none" } })) := by
  refine ⟨by decide, by decide, by decide, by decide⟩

/-- C14, amended: for every enabled instance of the list and every flavor of it whose
name equals instance.defaultFlavor.name, the flavor's bullet in the "Flavors by
Application Type" section carries the default marker right after the name (" *(default)*"
in Markdown, " (default)" in Text) and is part of the section; the rows of the "Detailed
Application Flavors" table do not depend on the default flavor. -/
theorem default_marked_in_flavor_list (sortSlice : SortSlice) (hs : sortSlice.Permutes)
    (instances : List ProductInstance) (instance_ : ProductInstance) (flavor : Flavor)
    (hmem : instance_ ∈ instances) (hen : instance_.Enabled = true)
    (hfl : flavor ∈ instance_.Flavors)
    (hdef : flavor.Name = instance_.DefaultFlavor.Name) :
    (∃ rest, MarkdownFormatter.flavorBullet instance_ flavor =
      (str "- **" ++ flavor.Name ++ str "**" ++ str " *(default)*" ++ str " - " ++
        flavor.Memory.Formatted ++ str ", " ++ fmt.d flavor.Cpus ++ str " CPU, " ++
        fmt.f2 flavor.Price ++ str "€/h") :: rest) ∧
    (∃ pre post, MarkdownFormatter.flavorsByType sortSlice instances =
      pre ++ MarkdownFormatter.flavorBullet instance_ flavor ++ post) ∧
    (∃ rest, TextFormatter.flavorBullet instance_ flavor =
      (str "- " ++ flavor.Name ++ str " (default)" ++ str " - " ++
        flavor.Memory.Formatted ++ str ", " ++ fmt.d flavor.Cpus ++ str " CPU, " ++
        fmt.f2 flavor.Price ++ str "€/h") :: rest) ∧
    (∃ pre post, TextFormatter.flavorsByType sortSlice instances =
      pre ++ TextFormatter.flavorBullet instance_ flavor ++ post) ∧
    (∀ (i : Nat) (other : Flavor),
      MarkdownFormatter.flavorRow instance_ i flavor =
        MarkdownFormatter.flavorRow { instance_ with DefaultFlavor := other } i flavor ∧
      TextFormatter.flavorLine instance_ i flavor =
        TextFormatter.flavorLine { instance_ with DefaultFlavor := other } i flavor) := by
  have h0 : ¬ instance_.Flavors.length = 0 := by
    intro h
    rw [List.length_eq_zero.mp h] at hfl
    exact absurd hfl (List.not_mem_nil _)
  have hsorted : flavor ∈
      sortSlice Flavor (fun a b => stringLess a.Name b.Name) instance_.Flavors :=
    (hs Flavor _ instance_.Flavors).mem_iff.mpr hfl
  refine ⟨?_, ?_, ?_, ?_, ?_⟩
  · simp [MarkdownFormatter.flavorBullet, hdef]
  · obtain ⟨p1, q1, h1⟩ := flatMap_mem_split (MarkdownFormatter.instanceFlavorList sortSlice)
      instances instance_ hmem
    obtain ⟨p2, q2, h2⟩ := flatMap_mem_split (MarkdownFormatter.flavorBullet instance_)
      _ flavor hsorted
    refine ⟨[str "\n## Flavors by Application Type\n\n"] ++ p1 ++
      MarkdownFormatter.instanceHeading instance_ ++ [str "**Available flavors**:\n\n"] ++
      p2, q2 ++ [str "\n"] ++ q1, ?_⟩
    unfold MarkdownFormatter.flavorsByType
    rw [h1]
    simp only [MarkdownFormatter.instanceFlavorList, hen, not_true_eq_false, if_false, h0,
      h2, List.append_assoc]
  · simp [TextFormatter.flavorBullet, hdef]
  · obtain ⟨p1, q1, h1⟩ := flatMap_mem_split (TextFormatter.instanceFlavorList sortSlice)
      instances instance_ hmem
    obtain ⟨p2, q2, h2⟩ := flatMap_mem_split (TextFormatter.flavorBullet instance_)
      _ flavor hsorted
    refine ⟨[str "FLAVORS BY APPLICATION TYPE\n", str "===========================\n\n"] ++
      p1 ++ TextFormatter.instanceHeading instance_ ++ [str "Available flavors:\n"] ++
      p2, q2 ++ [str "\n"] ++ q1, ?_⟩
    unfold TextFormatter.flavorsByType
    rw [h1]
    simp only [TextFormatter.instanceFlavorList, hen, not_true_eq_false, if_false, h0,
      h2, List.append_assoc]
  · intro i other
    exact ⟨rfl, rfl⟩

set_option maxRecDepth 1000000 in
/-- Witness of the amended C14: the fixture instance "node" and its flavor "nano", the
default one; the bullets written for node. -/
theorem default_marked_in_flavor_list_witness :
    (∃ pre post, MarkdownFormatter.flavorsByType insertionSortLessFunc
        TestProductInstances =
      pre ++ MarkdownFormatter.flavorBullet (TestProductInstances.headD {})
        ((TestProductInstances.headD {}).Flavors.headD {}) ++ post) ∧
    MarkdownFormatter.flavorBullet (TestProductInstances.headD {})
        ((TestProductInstances.headD {}).Flavors.headD {}) =
      [str "- **nano** *(default)* - 256 MB, 1 CPU, 0.02€/h", str " *[Microservice]*",
       str "\n"] ∧
    TextFormatter.flavorBullet (TestProductInstances.headD {})
        ((TestProductInstances.headD {}).Flavors.headD {}) =
      [str "- nano (default) - 256 MB, 1 CPU, 0.02€/h", str " [Microservice]",
       str "\n"] :=
  ⟨(default_marked_in_flavor_list insertionSortLessFunc insertionSortLessFunc_permutes
      TestProductInstances (TestProductInstances.headD {})
      ((TestProductInstances.headD {}).Flavors.headD {})
      (by decide) (by decide) (by decide) (by decide)).2.1,
   by decide, by decide⟩

/-- C15: in the Markdown "Flavors by Application Type" list the strings written for a
flavor are the bullet, then a bracket exactly when the flavor is unavailable, or a
microservice, or machine-learning, then the end of line; the bracket lists the tags that
apply in the order Unavailable, Microservice, ML, separated by ", ". -/
theorem MarkdownFormatter.flavorBullet_tags (instance_ : ProductInstance)
    (flavor : Flavor) :
    MarkdownFormatter.flavorBullet instance_ flavor =
      [str "- **" ++ flavor.Name ++ str "**" ++
        (if flavor.Name = instance_.DefaultFlavor.Name then str " *(default)*"
         else str "") ++
        str " - " ++ flavor.Memory.Formatted ++ str ", " ++ fmt.d flavor.Cpus ++
        str " CPU, " ++ fmt.f2 flavor.Price ++ str "€/h"] ++
      (match flavor.Available, flavor.Microservice, flavor.MachineLearning with
       | true, false, false => []
       | false, false, false => [str " *[Unavailable]*"]
       | true, true, false => [str " *[Microservice]*"]
       | true, false, true => [str " *[ML]*"]
       | false, true, false => [str " *[Unavailable, Microservice]*"]
       | false, false, true => [str " *[Unavailable, ML]*"]
       | true, true, true => [str " *[Microservice, ML]*"]
       | false, true, true => [str " *[Unavailable, Microservice, ML]*"]) ++
      [str "\n"] ∧
    ((MarkdownFormatter.flavorBullet instance_ flavor).length = 2 ↔
      (flavor.Available = true ∧ flavor.Microservice = false ∧
        flavor.MachineLearning = false)) := by
  unfold MarkdownFormatter.flavorBullet flavorTags
  cases flavor.Available <;> cases flavor.Microservice <;> cases flavor.MachineLearning <;>
    refine ⟨?_, by simp⟩ <;>
    simp only [Bool.false_eq_true, not_false_eq_true, not_true_eq_false, if_true, if_false,
      List.append_nil, List.nil_append, List.cons_append, List.length_cons,
      List.length_nil, gt_iff_lt, Nat.lt_irrefl, Nat.zero_lt_succ] <;>
    rfl

/-! ## Theorems: rows, order -/

/-- C16: in the Markdown "Detailed Addon Plans" table a provider with n >= 1 plans has
exactly n rows, one per plan of a rearrangement of its plans; the first row shows the
provider's id and name and the first two cells of the others are blank; a provider
without plans has exactly one row, with its id, its name and "No plans available"; the
table holds the rows of every provider of the list, in order. -/
theorem MarkdownFormatter.addon_plan_rows (sortSlice : SortSlice) (hs : sortSlice.Permutes)
    (providers : List AddonProvider) :
    MarkdownFormatter.detailedAddonPlans sortSlice providers =
      [str "\n## Detailed Addon Plans\n\n",
       str "| Provider ID | Provider Name | Plan ID | Plan Name | Plan Slug |\n",
       str "|-------------|---------------|---------|-----------|----------|\n"] ++
      providers.flatMap (MarkdownFormatter.providerPlanRows sortSlice) ∧
    (∀ provider : AddonProvider,
      (MarkdownFormatter.providerPlanRows sortSlice provider).length =
        max 1 provider.Plans.length ∧
      (provider.Plans.length = 0 →
        MarkdownFormatter.providerPlanRows sortSlice provider =
          [str "| `" ++ provider.ID ++ str "` | " ++ provider.Name ++
            str " | - | No plans available | - |\n"]) ∧
      (1 ≤ provider.Plans.length →
        ∃ (first : AddonPlan) (others : List AddonPlan),
          (first :: others).Perm provider.Plans ∧
          MarkdownFormatter.providerPlanRows sortSlice provider =
            (str "| `" ++ provider.ID ++ str "` | " ++ provider.Name ++ str " | `" ++
              first.ID ++ str "` | " ++ first.Name ++ str " | `" ++ first.Slug ++
              str "` |\n") ::
            others.map (fun plan =>
              str "|  |  | `" ++ plan.ID ++ str "` | " ++ plan.Name ++ str " | `" ++
                plan.Slug ++ str "` |\n"))) := by
  refine ⟨rfl, ?_⟩
  intro provider
  have hperm := hs AddonPlan (fun a b => stringLess a.Slug b.Slug) provider.Plans
  refine ⟨?_, ?_, ?_⟩
  · unfold MarkdownFormatter.providerPlanRows
    by_cases h0 : provider.Plans.length = 0
    · simp [h0]
    · simp only [h0, if_false, rangeFrom_length, hperm.length_eq]
      omega
  · intro h0
    simp only [MarkdownFormatter.providerPlanRows, h0, if_true, MarkdownFormatter.noPlansRow]
  · intro h1
    have h0 : ¬ provider.Plans.length = 0 := by omega
    cases hsort : sortSlice AddonPlan (fun a b => stringLess a.Slug b.Slug)
        provider.Plans with
    | nil =>
      have := hperm.length_eq
      rw [hsort] at this
      simp at this
      omega
    | cons first others =>
      refine ⟨first, others, hsort ▸ hperm, ?_⟩
      simp only [MarkdownFormatter.providerPlanRows, h0, if_false, hsort, rangeFrom]
      rw [rangeFrom_succ (MarkdownFormatter.planRow provider)
        (fun plan => str "|  |  | `" ++ plan.ID ++ str "` | " ++ plan.Name ++ str " | `" ++
          plan.Slug ++ str "` |\n") 0 others (fun j x => by
            simp [MarkdownFormatter.planRow]
            rfl)]
      congr 1
      simp [MarkdownFormatter.planRow, List.append_assoc]
      rfl

set_option maxRecDepth 1000000 in
/-- Witness of C16: the fixture providers, and a provider without plans. -/
theorem MarkdownFormatter.addon_plan_rows_witness :
    MarkdownFormatter.detailedAddonPlans insertionSortLessFunc
        (TestAddonProviders ++ [{ ID := str "kv", Name := str "KV", Plans := [] }]) =
      [str "\n## Detailed Addon Plans\n\n",
       str "| Provider ID | Provider Name | Plan ID | Plan Name | Plan Slug |\n",
       str "|-------------|---------------|---------|-----------|----------|\n",
       str "| `redis` | Redis | `redis_large` | Large Redis | `large` |\n",
       str "|  |  | `redis_small` | Small Redis | `small` |\n",
       str "| `postgresql` | PostgreSQL | `pg_dev` | Dev PostgreSQL | `dev` |\n",
       str "|  |  | `pg_prod` | Production PostgreSQL | `prod` |\n",
       str "| `kv` | KV | - | No plans available | - |\n"] :=
  (MarkdownFormatter.addon_plan_rows insertionSortLessFunc insertionSortLessFunc_permutes
    (TestAddonProviders ++ [{ ID := str "kv", Name := str "KV", Plans := [] }])).1.trans
    (by decide)

/-- C17: for every provider with plans, the plan rows the CSV renderer writes for it are
the rows of a rearrangement of its plans in which the slugs, hence the Plan_Slug column,
are non-decreasing in byte-wise order, whatever the order of the input plans. -/
theorem CSVFormatter.plan_rows_sorted (sortSlice : SortSlice) (hp : sortSlice.Permutes)
    (ho : sortSlice.Sorts) (provider : AddonProvider) (h1 : 1 ≤ provider.Plans.length) :
    ∃ plans : List AddonPlan, plans.Perm provider.Plans ∧
      (plans.map (fun plan => plan.Slug)).Pairwise (fun a b => a ≤ b) ∧
      CSVFormatter.providerRecords sortSlice provider =
        plans.map (fun plan =>
          [str "addon", provider.ID, provider.Name, plan.ID, plan.Name, plan.Slug]) ∧
      (CSVFormatter.providerRecords sortSlice provider).map (fun row => row[5]?) =
        plans.map (fun plan => some plan.Slug) := by
  have h0 : ¬ provider.Plans.length = 0 := by omega
  have hrec : CSVFormatter.providerRecords sortSlice provider =
      (sortSlice AddonPlan (fun a b => stringLess a.Slug b.Slug) provider.Plans).map
        (fun plan =>
          [str "addon", provider.ID, provider.Name, plan.ID, plan.Name, plan.Slug]) := by
    unfold CSVFormatter.providerRecords
    simp only [h0, if_false]
    rfl
  refine ⟨_, hp AddonPlan _ provider.Plans, ?_, hrec, ?_⟩
  · rw [List.pairwise_map]
    exact ho AddonPlan (fun plan => plan.Slug) provider.Plans
  · rw [hrec, List.map_map]
    rfl

set_option maxRecDepth 1000000 in
/-- Witness of C17: the fixture provider "redis", whose plans are given in the order
small, large, is written as large, small. -/
theorem CSVFormatter.plan_rows_sorted_witness :
    (∃ plans : List AddonPlan, plans.Perm (TestAddonProviders.headD {}).Plans ∧
      (plans.map (fun plan => plan.Slug)).Pairwise (fun a b => a ≤ b) ∧
      CSVFormatter.providerRecords insertionSortLessFunc (TestAddonProviders.headD {}) =
        plans.map (fun plan =>
          [str "addon", (TestAddonProviders.headD {}).ID,
            (TestAddonProviders.headD {}).Name, plan.ID, plan.Name, plan.Slug]) ∧
      (CSVFormatter.providerRecords insertionSortLessFunc
          (TestAddonProviders.headD {})).map (fun row => row[5]?) =
        plans.map (fun plan => some plan.Slug)) ∧
    (TestAddonProviders.headD {}).Plans.map (fun plan => plan.Slug) =
      [str "small", str "large"] ∧
    CSVFormatter.providerRecords insertionSortLessFunc (TestAddonProviders.headD {}) =
      [[str "addon", str "redis", str "Redis", str "redis_large", str "Large Redis",
         str "large"],
       [str "addon", str "redis", str "Redis", str "redis_small", str "Small Redis",
         str "small"]] :=
  ⟨CSVFormatter.plan_rows_sorted insertionSortLessFunc insertionSortLessFunc_permutes
      insertionSortLessFunc_sorts (TestAddonProviders.headD {}) (by decide),
   by decide, by decide⟩

theorem MarkdownFormatter.flavorRow_zero (instance_ : ProductInstance) (flavor : Flavor) :
    MarkdownFormatter.flavorRow instance_ 0 flavor =
      str "| `" ++ instance_.Type_ ++ str "` | " ++ instance_.Name ++ str " | `" ++
        flavor.Name ++ str "` | " ++ flavor.Memory.Formatted ++ str " | " ++
        fmt.d flavor.Cpus ++ str " | " ++ fmt.f2 flavor.Price ++ str "€ | " ++
        (if flavor.Available then str "Yes" else str "No") ++ str " | " ++
        (if flavor.Microservice then str "Yes" else str "No") ++ str " | " ++
        (if flavor.MachineLearning then str "Yes" else str "No") ++ str " |\n" := by
  have e1 : str "| `" = str "| " ++ str "`" := by decide
  have e2 : str "` | " = str "`" ++ str " | " := by decide
  unfold MarkdownFormatter.flavorRow
  rw [e1, e2]
  simp only [if_true, List.append_assoc]

theorem MarkdownFormatter.flavorRow_succ (instance_ : ProductInstance) (j : Nat)
    (flavor : Flavor) :
    MarkdownFormatter.flavorRow instance_ (j + 1) flavor =
      str "|  |  | `" ++ flavor.Name ++ str "` | " ++ flavor.Memory.Formatted ++
        str " | " ++ fmt.d flavor.Cpus ++ str " | " ++ fmt.f2 flavor.Price ++
        str "€ | " ++ (if flavor.Available then str "Yes" else str "No") ++
        str " | " ++ (if flavor.Microservice then str "Yes" else str "No") ++
        str " | " ++ (if flavor.MachineLearning then str "Yes" else str "No") ++
        str " |\n" := by
  have e3 : str "|  |  | `" = str "| " ++ (str "" ++ (str " | " ++ (str "" ++ str " | `"))) := by
    decide
  unfold MarkdownFormatter.flavorRow
  rw [e3]
  simp only [Nat.succ_ne_zero, if_false, List.append_assoc]

/-- C18: for every enabled instance of the list passed to the Markdown renderer that has
flavors, the document written holds, in the "Detailed Application Flavors" table and in
the "Flavors by Application Type" list, one row and one bullet per flavor of a
rearrangement of the instance's flavors in which the names are non-decreasing in
byte-wise order, whatever the order of the input flavors; the name of the flavor is the
third cell of its row and the head of its bullet. -/
theorem MarkdownFormatter.flavor_rows_sorted (sortSlice : SortSlice)
    (hp : sortSlice.Permutes) (ho : sortSlice.Sorts) (providers : List AddonProvider)
    (before after : List ProductInstance) (instance_ : ProductInstance)
    (hen : instance_.Enabled = true) (h1 : 1 ≤ instance_.Flavors.length)
    (writer : Sink) (hw : writer.okWrites = none) :
    ∃ (first : Flavor) (others : List Flavor),
      (first :: others).Perm instance_.Flavors ∧
      ((first :: others).map (fun flavor => flavor.Name)).Pairwise (fun a b => a ≤ b) ∧
      MarkdownFormatter.writes sortSlice providers (before ++ instance_ :: after) =
        [str "# Complete Clever Cloud Services Overview\n\n",
         str ("This document lists all available addon types AND application types on " ++
           "Clever Cloud with their respective plans/flavors.\n\n"),
         str "*Automatically generated via Clever Cloud API*\n\n"] ++
        MarkdownFormatter.addonSummary providers ++
        MarkdownFormatter.applicationSummary (before ++ instance_ :: after) ++
        MarkdownFormatter.detailedAddonPlans sortSlice providers ++
        ([str "\n## Detailed Application Flavors\n\n",
   str "| Type | Name | Flavor | Memory | CPU | Price | Available | Microservice | ML |\n",
   str "|------|------|--------|--------|-----|-------|-----------|-------------|----|\n"] ++
         before.flatMap (MarkdownFormatter.instanceFlavorRows sortSlice) ++
         ((str "| `" ++ instance_.Type_ ++ str "` | " ++ instance_.Name ++ str " | `" ++
            first.Name ++ str "` | " ++ first.Memory.Formatted ++ str " | " ++
            fmt.d first.Cpus ++ str " | " ++ fmt.f2 first.Price ++ str "€ | " ++
            (if first.Available then str "Yes" else str "No") ++ str " | " ++
            (if first.Microservice then str "Yes" else str "No") ++ str " | " ++
            (if first.MachineLearning then str "Yes" else str "No") ++ str " |\n") ::
          others.map (fun flavor =>
            str "|  |  | `" ++ flavor.Name ++ str "` | " ++ flavor.Memory.Formatted ++
            str " | " ++ fmt.d flavor.Cpus ++ str " | " ++ fmt.f2 flavor.Price ++
            str "€ | " ++ (if flavor.Available then str "Yes" else str "No") ++
            str " | " ++ (if flavor.Microservice then str "Yes" else str "No") ++
            str " | " ++ (if flavor.MachineLearning then str "Yes" else str "No") ++
            str " |\n")) ++
         after.flatMap (MarkdownFormatter.instanceFlavorRows sortSlice)) ++
        MarkdownFormatter.plansByProvider sortSlice providers ++
        ([str "\n## Flavors by Application Type\n\n"] ++
         before.flatMap (MarkdownFormatter.instanceFlavorList sortSlice) ++
         (MarkdownFormatter.instanceHeading instance_ ++
          [str "**Available flavors**:\n\n"] ++
          (first :: others).flatMap (fun flavor =>
            [str "- **" ++ flavor.Name ++ str "**" ++
              (if flavor.Name = instance_.DefaultFlavor.Name then str " *(default)*"
               else str "") ++ str " - " ++ flavor.Memory.Formatted ++ str ", " ++
              fmt.d flavor.Cpus ++ str " CPU, " ++ fmt.f2 flavor.Price ++ str "€/h"] ++
            (if (flavorTags flavor).length > 0 then
              [str " *[" ++ strings.Join (flavorTags flavor) (str ", ") ++ str "]*"]
             else []) ++
            [str "\n"]) ++
          [str "\n"]) ++
         after.flatMap (MarkdownFormatter.instanceFlavorList sortSlice)) ∧
      MarkdownFormatter.Format sortSlice providers (before ++ instance_ :: after) writer =
        ({ writer with data := writer.data ++
            (MarkdownFormatter.writes sortSlice providers
              (before ++ instance_ :: after)).flatten }, none) := by
  have h0 : ¬ instance_.Flavors.length = 0 := by omega
  have hperm := hp Flavor (fun a b => stringLess a.Name b.Name) instance_.Flavors
  have hsorted := ho Flavor (fun flavor => flavor.Name) instance_.Flavors
  cases hsort : sortSlice Flavor (fun a b => stringLess a.Name b.Name)
      instance_.Flavors with
  | nil =>
    have := hperm.length_eq
    rw [hsort] at this
    simp at this
    omega
  | cons first others =>
    rw [hsort] at hperm hsorted
    refine ⟨first, others, hperm, ?_, ?_, ?_⟩
    · rw [List.pairwise_map]
      exact hsorted
    · have hrows : MarkdownFormatter.instanceFlavorRows sortSlice instance_ =
          MarkdownFormatter.flavorRow instance_ 0 first ::
            others.map (fun flavor => MarkdownFormatter.flavorRow instance_ 1 flavor) := by
        simp only [MarkdownFormatter.instanceFlavorRows, hen, not_true_eq_false, if_false,
          h0, hsort, rangeFrom]
        rw [rangeFrom_succ (MarkdownFormatter.flavorRow instance_)
          (fun flavor => MarkdownFormatter.flavorRow instance_ 1 flavor) 0 others
          (fun j x => by
            show MarkdownFormatter.flavorRow instance_ (j + 1) x =
              MarkdownFormatter.flavorRow instance_ (0 + 1) x
            rw [MarkdownFormatter.flavorRow_succ, MarkdownFormatter.flavorRow_succ])]
      have hlist : MarkdownFormatter.instanceFlavorList sortSlice instance_ =
          MarkdownFormatter.instanceHeading instance_ ++
          [str "**Available flavors**:\n\n"] ++
          (first :: others).flatMap (MarkdownFormatter.flavorBullet instance_) ++
          [str "\n"] := by
        simp only [MarkdownFormatter.instanceFlavorList, hen, not_true_eq_false, if_false,
          h0, hsort, List.append_assoc]
      unfold MarkdownFormatter.writes MarkdownFormatter.detailedApplicationFlavors
        MarkdownFormatter.flavorsByType
      rw [List.flatMap_append, List.flatMap_append, List.flatMap_cons, List.flatMap_cons,
        hrows, hlist, MarkdownFormatter.flavorRow_zero]
      have hbullet : MarkdownFormatter.flavorBullet instance_ = fun flavor =>
          [str "- **" ++ flavor.Name ++ str "**" ++
            (if flavor.Name = instance_.DefaultFlavor.Name then str " *(default)*"
             else str "") ++ str " - " ++ flavor.Memory.Formatted ++ str ", " ++
            fmt.d flavor.Cpus ++ str " CPU, " ++ fmt.f2 flavor.Price ++ str "€/h"] ++
          (if (flavorTags flavor).length > 0 then
            [str " *[" ++ strings.Join (flavorTags flavor) (str ", ") ++ str "]*"]
           else []) ++
          [str "\n"] := rfl
      have hone : ∀ flavor : Flavor, MarkdownFormatter.flavorRow instance_ 1 flavor =
          MarkdownFormatter.flavorRow instance_ (0 + 1) flavor := fun _ => rfl
      rw [hbullet]
      simp only [hone, MarkdownFormatter.flavorRow_succ, List.append_assoc,
        List.cons_append, List.nil_append]
    · unfold MarkdownFormatter.Format
      rw [Sink.Write_ok _ _ hw]

set_option maxRecDepth 1000000 in
/-- Witness of C18: the fixture instance "node" with its flavors given in the order
small, nano; the document lists nano before small in the table and in the list. -/
theorem MarkdownFormatter.flavor_rows_sorted_witness :
    let node : ProductInstance :=
      { Type_ := str "node", Version := str "20", Name := str "Node.js",
        Enabled := true,
        Flavors := [
          { Name := str "small", Mem := 512, Cpus := 1, Price := ⟨0x3FA47AE147AE147B⟩,
            Available := true,
            Memory := { Unit := str "MB", Value := 512, Formatted := str "512 MB" } },
          { Name := str "nano", Mem := 256, Cpus := 1, Price := ⟨0x3F947AE147AE147B⟩,
            Available := true, Microservice := true,
            Memory := { Unit := str "MB", Value := 256, Formatted := str "256 MB" } }],
        DefaultFlavor := { Name := str "nano" } }
    (node.Enabled = true ∧ 1 ≤ node.Flavors.length ∧ ({} : Sink).okWrites = none) ∧
    (∃ (first : Flavor) (others : List Flavor),
      (first :: others).Perm node.Flavors ∧
      ((first :: others).map (fun flavor => flavor.Name)).Pairwise (fun a b => a ≤ b) ∧
      MarkdownFormatter.Format insertionSortLessFunc [] ([] ++ node :: []) {} =
        ({ ({} : Sink) with data := ({} : Sink).data ++
            (MarkdownFormatter.writes insertionSortLessFunc []
              ([] ++ node :: [])).flatten }, none)) ∧
    MarkdownFormatter.detailedApplicationFlavors insertionSortLessFunc [node] =
      [str "\n## Detailed Application Flavors\n\n",
       str "| Type | Name | Flavor | Memory | CPU | Price | Available | Microservice | ML |\n",
       str "|------|------|--------|--------|-----|-------|-----------|-------------|----|\n",
       str "| `node` | Node.js | `nano` | 256 MB | 1 | 0.02€ | Yes | Yes | No |\n",
       str "|  |  | `small` | 512 MB | 1 | 0.04€ | Yes | No | No |\n"] ∧
    (MarkdownFormatter.flavorsByType insertionSortLessFunc [node]).drop 6 =
      [str "**Available flavors**:\n\n",
       str "- **nano** *(default)* - 256 MB, 1 CPU, 0.02€/h",
       str " *[Microservice]*",
       str "\n",
       str "- **small** - 512 MB, 1 CPU, 0.04€/h",
       str "\n",
       str "\n"] := by
  intro node
  exact ⟨⟨rfl, by decide, rfl⟩,
    (MarkdownFormatter.flavor_rows_sorted insertionSortLessFunc
      insertionSortLessFunc_permutes insertionSortLessFunc_sorts [] [] [] node rfl
      (by decide) {} rfl).imp
      (fun _ h => h.imp (fun _ h2 => ⟨h2.1, h2.2.1, h2.2.2.2⟩)),
    by decide, by decide⟩

theorem pairwise_flatMap_replicate {α : Type} (f : α → GoString) (k : α → Nat)
    (l : List α) (h : (l.map f).Pairwise (fun a b => a ≤ b)) :
    (l.flatMap (fun a => List.replicate (k a) (f a))).Pairwise (fun a b => a ≤ b) := by
  induction l with
  | nil => simp
  | cons a rest ih =>
    rw [List.map_cons, List.pairwise_cons] at h
    rw [List.flatMap_cons, List.pairwise_append]
    refine ⟨?_, ih h.2, ?_⟩
    · rw [List.pairwise_replicate]
      right
      exact le_refl _
    · intro x hx y hy
      rw [List.eq_of_mem_replicate hx]
      obtain ⟨b, hb, hyb⟩ := List.mem_flatMap.mp hy
      rw [List.eq_of_mem_replicate hyb]
      exact h.1 (f b) (List.mem_map_of_mem f hb)

set_option maxRecDepth 1000000 in
/-- Counterexample to C19: given the fixture providers in the order "redis",
"postgresql", the CSV renderer writes the redis rows before the postgresql rows, so the
Provider_ID column is not in ascending order, and the Markdown "Addon Summary" lists
redis before postgresql. -/
theorem providers_not_reordered :
    (CSVFormatter.Format insertionSortLessFunc TestAddonProviders [] {}).1.data =
      str "# Complete Clever Cloud Services Overview - CSV Export\n" ++
      str "# Automatically generated via Clever Cloud API\n" ++
      str "\n" ++
      str "# ADDON PROVIDERS\n" ++
      str "Type,Provider_ID,Provider_Name,Plan_ID,Plan_Name,Plan_Slug\n" ++
      str "addon,redis,Redis,redis_large,Large Redis,large\n" ++
      str "addon,redis,Redis,redis_small,Small Redis,small\n" ++
      str "addon,postgresql,PostgreSQL,pg_dev,Dev PostgreSQL,dev\n" ++
      str "addon,postgresql,PostgreSQL,pg_prod,Production PostgreSQL,prod\n" ++
      str "\n" ++
      str "# APPLICATION INSTANCES\n" ++
      csv.encodeRecord CSVFormatter.applicationHeader ∧
    (CSVFormatter.addonRows insertionSortLessFunc TestAddonProviders).map
        (fun row => row.getD 1 []) =
      [str "redis", str "redis", str "postgresql", str "postgresql"] ∧
    ¬ ((CSVFormatter.addonRows insertionSortLessFunc TestAddonProviders).map
        (fun row => row.getD 1 [])).Pairwise (fun a b => a ≤ b) ∧
    MarkdownFormatter.addonSummary TestAddonProviders =
      [str "## Addon Summary\n\n",
       str "| Provider ID | Name | Number of Plans |\n",
       str "|-------------|------|----------------|\n",
       str "| `redis` | Redis | 2 |\n",
       str "| `postgresql` | PostgreSQL | 2 |\n"] ∧
    str "postgresql" < str "redis" := by
  refine ⟨?_, by decide, by decide, by decide, by decide⟩
  rw [CSVFormatter.Format_ok _ _ _ _ rfl]
  decide

/-! ## Lemmas: the block of an element names the element -/

theorem MarkdownFormatter.providerPlanRows_head (sortSlice : SortSlice)
    (hs : sortSlice.Permutes) (provider : AddonProvider) :
    ∃ tail rest, MarkdownFormatter.providerPlanRows sortSlice provider =
      (str "| `" ++ provider.ID ++ str "` | " ++ provider.Name ++ str " | " ++ tail) ::
        rest := by
  have e1 : str "| `" = str "| " ++ str "`" := by decide
  have e2 : str "` | " = str "`" ++ str " | " := by decide
  unfold MarkdownFormatter.providerPlanRows
  by_cases h0 : provider.Plans.length = 0
  · have e3 : str " | - | No plans available | - |\n" =
        str " | " ++ str "- | No plans available | - |\n" := by decide
    refine ⟨str "- | No plans available | - |\n", [], ?_⟩
    simp only [h0, if_true, MarkdownFormatter.noPlansRow, e3, List.append_assoc]
  · have hne := sorted_nonempty sortSlice hs (fun a b : AddonPlan => stringLess a.Slug b.Slug)
      provider.Plans h0
    cases hsort : sortSlice AddonPlan (fun a b => stringLess a.Slug b.Slug)
        provider.Plans with
    | nil =>
      rw [hsort] at hne
      exact absurd rfl hne
    | cons first others =>
      have e4 : str " | `" = str " | " ++ str "`" := by decide
      refine ⟨str "`" ++ first.ID ++ str "` | " ++ first.Name ++ str " | `" ++ first.Slug ++
        str "` |\n", rangeFrom (MarkdownFormatter.planRow provider) (0 + 1) others, ?_⟩
      simp only [h0, if_false, hsort, rangeFrom, MarkdownFormatter.planRow, if_true]
      rw [e1, e2, e4]
      simp only [List.append_assoc]

theorem MarkdownFormatter.providerPlanList_head (sortSlice : SortSlice)
    (provider : AddonProvider) :
    ∃ rest, MarkdownFormatter.providerPlanList sortSlice provider =
      (str "### " ++ provider.Name ++ str " (`" ++ provider.ID ++ str "`)\n\n") :: rest :=
  ⟨_, rfl⟩

theorem MarkdownFormatter.instanceFlavorRows_head (sortSlice : SortSlice)
    (hs : sortSlice.Permutes) (instance_ : ProductInstance)
    (hen : instance_.Enabled = true) :
    ∃ tail rest, MarkdownFormatter.instanceFlavorRows sortSlice instance_ =
      (str "| `" ++ instance_.Type_ ++ str "` | " ++ instance_.Name ++ str " | " ++ tail) ::
        rest := by
  have e1 : str "| `" = str "| " ++ str "`" := by decide
  have e2 : str "` | " = str "`" ++ str " | " := by decide
  unfold MarkdownFormatter.instanceFlavorRows
  by_cases h0 : instance_.Flavors.length = 0
  · have e3 : str " | - | - | - | - | - | - | - |\n" =
        str " | " ++ str "- | - | - | - | - | - | - |\n" := by decide
    refine ⟨str "- | - | - | - | - | - | - |\n", [], ?_⟩
    simp only [hen, not_true_eq_false, h0, if_true, if_false,
      MarkdownFormatter.noFlavorsRow, e3, List.append_assoc]
  · have hne := sorted_nonempty sortSlice hs (fun a b : Flavor => stringLess a.Name b.Name)
      instance_.Flavors h0
    cases hsort : sortSlice Flavor (fun a b => stringLess a.Name b.Name)
        instance_.Flavors with
    | nil =>
      rw [hsort] at hne
      exact absurd rfl hne
    | cons first others =>
      have e4 : str " | `" = str " | " ++ str "`" := by decide
      refine ⟨str "`" ++ first.Name ++ str "` | " ++ first.Memory.Formatted ++ str " | " ++
        fmt.d first.Cpus ++ str " | " ++ fmt.f2 first.Price ++ str "€ | " ++
        (if first.Available then str "Yes" else str "No") ++ str " | " ++
        (if first.Microservice then str "Yes" else str "No") ++ str " | " ++
        (if first.MachineLearning then str "Yes" else str "No") ++ str " |\n",
        rangeFrom (MarkdownFormatter.flavorRow instance_) (0 + 1) others, ?_⟩
      simp only [hen, not_true_eq_false, h0, if_false, hsort, rangeFrom,
        MarkdownFormatter.flavorRow, if_true]
      rw [e1, e2, e4]
      simp only [List.append_assoc]

theorem MarkdownFormatter.instanceFlavorList_head (sortSlice : SortSlice)
    (instance_ : ProductInstance) (hen : instance_.Enabled = true) :
    ∃ rest, MarkdownFormatter.instanceFlavorList sortSlice instance_ =
      (str "### " ++ instance_.Name ++ str " (`" ++ instance_.Type_ ++
        str "`) - Version " ++ instance_.Version ++ str "\n\n") :: rest := by
  unfold MarkdownFormatter.instanceFlavorList
  simp only [hen, not_true_eq_false, if_false]
  exact ⟨_, rfl⟩

theorem TextFormatter.providerPlanLines_head (sortSlice : SortSlice)
    (hs : sortSlice.Permutes) (provider : AddonProvider) :
    ∃ tail rest, TextFormatter.providerPlanLines sortSlice provider =
      (provider.ID ++ str "\t" ++ provider.Name ++ str "\t" ++ tail) :: rest := by
  unfold TextFormatter.providerPlanLines
  by_cases h0 : provider.Plans.length = 0
  · have e3 : str "\t-\tNo plans available\t-\n" =
        str "\t" ++ str "-\tNo plans available\t-\n" := by decide
    refine ⟨str "-\tNo plans available\t-\n", [], ?_⟩
    simp only [h0, if_true, e3, List.append_assoc]
  · have hne := sorted_nonempty sortSlice hs (fun a b : AddonPlan => stringLess a.Slug b.Slug)
      provider.Plans h0
    cases hsort : sortSlice AddonPlan (fun a b => stringLess a.Slug b.Slug)
        provider.Plans with
    | nil =>
      rw [hsort] at hne
      exact absurd rfl hne
    | cons first others =>
      refine ⟨first.ID ++ str "\t" ++ first.Name ++ str "\t" ++ first.Slug ++ str "\n",
        rangeFrom (TextFormatter.planLine provider) (0 + 1) others, ?_⟩
      simp only [h0, if_false, hsort, rangeFrom, TextFormatter.planLine, if_true,
        List.append_assoc]

theorem TextFormatter.providerPlanList_title (sortSlice : SortSlice)
    (provider : AddonProvider) :
    ∃ rest, TextFormatter.providerPlanList sortSlice provider =
      (provider.Name ++ str " (" ++ provider.ID ++ str ")\n") :: rest :=
  ⟨_, rfl⟩

theorem TextFormatter.instanceFlavorLines_head (sortSlice : SortSlice)
    (hs : sortSlice.Permutes) (instance_ : ProductInstance)
    (hen : instance_.Enabled = true) :
    ∃ tail rest, TextFormatter.instanceFlavorLines sortSlice instance_ =
      (instance_.Type_ ++ str "\t" ++ instance_.Name ++ str "\t" ++ tail) :: rest := by
  unfold TextFormatter.instanceFlavorLines
  by_cases h0 : instance_.Flavors.length = 0
  · have e3 : str "\t-\t-\t-\t-\t-\t-\t-\n" = str "\t" ++ str "-\t-\t-\t-\t-\t-\t-\n" := by
      decide
    refine ⟨str "-\t-\t-\t-\t-\t-\t-\n", [], ?_⟩
    simp only [hen, not_true_eq_false, h0, if_true, if_false, TextFormatter.noFlavorsLine,
      e3, List.append_assoc]
  · have hne := sorted_nonempty sortSlice hs (fun a b : Flavor => stringLess a.Name b.Name)
      instance_.Flavors h0
    cases hsort : sortSlice Flavor (fun a b => stringLess a.Name b.Name)
        instance_.Flavors with
    | nil =>
      rw [hsort] at hne
      exact absurd rfl hne
    | cons first others =>
      refine ⟨first.Name ++ str "\t" ++ first.Memory.Formatted ++ str "\t" ++
        fmt.d first.Cpus ++ str "\t" ++ fmt.f2 first.Price ++ str "€\t" ++
        (if first.Available then str "Yes" else str "No") ++ str "\t" ++
        (if first.Microservice then str "Yes" else str "No") ++ str "\t" ++
        (if first.MachineLearning then str "Yes" else str "No") ++ str "\n",
        rangeFrom (TextFormatter.flavorLine instance_) (0 + 1) others, ?_⟩
      simp only [hen, not_true_eq_false, h0, if_false, hsort, rangeFrom,
        TextFormatter.flavorLine, if_true, List.append_assoc]

theorem TextFormatter.instanceFlavorList_title (sortSlice : SortSlice)
    (instance_ : ProductInstance) (hen : instance_.Enabled = true) :
    ∃ rest, TextFormatter.instanceFlavorList sortSlice instance_ =
      (instance_.Name ++ str " (" ++ instance_.Type_ ++ str ") - Version " ++
        instance_.Version ++ str "\n") :: rest := by
  unfold TextFormatter.instanceFlavorList
  simp only [hen, not_true_eq_false, if_false]
  exact ⟨_, rfl⟩

theorem PDFFormatter.instanceFlavors_head (sortSlice : SortSlice)
    (instance_ : ProductInstance) (hen : instance_.Enabled = true) :
    ∃ rest, PDFFormatter.instanceFlavors sortSlice instance_ =
      PdfOp.SetFont (str "Arial") (str "B") 11 ::
      PdfOp.Cell 190 8 (instance_.Name ++ str " (" ++ instance_.Type_ ++
        str ") - Version " ++ instance_.Version) :: rest := by
  unfold PDFFormatter.instanceFlavors
  simp only [hen, not_true_eq_false, if_false]
  exact ⟨_, rfl⟩

theorem CSVFormatter.providerRecords_ids (sortSlice : SortSlice) (hs : sortSlice.Permutes)
    (provider : AddonProvider) :
    (CSVFormatter.providerRecords sortSlice provider).map (fun row => row.take 3) =
      List.replicate (max 1 provider.Plans.length)
        [str "addon", provider.ID, provider.Name] := by
  rw [← CSVFormatter.providerRecords_length sortSlice hs provider]
  rw [List.eq_replicate_iff]
  refine ⟨List.length_map _ _, ?_⟩
  intro x hx
  obtain ⟨row, hrow, rfl⟩ := List.mem_map.mp hx
  unfold CSVFormatter.providerRecords at hrow
  by_cases h0 : provider.Plans.length = 0
  · simp only [h0, if_true, List.mem_singleton] at hrow
    subst hrow
    rfl
  · simp only [h0, if_false, List.mem_map] at hrow
    obtain ⟨plan, _, rfl⟩ := hrow
    rfl

theorem CSVFormatter.instanceRecords_types (sortSlice : SortSlice)
    (hs : sortSlice.Permutes) (instance_ : ProductInstance) :
    (CSVFormatter.instanceRecords sortSlice instance_).map (fun row => row.take 2) =
      List.replicate (max 1 instance_.Flavors.length)
        [str "application", instance_.Type_] := by
  rw [← CSVFormatter.instanceRecords_length sortSlice hs instance_]
  rw [List.eq_replicate_iff]
  refine ⟨List.length_map _ _, ?_⟩
  intro x hx
  obtain ⟨row, hrow, rfl⟩ := List.mem_map.mp hx
  unfold CSVFormatter.instanceRecords at hrow
  by_cases h0 : instance_.Flavors.length = 0
  · simp only [h0, if_true, List.mem_singleton] at hrow
    subst hrow
    rfl
  · simp only [h0, if_false, List.mem_map] at hrow
    obtain ⟨flavor, _, rfl⟩ := hrow
    rfl

theorem CSVFormatter.column_of_replicate {α : Type} (records : α → List (List GoString))
    (key : α → List GoString) (k : α → Nat) (n : Nat)
    (h : ∀ a, (records a).map (fun row => row.take (n + 2)) = List.replicate (k a) (key a))
    (l : List α) :
    (l.flatMap records).map (fun row => row.getD 1 []) =
      l.flatMap (fun a => List.replicate (k a) ((key a).getD 1 [])) := by
  have hcol : ∀ row : List GoString, row.getD 1 [] = (row.take (n + 2)).getD 1 [] := by
    intro row
    cases row with
    | nil => rfl
    | cons a t =>
      cases t with
      | nil => rfl
      | cons b u => rfl
  rw [List.map_flatMap]
  congr 1
  funext a
  have : (records a).map (fun row => row.getD 1 []) =
      ((records a).map (fun row => row.take (n + 2))).map (fun t => t.getD 1 []) := by
    rw [List.map_map]
    exact List.map_congr_left (fun row _ => hcol row)
  rw [this, h a, List.map_replicate]

/-- C19, amended: each of the four renderers goes through the providers, and through the
instances, in the order of the list passed to Format, without sorting it.  The CSV
records, the strings of the Markdown and Text documents and the calls on the PDF document
are fixed parts followed, section by section, by the blocks of the elements in list
order; the block of a provider names its id and the block of an instance its type (in the
detail sections of Markdown, Text and PDF a disabled instance has no block).  Hence the
Provider_ID column of the CSV output is ascending when the list passed is ascending by
id, and the Instance_Type column when the list is ascending by type. -/
theorem providers_in_input_order (tabwriter : GoString → GoString)
    (output : List PdfOp → Sink → Sink × Option GoError) (sortSlice : SortSlice)
    (hs : sortSlice.Permutes) (providers : List AddonProvider)
    (instances : List ProductInstance) (writer : Sink) (hw : writer.okWrites = none) :
    -- CSV
    ((CSVFormatter.Format sortSlice providers instances writer).2 = none ∧
      (CSVFormatter.Format sortSlice providers instances writer).1.data =
        writer.data ++ csv.encodeRecords
          ([[str "# Complete Clever Cloud Services Overview - CSV Export"],
            [str "# Automatically generated via Clever Cloud API"],
            [],
            [str "# ADDON PROVIDERS"],
            CSVFormatter.addonHeader] ++
           providers.flatMap (CSVFormatter.providerRecords sortSlice) ++
           [[],
            [str "# APPLICATION INSTANCES"],
            CSVFormatter.applicationHeader] ++
           instances.flatMap (CSVFormatter.instanceRecords sortSlice)) ∧
      (∀ provider : AddonProvider,
        (CSVFormatter.providerRecords sortSlice provider).map (fun row => row.take 3) =
          List.replicate (max 1 provider.Plans.length)
            [str "addon", provider.ID, provider.Name]) ∧
      (∀ instance_ : ProductInstance,
        (CSVFormatter.instanceRecords sortSlice instance_).map (fun row => row.take 2) =
          List.replicate (max 1 instance_.Flavors.length)
            [str "application", instance_.Type_])) ∧
    -- Markdown
    (MarkdownFormatter.Format sortSlice providers instances writer =
        ({ writer with data := writer.data ++
            (MarkdownFormatter.writes sortSlice providers instances).flatten }, none) ∧
      MarkdownFormatter.writes sortSlice providers instances =
        [str "# Complete Clever Cloud Services Overview\n\n",
         str ("This document lists all available addon types AND application types on " ++
           "Clever Cloud with their respective plans/flavors.\n\n"),
         str "*Automatically generated via Clever Cloud API*\n\n"] ++
        ([str "## Addon Summary\n\n",
          str "| Provider ID | Name | Number of Plans |\n",
          str "|-------------|------|----------------|\n"] ++
         providers.map (fun provider =>
           str "| `" ++ provider.ID ++ str "` | " ++ provider.Name ++ str " | " ++
             fmt.d provider.Plans.length ++ str " |\n")) ++
        ([str "\n## Application Summary\n\n",
          str "| Type | Name | Version | Enabled | Number of Flavors | Default Flavor |\n",
          str "|------|------|---------|---------|-------------------|----------------|\n"] ++
         instances.map (fun instance_ =>
           str "| `" ++ instance_.Type_ ++ str "` | " ++ instance_.Name ++ str " | " ++
             instance_.Version ++ str " | " ++
             (if instance_.Enabled then str "Yes" else str "No") ++ str " | " ++
             fmt.d instance_.Flavors.length ++ str " | `" ++
             instance_.DefaultFlavor.Name ++ str "` |\n")) ++
        ([str "\n## Detailed Addon Plans\n\n",
          str "| Provider ID | Provider Name | Plan ID | Plan Name | Plan Slug |\n",
          str "|-------------|---------------|---------|-----------|----------|\n"] ++
         providers.flatMap (MarkdownFormatter.providerPlanRows sortSlice)) ++
        ([str "\n## Detailed Application Flavors\n\n",
   str "| Type | Name | Flavor | Memory | CPU | Price | Available | Microservice | ML |\n",
   str "|------|------|--------|--------|-----|-------|-----------|-------------|----|\n"] ++
         instances.flatMap (MarkdownFormatter.instanceFlavorRows sortSlice)) ++
        ([str "\n## Plans by Addon Provider\n\n"] ++
         providers.flatMap (MarkdownFormatter.providerPlanList sortSlice)) ++
        ([str "\n## Flavors by Application Type\n\n"] ++
         instances.flatMap (MarkdownFormatter.instanceFlavorList sortSlice)) ∧
      (∀ provider : AddonProvider,
        (∃ tail rest, MarkdownFormatter.providerPlanRows sortSlice provider =
          (str "| `" ++ provider.ID ++ str "` | " ++ provider.Name ++ str " | " ++ tail) ::
            rest) ∧
        (∃ rest, MarkdownFormatter.providerPlanList sortSlice provider =
          (str "### " ++ provider.Name ++ str " (`" ++ provider.ID ++ str "`)\n\n") ::
            rest)) ∧
      (∀ instance_ : ProductInstance,
        (instance_.Enabled = true →
          (∃ tail rest, MarkdownFormatter.instanceFlavorRows sortSlice instance_ =
            (str "| `" ++ instance_.Type_ ++ str "` | " ++ instance_.Name ++ str " | " ++
              tail) :: rest) ∧
          (∃ rest, MarkdownFormatter.instanceFlavorList sortSlice instance_ =
            (str "### " ++ instance_.Name ++ str " (`" ++ instance_.Type_ ++
              str "`) - Version " ++ instance_.Version ++ str "\n\n") :: rest)) ∧
        (instance_.Enabled = false →
          MarkdownFormatter.instanceFlavorRows sortSlice instance_ = [] ∧
          MarkdownFormatter.instanceFlavorList sortSlice instance_ = []))) ∧
    -- Text
    (TextFormatter.Format tabwriter sortSlice providers instances writer =
        ({ writer with data := writer.data ++
            (TextFormatter.writes tabwriter sortSlice providers instances).flatten },
          none) ∧
      TextFormatter.writes tabwriter sortSlice providers instances =
        [str "COMPLETE CLEVER CLOUD SERVICES OVERVIEW\n",
         str "========================================\n\n",
         str "Automatically generated via Clever Cloud API\n\n",
         str "ADDON SUMMARY\n",
         str "=============\n\n",
         tabwriter
           ([str "Provider ID\tName\tNumber of Plans" ++ str "\n",
             str "-----------\t----\t---------------" ++ str "\n"] ++
            providers.map (fun provider =>
              provider.ID ++ str "\t" ++ provider.Name ++ str "\t" ++
                fmt.d provider.Plans.length ++ str "\n")).flatten,
         str "\n\nAPPLICATION SUMMARY\n",
         str "===================\n\n",
         tabwriter
           ([str "Type\tName\tVersion\tEnabled\tFlavors\tDefault Flavor" ++ str "\n",
             str "----\t----\t-------\t-------\t-------\t--------------" ++ str "\n"] ++
            instances.map (fun instance_ =>
              instance_.Type_ ++ str "\t" ++ instance_.Name ++ str "\t" ++
                instance_.Version ++ str "\t" ++
                (if instance_.Enabled then str "Yes" else str "No") ++ str "\t" ++
                fmt.d instance_.Flavors.length ++ str "\t" ++
                instance_.DefaultFlavor.Name ++ str "\n")).flatten,
         str "\n\nDETAILED ADDON PLANS\n",
         str "====================\n\n",
         tabwriter
           ([str "Provider ID\tProvider Name\tPlan ID\tPlan Name\tPlan Slug" ++ str "\n",
             str "-----------\t-------------\t-------\t---------\t---------" ++
               str "\n"] ++
            providers.flatMap (TextFormatter.providerPlanLines sortSlice)).flatten,
         str "\n\nDETAILED APPLICATION FLAVORS\n",
         str "============================\n\n",
         tabwriter
           ([str "Type\tName\tFlavor\tMemory\tCPU\tPrice\tAvailable\tMicroservice\tML" ++
               str "\n",
             str "----\t----\t------\t------\t---\t-----\t---------\t------------\t--" ++
               str "\n"] ++
            instances.flatMap (TextFormatter.instanceFlavorLines sortSlice)).flatten,
         str "\n\nPLANS BY ADDON PROVIDER\n",
         str "=======================\n\n"] ++
        providers.flatMap (TextFormatter.providerPlanList sortSlice) ++
        [str "FLAVORS BY APPLICATION TYPE\n",
         str "===========================\n\n"] ++
        instances.flatMap (TextFormatter.instanceFlavorList sortSlice) ∧
      (∀ provider : AddonProvider,
        (∃ tail rest, TextFormatter.providerPlanLines sortSlice provider =
          (provider.ID ++ str "\t" ++ provider.Name ++ str "\t" ++ tail) :: rest) ∧
        (∃ rest, TextFormatter.providerPlanList sortSlice provider =
          (provider.Name ++ str " (" ++ provider.ID ++ str ")\n") :: rest)) ∧
      (∀ instance_ : ProductInstance,
        (instance_.Enabled = true →
          (∃ tail rest, TextFormatter.instanceFlavorLines sortSlice instance_ =
            (instance_.Type_ ++ str "\t" ++ instance_.Name ++ str "\t" ++ tail) ::
              rest) ∧
          (∃ rest, TextFormatter.instanceFlavorList sortSlice instance_ =
            (instance_.Name ++ str " (" ++ instance_.Type_ ++ str ") - Version " ++
              instance_.Version ++ str "\n") :: rest)) ∧
        (instance_.Enabled = false →
          TextFormatter.instanceFlavorLines sortSlice instance_ = [] ∧
          TextFormatter.instanceFlavorList sortSlice instance_ = []))) ∧
    -- PDF
    (PDFFormatter.Format output sortSlice providers instances writer =
        output (PDFFormatter.ops sortSlice providers instances) writer ∧
      PDFFormatter.ops sortSlice providers instances =
        [PdfOp.AddPage,
         PdfOp.SetFont (str "Arial") (str "B") 16,
         PdfOp.Cell 190 10 (str "Complete Clever Cloud Services Overview"),
         PdfOp.Ln 15,
         PdfOp.SetFont (str "Arial") (str "") 10,
         PdfOp.Cell 190 5 (str "Automatically generated via Clever Cloud API"),
         PdfOp.Ln 10,
         PdfOp.SetFont (str "Arial") (str "B") 14,
         PdfOp.Cell 190 10 (str "Addon Summary"),
         PdfOp.Ln 12,
         PdfOp.SetFont (str "Arial") (str "B") 10,
         PdfOp.Cell 60 8 (str "Provider ID"),
         PdfOp.Cell 80 8 (str "Name"),
         PdfOp.Cell 30 8 (str "Plans"),
         PdfOp.Ln 8,
         PdfOp.SetFont (str "Arial") (str "") 9] ++
        providers.flatMap (fun provider =>
          [PdfOp.Cell 60 6 provider.ID,
           PdfOp.Cell 80 6 (truncated provider.Name 35),
           PdfOp.Cell 30 6 (fmt.d provider.Plans.length),
           PdfOp.Ln 6]) ++
        [PdfOp.Ln 10,
         PdfOp.SetFont (str "Arial") (str "B") 14,
         PdfOp.Cell 190 10 (str "Application Summary"),
         PdfOp.Ln 12,
         PdfOp.SetFont (str "Arial") (str "B") 9,
         PdfOp.Cell 25 8 (str "Type"),
         PdfOp.Cell 45 8 (str "Name"),
         PdfOp.Cell 20 8 (str "Version"),
         PdfOp.Cell 20 8 (str "Enabled"),
         PdfOp.Cell 20 8 (str "Flavors"),
         PdfOp.Cell 30 8 (str "Default"),
         PdfOp.Ln 8,
         PdfOp.SetFont (str "Arial") (str "") 8] ++
        instances.flatMap (fun instance_ =>
          [PdfOp.Cell 25 6 (truncated instance_.Type_ 12),
           PdfOp.Cell 45 6 (truncated instance_.Name 20),
           PdfOp.Cell 20 6 (truncated instance_.Version 10),
           PdfOp.Cell 20 6 (if instance_.Enabled then str "Yes" else str "No"),
           PdfOp.Cell 20 6 (fmt.d instance_.Flavors.length),
           PdfOp.Cell 30 6 (truncated instance_.DefaultFlavor.Name 15),
           PdfOp.Ln 6]) ++
        [PdfOp.AddPage,
         PdfOp.SetFont (str "Arial") (str "B") 14,
         PdfOp.Cell 190 10 (str "Detailed Addon Plans"),
         PdfOp.Ln 12] ++
        providers.flatMap (PDFFormatter.providerPlans sortSlice) ++
        [PdfOp.AddPage,
         PdfOp.SetFont (str "Arial") (str "B") 14,
         PdfOp.Cell 190 10 (str "Detailed Application Flavors"),
         PdfOp.Ln 12] ++
        instances.flatMap (PDFFormatter.instanceFlavors sortSlice) ∧
      (∀ provider : AddonProvider,
        ∃ rest, PDFFormatter.providerPlans sortSlice provider =
          PdfOp.SetFont (str "Arial") (str "B") 11 ::
          PdfOp.Cell 190 8 (provider.Name ++ str " (" ++ provider.ID ++ str ")") :: rest) ∧
      (∀ instance_ : ProductInstance,
        (instance_.Enabled = true →
          ∃ rest, PDFFormatter.instanceFlavors sortSlice instance_ =
            PdfOp.SetFont (str "Arial") (str "B") 11 ::
            PdfOp.Cell 190 8 (instance_.Name ++ str " (" ++ instance_.Type_ ++
              str ") - Version " ++ instance_.Version) :: rest) ∧
        (instance_.Enabled = false →
          PDFFormatter.instanceFlavors sortSlice instance_ = []))) ∧
    -- ascending in, ascending out
    ((providers.map (fun provider => provider.ID)).Pairwise (fun a b => a ≤ b) →
      ((providers.flatMap (CSVFormatter.providerRecords sortSlice)).map
        (fun row => row.getD 1 [])).Pairwise (fun a b => a ≤ b)) ∧
    ((instances.map (fun instance_ => instance_.Type_)).Pairwise (fun a b => a ≤ b) →
      ((instances.flatMap (CSVFormatter.instanceRecords sortSlice)).map
        (fun row => row.getD 1 [])).Pairwise (fun a b => a ≤ b)) := by
  refine ⟨⟨?_, ?_, CSVFormatter.providerRecords_ids sortSlice hs,
      CSVFormatter.instanceRecords_types sortSlice hs⟩,
    ⟨?_, ?_, ?_, ?_⟩, ⟨?_, ?_, ?_, ?_⟩, ⟨rfl, ?_, ?_, ?_⟩, ?_, ?_⟩
  · rw [CSVFormatter.Format_ok _ _ _ _ hw]
  · rw [CSVFormatter.Format_ok _ _ _ _ hw]
    rfl
  · unfold MarkdownFormatter.Format
    rw [Sink.Write_ok _ _ hw]
  · rfl
  · intro provider
    exact ⟨MarkdownFormatter.providerPlanRows_head sortSlice hs provider,
      MarkdownFormatter.providerPlanList_head sortSlice provider⟩
  · intro instance_
    refine ⟨fun hen => ⟨MarkdownFormatter.instanceFlavorRows_head sortSlice hs instance_ hen,
      MarkdownFormatter.instanceFlavorList_head sortSlice instance_ hen⟩, fun hdis => ?_⟩
    simp [MarkdownFormatter.instanceFlavorRows, MarkdownFormatter.instanceFlavorList, hdis]
  · unfold TextFormatter.Format
    rw [Sink.Write_ok _ _ hw]
  · have hline1 : TextFormatter.addonSummaryLine = fun provider =>
        provider.ID ++ str "\t" ++ provider.Name ++ str "\t" ++
          fmt.d provider.Plans.length ++ str "\n" := rfl
    have hline2 : TextFormatter.applicationSummaryLine = fun instance_ =>
        instance_.Type_ ++ str "\t" ++ instance_.Name ++ str "\t" ++
          instance_.Version ++ str "\t" ++
          (if instance_.Enabled then str "Yes" else str "No") ++ str "\t" ++
          fmt.d instance_.Flavors.length ++ str "\t" ++
          instance_.DefaultFlavor.Name ++ str "\n" := rfl
    unfold TextFormatter.writes TextFormatter.detailedApplicationFlavors
      TextFormatter.flavorsByType TextFormatter.addonSummaryLines
      TextFormatter.applicationSummaryLines TextFormatter.detailedAddonPlansLines
      TextFormatter.detailedApplicationFlavorsLines
    rw [hline1, hline2]
    simp only [List.append_assoc, List.cons_append, List.nil_append]
  · intro provider
    exact ⟨TextFormatter.providerPlanLines_head sortSlice hs provider,
      TextFormatter.providerPlanList_title sortSlice provider⟩
  · intro instance_
    refine ⟨fun hen => ⟨TextFormatter.instanceFlavorLines_head sortSlice hs instance_ hen,
      TextFormatter.instanceFlavorList_title sortSlice instance_ hen⟩, fun hdis => ?_⟩
    simp [TextFormatter.instanceFlavorLines, TextFormatter.instanceFlavorList, hdis]
  · rfl
  · intro provider
    exact ⟨_, rfl⟩
  · intro instance_
    refine ⟨PDFFormatter.instanceFlavors_head sortSlice instance_, fun hdis => ?_⟩
    simp [PDFFormatter.instanceFlavors, hdis]
  · intro h
    have hcol := CSVFormatter.column_of_replicate (CSVFormatter.providerRecords sortSlice)
      (fun provider : AddonProvider => [str "addon", provider.ID, provider.Name])
      (fun provider => max 1 provider.Plans.length) 1
      (CSVFormatter.providerRecords_ids sortSlice hs) providers
    rw [hcol]
    exact pairwise_flatMap_replicate (fun provider : AddonProvider => provider.ID) _ _ h
  · intro h
    have hcol := CSVFormatter.column_of_replicate (CSVFormatter.instanceRecords sortSlice)
      (fun instance_ : ProductInstance => [str "application", instance_.Type_])
      (fun instance_ => max 1 instance_.Flavors.length) 0
      (CSVFormatter.instanceRecords_types sortSlice hs) instances
    rw [hcol]
    exact pairwise_flatMap_replicate (fun instance_ : ProductInstance => instance_.Type_)
      _ _ h

set_option maxRecDepth 1000000 in
/-- Witness of the amended C19: the fixture providers in the order GetAddonProviders
returns them, "postgresql" then "redis", give an ascending Provider_ID column; in the
order of the fixture, "redis" then "postgresql", the column follows that order. -/
theorem providers_in_input_order_witness :
    ({} : Sink).okWrites = none ∧
    (CSVFormatter.Format insertionSortLessFunc
        (insertionSortLessFunc AddonProvider (fun a b => stringLess a.ID b.ID)
          TestAddonProviders) TestProductInstances {}).2 = none ∧
    (((insertionSortLessFunc AddonProvider (fun a b => stringLess a.ID b.ID)
          TestAddonProviders).flatMap
        (CSVFormatter.providerRecords insertionSortLessFunc)).map
      (fun row => row.getD 1 [])).Pairwise (fun a b => a ≤ b) ∧
    ((insertionSortLessFunc AddonProvider (fun a b => stringLess a.ID b.ID)
          TestAddonProviders).flatMap
        (CSVFormatter.providerRecords insertionSortLessFunc)).map
      (fun row => row.getD 1 []) =
      [str "postgresql", str "postgresql", str "redis", str "redis"] ∧
    (TestAddonProviders.flatMap (CSVFormatter.providerRecords insertionSortLessFunc)).map
      (fun row => row.getD 1 []) =
      [str "redis", str "redis", str "postgresql", str "postgresql"] :=
  ⟨rfl,
   (providers_in_input_order id (fun _ w => (w, none)) insertionSortLessFunc
      insertionSortLessFunc_permutes
      (insertionSortLessFunc AddonProvider (fun a b => stringLess a.ID b.ID)
        TestAddonProviders) TestProductInstances {} rfl).1.1,
   (providers_in_input_order id (fun _ w => (w, none)) insertionSortLessFunc
      insertionSortLessFunc_permutes
      (insertionSortLessFunc AddonProvider (fun a b => stringLess a.ID b.ID)
        TestAddonProviders) TestProductInstances {} rfl).2.2.2.2.1 (by decide),
   by decide, by decide⟩

/-! ## Theorems: the API client -/

/-- C20: when the fetch reports no error, GetAddonProviders returns, with a nil error, a
rearrangement of the fetched providers with the ids non-decreasing in byte-wise
(case-sensitive) order, and GetProductInstances a rearrangement of the fetched instances
with the types non-decreasing in the same order. -/
theorem Client.results_sorted (sortSlice : SortSlice) (hp : sortSlice.Permutes)
    (ho : sortSlice.Sorts) (addonRes : Response AddonProvider)
    (instanceRes : Response ProductInstance)
    (h1 : addonRes.error = none) (h2 : instanceRes.error = none) :
    (∃ providers : List AddonProvider,
      Client.GetAddonProviders sortSlice addonRes = (providers, none) ∧
      providers.Perm addonRes.payload ∧
      (providers.map (fun provider => provider.ID)).Pairwise (fun a b => a ≤ b)) ∧
    (∃ instances : List ProductInstance,
      Client.GetProductInstances sortSlice instanceRes = (instances, none) ∧
      instances.Perm instanceRes.payload ∧
      (instances.map (fun instance_ => instance_.Type_)).Pairwise (fun a b => a ≤ b)) := by
  refine ⟨⟨_, ?_, hp AddonProvider (fun a b => stringLess a.ID b.ID) addonRes.payload, ?_⟩,
    ⟨_, ?_,
      hp ProductInstance (fun a b => stringLess a.Type_ b.Type_) instanceRes.payload, ?_⟩⟩
  · simp [Client.GetAddonProviders, Response.HasError, h1]
  · rw [List.pairwise_map]
    exact ho AddonProvider (fun provider => provider.ID) addonRes.payload
  · simp [Client.GetProductInstances, Response.HasError, h2]
  · rw [List.pairwise_map]
    exact ho ProductInstance (fun instance_ => instance_.Type_) instanceRes.payload

set_option maxRecDepth 1000000 in
/-- Witness of C20: the fixture providers followed by a provider "Zeta" come back as
Zeta, postgresql, redis (an upper-case letter sorts before the lower-case ones), and the
fixture instances reversed come back as node, python. -/
theorem Client.results_sorted_witness :
    ((∃ providers : List AddonProvider,
      Client.GetAddonProviders insertionSortLessFunc
          { payload := TestAddonProviders ++ [{ ID := str "Zeta" }] } = (providers, none) ∧
      providers.Perm (TestAddonProviders ++ [{ ID := str "Zeta" }]) ∧
      (providers.map (fun provider => provider.ID)).Pairwise (fun a b => a ≤ b)) ∧
    (∃ instances : List ProductInstance,
      Client.GetProductInstances insertionSortLessFunc
          { payload := TestProductInstances.reverse } = (instances, none) ∧
      instances.Perm TestProductInstances.reverse ∧
      (instances.map (fun instance_ => instance_.Type_)).Pairwise (fun a b => a ≤ b))) ∧
    (Client.GetAddonProviders insertionSortLessFunc
        { payload := TestAddonProviders ++ [{ ID := str "Zeta" }] }).1.map
      (fun provider => provider.ID) = [str "Zeta", str "postgresql", str "redis"] ∧
    (Client.GetProductInstances insertionSortLessFunc
        { payload := TestProductInstances.reverse }).1.map
      (fun instance_ => instance_.Type_) = [str "node", str "python"] :=
  ⟨Client.results_sorted insertionSortLessFunc insertionSortLessFunc_permutes
      insertionSortLessFunc_sorts { payload := TestAddonProviders ++ [{ ID := str "Zeta" }] }
      { payload := TestProductInstances.reverse } rfl rfl,
   by decide, by decide⟩

/-! ## Lemmas: truncateText, case by case -/

theorem truncateText_of_nonpos (text : GoString) (maxLen : Int) (h : maxLen ≤ 0) :
    truncateText text maxLen = some [] := by
  simp [truncateText, h, str]
  rfl

theorem truncateText_of_fits (text : GoString) (maxLen : Int) (h0 : 0 < maxLen)
    (h : (text.length : Int) ≤ maxLen) : truncateText text maxLen = some text := by
  have h1 : ¬ maxLen ≤ 0 := by omega
  simp [truncateText, h1, h]

theorem truncateText_of_one (text : GoString) (h : 1 < (text.length : Int)) :
    truncateText text 1 = some (str ".") := by
  have h2 : ¬ (text.length : Int) ≤ 1 := by omega
  simp [truncateText, h2]

theorem truncateText_of_two_three (text : GoString) (maxLen : Int)
    (hm : maxLen = 2 ∨ maxLen = 3) (h : maxLen < (text.length : Int)) :
    truncateText text maxLen = some (str "...") := by
  have h1 : ¬ maxLen ≤ 0 := by omega
  have h2 : ¬ (text.length : Int) ≤ maxLen := by omega
  have h3 : maxLen ≤ 3 := by omega
  have h4 : ¬ maxLen = 1 := by omega
  simp [truncateText, h1, h2, h3, h4]

theorem truncateText_of_long (text : GoString) (maxLen : Int) (h4 : 4 ≤ maxLen)
    (h : maxLen < (text.length : Int)) :
    truncateText text maxLen = some (text.take (maxLen - 3).toNat ++ str "...") := by
  have h1 : ¬ maxLen ≤ 0 := by omega
  have h2 : ¬ (text.length : Int) ≤ maxLen := by omega
  have h3 : ¬ maxLen ≤ 3 := by omega
  have h5 : 0 ≤ maxLen - 3 ∧ maxLen - 3 ≤ (text.length : Int) := by omega
  simp [truncateText, sliceTo, h1, h2, h3, h5]

theorem length_cut (text : GoString) (maxLen : Int) (h4 : 4 ≤ maxLen)
    (h : maxLen < (text.length : Int)) :
    ((text.take (maxLen - 3).toNat ++ str "...").length : Int) = maxLen := by
  have h3 : (str "...").length = 3 := by decide
  rw [List.length_append, List.length_take, h3]
  have : (maxLen - 3).toNat ≤ text.length := by omega
  rw [Nat.min_eq_left this]
  omega

/-- The call `truncateText(text, maxLen)` returns for every text and every maxLen: its
slice expression is never out of range. -/
theorem truncateText_isSome (text : GoString) (maxLen : Int) :
    ∃ r, truncateText text maxLen = some r := by
  by_cases h0 : maxLen ≤ 0
  · exact ⟨_, truncateText_of_nonpos text maxLen h0⟩
  by_cases h1 : (text.length : Int) ≤ maxLen
  · exact ⟨_, truncateText_of_fits text maxLen (by omega) h1⟩
  by_cases h2 : maxLen = 1
  · subst h2
    exact ⟨_, truncateText_of_one text (by omega)⟩
  by_cases h3 : maxLen ≤ 3
  · exact ⟨_, truncateText_of_two_three text maxLen (by omega) (by omega)⟩
  · exact ⟨_, truncateText_of_long text maxLen (by omega) (by omega)⟩

/-! ## Theorems: truncateText, idempotence and bounds -/

/-- C27: truncateText is idempotent in its text argument: for every text and every
integer maxLen, truncating the result again with the same maxLen returns it unchanged,
also at maxLen = 2 where the first result "..." is longer than maxLen. -/
theorem truncateText_idempotent (text : GoString) (maxLen : Int) :
    ∃ r, truncateText text maxLen = some r ∧ truncateText r maxLen = some r := by
  by_cases h0 : maxLen ≤ 0
  · exact ⟨_, truncateText_of_nonpos text maxLen h0, truncateText_of_nonpos _ maxLen h0⟩
  by_cases h1 : (text.length : Int) ≤ maxLen
  · exact ⟨_, truncateText_of_fits text maxLen (by omega) h1,
      truncateText_of_fits text maxLen (by omega) h1⟩
  by_cases h2 : maxLen = 1
  · subst h2
    exact ⟨_, truncateText_of_one text (by omega),
      truncateText_of_fits _ 1 (by decide) (by decide)⟩
  by_cases h3 : maxLen = 2
  · subst h3
    exact ⟨_, truncateText_of_two_three text 2 (Or.inl rfl) (by omega),
      truncateText_of_two_three _ 2 (Or.inl rfl) (by decide)⟩
  by_cases h4 : maxLen = 3
  · subst h4
    exact ⟨_, truncateText_of_two_three text 3 (Or.inr rfl) (by omega),
      truncateText_of_fits _ 3 (by decide) (by decide)⟩
  · have hlen := length_cut text maxLen (by omega) (by omega)
    exact ⟨_, truncateText_of_long text maxLen (by omega) (by omega),
      truncateText_of_fits _ maxLen (by omega) (by omega)⟩

/-- C28: for every text and every integer maxLen, truncateText returns (no slice out of
range); the result has at most max(maxLen, 0) bytes whenever maxLen is not 2, exactly
maxLen bytes when len(text) > maxLen >= 4, and is longer than a maxLen >= 0 only for
maxLen = 2 with a text longer than 2, where it has 3 bytes. -/
theorem truncateText_bounds (text : GoString) (maxLen : Int) :
    ∃ r, truncateText text maxLen = some r ∧
      (maxLen ≠ 2 → (r.length : Int) ≤ max maxLen 0) ∧
      (4 ≤ maxLen → maxLen < (text.length : Int) → (r.length : Int) = maxLen) ∧
      (0 ≤ maxLen → maxLen < (r.length : Int) →
        maxLen = 2 ∧ 2 < text.length ∧ r.length = 3) ∧
      (maxLen = 2 → 2 < text.length → r.length = 3) := by
  by_cases h0 : maxLen ≤ 0
  · refine ⟨_, truncateText_of_nonpos text maxLen h0, ?_, ?_, ?_, ?_⟩
    · intro _
      simp
    · intro h; omega
    · intro _ h
      simp at h
      omega
    · intro h; omega
  by_cases h1 : (text.length : Int) ≤ maxLen
  · refine ⟨_, truncateText_of_fits text maxLen (by omega) h1, ?_, ?_, ?_, ?_⟩
    · intro _
      exact le_trans h1 (le_max_left _ _)
    · intro _ h; omega
    · intro _ h; omega
    · intro h h2; omega
  by_cases h2 : maxLen = 1
  · subst h2
    have hl : (str ".").length = 1 := by decide
    refine ⟨_, truncateText_of_one text (by omega), ?_, ?_, ?_, ?_⟩
    · intro _
      rw [hl]
      decide
    · intro h; omega
    · intro _ h
      rw [hl] at h
      omega
    · intro h; omega
  have hl3 : (str "...").length = 3 := by decide
  by_cases h3 : maxLen = 2
  · subst h3
    refine ⟨_, truncateText_of_two_three text 2 (Or.inl rfl) (by omega), ?_, ?_, ?_, ?_⟩
    · intro h; exact absurd rfl h
    · intro h; omega
    · intro _ _
      exact ⟨rfl, by omega, hl3⟩
    · intro _ _
      exact hl3
  by_cases h4 : maxLen = 3
  · subst h4
    refine ⟨_, truncateText_of_two_three text 3 (Or.inr rfl) (by omega), ?_, ?_, ?_, ?_⟩
    · intro _
      rw [hl3]
      decide
    · intro h; omega
    · intro _ h
      rw [hl3] at h
      omega
    · intro h; omega
  · have hlen := length_cut text maxLen (by omega) (by omega)
    refine ⟨_, truncateText_of_long text maxLen (by omega) (by omega), ?_, ?_, ?_, ?_⟩
    · intro _
      rw [hlen]
      exact le_max_left _ _
    · intro _ _
      exact hlen
    · intro _ h
      rw [hlen] at h
      omega
    · intro h; omega

/-! ## Theorems: configuration and dispatch -/

/-- C26: as a function of the value `os.Getenv` gives for CLEVER_API_TOKEN, LoadConfig
fails, with an error and no config, exactly when the value is empty, which is also what
an unset variable gives; otherwise it returns, without error, the config whose APIToken
is that value, whose OutputFormat is "markdown" and whose OutputFile is "". -/
theorem LoadConfig_result (env : Environ) :
    (os.Getenv env (str "CLEVER_API_TOKEN") = [] →
      (LoadConfig env).1 = none ∧ (LoadConfig env).2 ≠ none) ∧
    (os.Getenv env (str "CLEVER_API_TOKEN") ≠ [] →
      LoadConfig env =
        (some { APIToken := os.Getenv env (str "CLEVER_API_TOKEN"),
                OutputFormat := str "markdown", OutputFile := [] }, none)) ∧
    ((LoadConfig env).2 ≠ none ↔ os.Getenv env (str "CLEVER_API_TOKEN") = []) ∧
    ((∀ kv ∈ env, kv.1 ≠ str "CLEVER_API_TOKEN") →
      os.Getenv env (str "CLEVER_API_TOKEN") = []) ∧
    (LoadConfig []).1 = none ∧
    (LoadConfig [(str "CLEVER_API_TOKEN", str "")]).1 = none ∧
    LoadConfig [(str "CLEVER_API_TOKEN", str "valid_token_123")] =
      (some { APIToken := str "valid_token_123", OutputFormat := str "markdown",
              OutputFile := [] }, none) := by
  have hempty : str "" = ([] : GoString) := rfl
  refine ⟨?_, ?_, ?_, ?_, by decide, by decide, by decide⟩
  · intro h
    simp [LoadConfig, h, hempty]
  · intro h
    simp only [LoadConfig, hempty, h, if_false]
  · by_cases h : os.Getenv env (str "CLEVER_API_TOKEN") = []
    · simp [LoadConfig, h, hempty]
    · simp [LoadConfig, h, hempty]
  · intro h
    unfold os.Getenv
    have : env.find? (fun kv => kv.1 == str "CLEVER_API_TOKEN") = none := by
      rw [List.find?_eq_none]
      intro kv hkv
      simpa using h kv hkv
    rw [this]
    rfl

theorem GetFormatter_arm_cases (f : GoString) :
    (f = str "markdown" ∧ GetFormatter.arm f = some 0 ∧
      GetFormatter f = Formatter.MarkdownFormatter ∧ ValidateOutputFormat f = true) ∨
    (f = str "txt" ∧ GetFormatter.arm f = some 1 ∧
      GetFormatter f = Formatter.TextFormatter ∧ ValidateOutputFormat f = true) ∨
    (f = str "csv" ∧ GetFormatter.arm f = some 2 ∧
      GetFormatter f = Formatter.CSVFormatter ∧ ValidateOutputFormat f = true) ∨
    (f = str "pdf" ∧ GetFormatter.arm f = some 3 ∧
      GetFormatter f = Formatter.PDFFormatter ∧ ValidateOutputFormat f = true) ∨
    (GetFormatter.arm f = none ∧ GetFormatter f = Formatter.MarkdownFormatter ∧
      ValidateOutputFormat f = false) := by
  by_cases h1 : f = str "markdown"
  · subst h1
    exact Or.inl ⟨rfl, by decide, by decide, by decide⟩
  by_cases h2 : f = str "txt"
  · subst h2
    exact Or.inr (Or.inl ⟨rfl, by decide, by decide, by decide⟩)
  by_cases h3 : f = str "csv"
  · subst h3
    exact Or.inr (Or.inr (Or.inl ⟨rfl, by decide, by decide, by decide⟩))
  by_cases h4 : f = str "pdf"
  · subst h4
    exact Or.inr (Or.inr (Or.inr (Or.inl ⟨rfl, by decide, by decide, by decide⟩)))
  · refine Or.inr (Or.inr (Or.inr (Or.inr ⟨?_, ?_, ?_⟩)))
    · simp [GetFormatter.arm, h1, h2, h3, h4]
    · simp [GetFormatter, h1, h2, h3, h4]
    · have e1 : (str "markdown" == f) = false := by simpa using fun h => h1 h.symm
      have e2 : (str "txt" == f) = false := by simpa using fun h => h2 h.symm
      have e3 : (str "csv" == f) = false := by simpa using fun h => h3 h.symm
      have e4 : (str "pdf" == f) = false := by simpa using fun h => h4 h.symm
      simp [ValidateOutputFormat, GoMap.index, List.find?, e1, e2, e3, e4]

/-- C30: validation and dispatch agree: for every string f, ValidateOutputFormat(f) is
true exactly when GetFormatter(f) takes one of its four `case` arms rather than
`default`; the formatter runList goes on with, when it gets that far, is the one the
format names; the `default` arm is taken only for strings ValidateOutputFormat rejects. -/
theorem validation_matches_dispatch (f : GoString) :
    (ValidateOutputFormat f = true ↔ (GetFormatter.arm f).isSome = true) ∧
    (GetFormatter.arm f = none → ValidateOutputFormat f = false) ∧
    GetFormatter f =
      (match GetFormatter.arm f with
       | some 1 => Formatter.TextFormatter
       | some 2 => Formatter.CSVFormatter
       | some 3 => Formatter.PDFFormatter
       | _ => Formatter.MarkdownFormatter) ∧
    (∀ (env : Environ) (sortSlice : SortSlice) (addonRes : Response AddonProvider)
        (instanceRes : Response ProductInstance) (formatter : Formatter),
      (runList.formatter env sortSlice f addonRes instanceRes).1 = some formatter →
        ValidateOutputFormat f = true ∧ formatter = GetFormatter f ∧
        ((f = str "markdown" ∧ formatter = Formatter.MarkdownFormatter) ∨
         (f = str "txt" ∧ formatter = Formatter.TextFormatter) ∨
         (f = str "csv" ∧ formatter = Formatter.CSVFormatter) ∨
         (f = str "pdf" ∧ formatter = Formatter.PDFFormatter))) ∧
    (runList.formatter [(str "CLEVER_API_TOKEN", str "t")] insertionSortLessFunc (str "csv")
        {} {}).1 = some Formatter.CSVFormatter ∧
    (runList.formatter [(str "CLEVER_API_TOKEN", str "t")] insertionSortLessFunc (str "CSV")
        {} {}).1 = none := by
  have hcases := GetFormatter_arm_cases f
  refine ⟨?_, ?_, ?_, ?_, by decide, by decide⟩
  · rcases hcases with h | h | h | h | h
    · simp [h.2.1, h.2.2.2]
    · simp [h.2.1, h.2.2.2]
    · simp [h.2.1, h.2.2.2]
    · simp [h.2.1, h.2.2.2]
    · simp [h.1, h.2.2]
  · intro harm
    rcases hcases with h | h | h | h | h
    · rw [h.2.1] at harm; exact absurd harm (by simp)
    · rw [h.2.1] at harm; exact absurd harm (by simp)
    · rw [h.2.1] at harm; exact absurd harm (by simp)
    · rw [h.2.1] at harm; exact absurd harm (by simp)
    · exact h.2.2
  · rcases hcases with h | h | h | h | h
    · rw [h.2.1, h.2.2.1]
    · rw [h.2.1, h.2.2.1]
    · rw [h.2.1, h.2.2.1]
    · rw [h.2.1, h.2.2.1]
    · rw [h.1, h.2.1]
  · intro env sortSlice addonRes instanceRes formatter hrun
    have hval : ValidateOutputFormat f = true ∧ formatter = GetFormatter f := by
      unfold runList.formatter at hrun
      split at hrun
      · simp at hrun
      · by_cases hv : ValidateOutputFormat f = true
        · simp only [hv, not_true_eq_false, if_false] at hrun
          split at hrun
          · simp at hrun
          · split at hrun
            · simp at hrun
            · simp only [Option.some.injEq] at hrun
              exact ⟨hv, hrun.symm⟩
        · simp only [hv, not_false_eq_true, if_true] at hrun
          simp at hrun
    refine ⟨hval.1, hval.2, ?_⟩
    rcases hcases with h | h | h | h | h
    · exact Or.inl ⟨h.1, hval.2.trans h.2.2.1⟩
    · exact Or.inr (Or.inl ⟨h.1, hval.2.trans h.2.2.1⟩)
    · exact Or.inr (Or.inr (Or.inl ⟨h.1, hval.2.trans h.2.2.1⟩))
    · exact Or.inr (Or.inr (Or.inr ⟨h.1, hval.2.trans h.2.2.1⟩))
    · rw [h.2.2] at hval
      exact absurd hval.1 (by simp)
/-! ## Theorems: field counts, errors, rules -/

/-- C29: every record the CSV renderer writes in a section has as many fields as the
header of the section: the addon header and every addon row, plan row or placeholder,
have 6 fields; the application header and every application row, flavor row or
placeholder, have 20. -/
theorem CSVFormatter.field_counts (sortSlice : SortSlice) (providers : List AddonProvider)
    (instances : List ProductInstance) :
    CSVFormatter.addonHeader.length = 6 ∧
    (∀ row ∈ CSVFormatter.addonRows sortSlice providers, row.length = 6) ∧
    (∀ (provider : AddonProvider) (plan : AddonPlan),
      (CSVFormatter.planRecord provider plan).length = 6 ∧
      (CSVFormatter.noPlansRecord provider).length = 6) ∧
    CSVFormatter.applicationHeader.length = 20 ∧
    (∀ row ∈ CSVFormatter.applicationRows sortSlice instances, row.length = 20) ∧
    (∀ (instance_ : ProductInstance) (flavor : Flavor),
      (CSVFormatter.flavorRecord instance_ flavor).length = 20 ∧
      (CSVFormatter.noFlavorsRecord instance_).length = 20) := by
  refine ⟨rfl, ?_, fun _ _ => ⟨rfl, rfl⟩, rfl, ?_, fun _ _ => ⟨rfl, rfl⟩⟩
  · intro row hrow
    obtain ⟨provider, _, hmem⟩ := List.mem_flatMap.mp hrow
    unfold CSVFormatter.providerRecords at hmem
    by_cases h0 : provider.Plans.length = 0
    · simp only [h0, if_true, List.mem_singleton] at hmem
      subst hmem
      rfl
    · simp only [h0, if_false, List.mem_map] at hmem
      obtain ⟨plan, _, rfl⟩ := hmem
      rfl
  · intro row hrow
    obtain ⟨instance_, _, hmem⟩ := List.mem_flatMap.mp hrow
    unfold CSVFormatter.instanceRecords at hmem
    by_cases h0 : instance_.Flavors.length = 0
    · simp only [h0, if_true, List.mem_singleton] at hmem
      subst hmem
      rfl
    · simp only [h0, if_false, List.mem_map] at hmem
      obtain ⟨flavor, _, rfl⟩ := hmem
      rfl

/-- C23: for every provider list and instance list and every sink that never fails, the
Markdown, Text and CSV renderers return nil; the Markdown and Text renderers, which write
once, return nil as soon as the sink accepts one more write. -/
theorem renderers_succeed (tabwriter : GoString → GoString) (sortSlice : SortSlice)
    (providers : List AddonProvider) (instances : List ProductInstance) (writer : Sink)
    (hw : writer.okWrites = none) :
    (MarkdownFormatter.Format sortSlice providers instances writer).2 = none ∧
    (TextFormatter.Format tabwriter sortSlice providers instances writer).2 = none ∧
    (CSVFormatter.Format sortSlice providers instances writer).2 = none ∧
    (∀ (n : Nat) (sink : Sink), sink.okWrites = some (n + 1) →
      (MarkdownFormatter.Format sortSlice providers instances sink).2 = none ∧
      (TextFormatter.Format tabwriter sortSlice providers instances sink).2 = none) := by
  refine ⟨?_, ?_, ?_, ?_⟩
  · unfold MarkdownFormatter.Format
    rw [Sink.Write_ok _ _ hw]
  · unfold TextFormatter.Format
    rw [Sink.Write_ok _ _ hw]
  · rw [CSVFormatter.Format_ok _ _ _ _ hw]
  · intro n sink hs
    unfold MarkdownFormatter.Format TextFormatter.Format Sink.Write
    rw [hs]
    exact ⟨rfl, rfl⟩

set_option maxRecDepth 1000000 in
/-- Witness of C23: empty lists, then a provider without plans and an instance without
flavors, tags or deployments, on an empty sink that never fails. -/
theorem renderers_succeed_witness :
    (MarkdownFormatter.Format insertionSortLessFunc [] [] {}).2 = none ∧
    (TextFormatter.Format id insertionSortLessFunc [] [] {}).2 = none ∧
    (CSVFormatter.Format insertionSortLessFunc [] [] {}).2 = none ∧
    (MarkdownFormatter.Format insertionSortLessFunc [{ ID := str "kv" }]
      [{ Type_ := str "zig", Enabled := true }] {}).2 = none ∧
    (TextFormatter.Format id insertionSortLessFunc [{ ID := str "kv" }]
      [{ Type_ := str "zig", Enabled := true }] {}).2 = none ∧
    (CSVFormatter.Format insertionSortLessFunc [{ ID := str "kv" }]
      [{ Type_ := str "zig", Enabled := true }] {}).2 = none :=
  ⟨(renderers_succeed id insertionSortLessFunc [] [] {} rfl).1,
   (renderers_succeed id insertionSortLessFunc [] [] {} rfl).2.1,
   (renderers_succeed id insertionSortLessFunc [] [] {} rfl).2.2.1,
   (renderers_succeed id insertionSortLessFunc [{ ID := str "kv" }]
      [{ Type_ := str "zig", Enabled := true }] {} rfl).1,
   (renderers_succeed id insertionSortLessFunc [{ ID := str "kv" }]
      [{ Type_ := str "zig", Enabled := true }] {} rfl).2.1,
   (renderers_succeed id insertionSortLessFunc [{ ID := str "kv" }]
      [{ Type_ := str "zig", Enabled := true }] {} rfl).2.2.1⟩

set_option maxRecDepth 1000000 in
/-- C22, the code at the failing input: with empty lists and a sink whose every write
fails, the headers stay in the 4096-byte buffer until the deferred `Flush`; that write
fails (the sink counts one failed write and holds no byte), yet `CSVFormatter.Format`
returns nil.  The Markdown renderer returns the error of its write on the same sink. -/
theorem CSVFormatter.flush_error_dropped :
    (CSVFormatter.Format insertionSortLessFunc [] [] { okWrites := some 0 }).2 = none ∧
    (CSVFormatter.Format insertionSortLessFunc [] [] { okWrites := some 0 }).1.failed = 1 ∧
    (CSVFormatter.Format insertionSortLessFunc [] [] { okWrites := some 0 }).1.data = [] ∧
    (MarkdownFormatter.Format insertionSortLessFunc [] [] { okWrites := some 0 }).2 =
      some Sink.failure := by
  refine ⟨by decide, by decide, by decide, by decide⟩
/-! ## Theorems: the Text renderer's rules -/

/-- C24, the code on every input: the document title "COMPLETE CLEVER CLOUD SERVICES
OVERVIEW" has 39 bytes and the rule written right after it has 40 signs "="; the six
section headers have a rule of their own length, and the rule under the title of a
provider and under the title of an instance has the byte length of the title. -/
theorem TextFormatter.title_rules (tabwriter : GoString → GoString)
    (sortSlice : SortSlice) (providers : List AddonProvider)
    (instances : List ProductInstance) :
    (∃ rest, TextFormatter.writes tabwriter sortSlice providers instances =
      (str "COMPLETE CLEVER CLOUD SERVICES OVERVIEW" ++ str "\n") ::
      (List.replicate 40 61 ++ str "\n\n") :: rest) ∧
    (str "COMPLETE CLEVER CLOUD SERVICES OVERVIEW").length = 39 ∧
    (∃ a b c d e,
      TextFormatter.writes tabwriter sortSlice providers instances =
        a ++ [str "ADDON SUMMARY" ++ str "\n",
              List.replicate (str "ADDON SUMMARY").length 61 ++ str "\n\n"] ++
        b ++ [str "\n\n" ++ str "APPLICATION SUMMARY" ++ str "\n",
              List.replicate (str "APPLICATION SUMMARY").length 61 ++ str "\n\n"] ++
        c ++ [str "\n\n" ++ str "DETAILED ADDON PLANS" ++ str "\n",
              List.replicate (str "DETAILED ADDON PLANS").length 61 ++ str "\n\n"] ++
        d ++ [str "\n\n" ++ str "DETAILED APPLICATION FLAVORS" ++ str "\n",
              List.replicate (str "DETAILED APPLICATION FLAVORS").length 61 ++
                str "\n\n"] ++
        e ++ [str "\n\n" ++ str "PLANS BY ADDON PROVIDER" ++ str "\n",
              List.replicate (str "PLANS BY ADDON PROVIDER").length 61 ++ str "\n\n"] ++
        providers.flatMap (TextFormatter.providerPlanList sortSlice) ++
        [str "FLAVORS BY APPLICATION TYPE" ++ str "\n",
         List.replicate (str "FLAVORS BY APPLICATION TYPE").length 61 ++ str "\n\n"] ++
        instances.flatMap (TextFormatter.instanceFlavorList sortSlice)) ∧
    (∀ provider : AddonProvider,
      (TextFormatter.providerPlanList sortSlice provider).take 2 =
        [(provider.Name ++ str " (" ++ provider.ID ++ str ")") ++ str "\n",
         List.replicate (provider.Name ++ str " (" ++ provider.ID ++ str ")").length 45 ++
          str "\n"]) ∧
    (∀ instance_ : ProductInstance,
      (TextFormatter.instanceHeading instance_).take 2 =
        [(instance_.Name ++ str " (" ++ instance_.Type_ ++ str ") - Version " ++
          instance_.Version) ++ str "\n",
         List.replicate (instance_.Name ++ str " (" ++ instance_.Type_ ++
          str ") - Version " ++ instance_.Version).length 45 ++ str "\n"]) := by
  refine ⟨⟨_, rfl⟩, by decide, ?_, ?_, ?_⟩
  · exact ⟨[str "COMPLETE CLEVER CLOUD SERVICES OVERVIEW\n",
        str "========================================\n\n",
        str "Automatically generated via Clever Cloud API\n\n"],
      [tabwriter (TextFormatter.addonSummaryLines providers).flatten],
      [tabwriter (TextFormatter.applicationSummaryLines instances).flatten],
      [tabwriter (TextFormatter.detailedAddonPlansLines sortSlice providers).flatten],
      [tabwriter (TextFormatter.detailedApplicationFlavorsLines sortSlice
        instances).flatten],
      by simp [TextFormatter.writes, TextFormatter.detailedApplicationFlavors,
        TextFormatter.flavorsByType]; decide⟩
  · intro provider
    have hlen : (provider.Name ++ str " (" ++ provider.ID ++ str ")").length =
        provider.Name.length + provider.ID.length + 3 := by
      simp only [List.length_append]
      have h1 : (str " (").length = 2 := by decide
      have h2 : (str ")").length = 1 := by decide
      omega
    have hend : str ")" ++ str "\n" = str ")\n" := by decide
    rw [hlen]
    unfold TextFormatter.providerPlanList dashes
    simp only [List.cons_append, List.nil_append, List.take_succ_cons, List.take_zero,
      List.append_assoc, hend]
  · intro instance_
    rfl
/-! ## Theorems: the PDF renderer's cells -/

theorem truncated_spec (text : GoString) (budget : Int) (h : 3 ≤ budget) :
    truncateText text budget = some (truncated text budget) ∧
    ((truncated text budget).length : Int) ≤ budget := by
  unfold truncated
  by_cases h1 : (text.length : Int) ≤ budget
  · rw [truncateText_of_fits text budget (by omega) h1]
    exact ⟨rfl, h1⟩
  by_cases h3 : budget = 3
  · subst h3
    rw [truncateText_of_two_three text 3 (Or.inr rfl) (by omega)]
    exact ⟨rfl, by decide⟩
  · rw [truncateText_of_long text budget (by omega) (by omega)]
    exact ⟨rfl, le_of_eq (length_cut text budget (by omega) (by omega))⟩

set_option maxRecDepth 1000000 in
/-- C25, the code at the failing input: a provider whose id and name have 200 bytes and
an enabled instance with a name of 100 bytes, a description of 200 bytes and one tag of
200 bytes.  The provider id is placed in full in its cell of the "Addon Summary" row,
beside the name cut to 35 bytes; the provider title "name (id)", the instance title and
the line of the tags are placed in full, while the instance name of the summary row is
cut to 20 bytes and the description, beside the tags, to 80.  No call of truncateText
with a budget of the file returns the id. -/
theorem PDFFormatter.provider_id_in_full :
    let provider : AddonProvider :=
      { ID := List.replicate 200 120, Name := List.replicate 200 121 }
    let node : ProductInstance :=
      { Type_ := str "node", Name := List.replicate 100 110, Enabled := true,
        Description := List.replicate 200 100, Tags := [List.replicate 200 116] }
    let ops := PDFFormatter.ops insertionSortLessFunc [provider] [node]
    PdfOp.Cell 60 6 (List.replicate 200 120) ∈ ops ∧
    PdfOp.Cell 80 6 (List.replicate 32 121 ++ str "...") ∈ ops ∧
    PdfOp.Cell 190 8
      (List.replicate 200 121 ++ str " (" ++ List.replicate 200 120 ++ str ")") ∈ ops ∧
    PdfOp.Cell 45 6 (List.replicate 17 110 ++ str "...") ∈ ops ∧
    PdfOp.Cell 190 8 (List.replicate 100 110 ++ str " (node) - Version ") ∈ ops ∧
    PdfOp.Cell 190 6 (str "Description: " ++ List.replicate 77 100 ++ str "...") ∈ ops ∧
    PdfOp.Cell 190 6 (str "Tags: " ++ List.replicate 200 116) ∈ ops ∧
    (∀ budget ∈ ([35, 12, 20, 10, 15, 80, 90] : List Int),
      truncateText (List.replicate 200 120) budget ≠ some (List.replicate 200 120)) := by
  intro provider node ops
  refine ⟨by decide, by decide, by decide, by decide, by decide, by decide, by decide,
    by decide⟩

/-- Classification of the cells of the PDF document: every cell holds one of these
texts.  Passed through truncateText and at most as long as the budget: the provider name
(35), the instance type (12), name (20), version (10) and default flavor name (15), the
composed line of a plan (80) and of a flavor (90), and, after the label "Description: ",
the instance description (80).  Placed in full: the provider id, the provider title
"name (id)", the instance title "name (type) - Version version" and the joined tags.
Every other cell holds a count, a flag or a fixed label. -/
theorem PDFFormatter.cell_texts (sortSlice : SortSlice) (providers : List AddonProvider)
    (instances : List ProductInstance) (w h : Nat) (txt : GoString)
    (hcell : PdfOp.Cell w h txt ∈ PDFFormatter.ops sortSlice providers instances) :
    (∃ text budget, truncateText text budget = some txt ∧ (txt.length : Int) ≤ budget ∧
      ((∃ p ∈ providers, (text = p.Name ∧ budget = 35) ∨
          (∃ plan ∈ sortSlice AddonPlan (fun a b => stringLess a.Slug b.Slug) p.Plans,
            text = PDFFormatter.planText plan ∧ budget = 80)) ∨
       (∃ i ∈ instances, (text = i.Type_ ∧ budget = 12) ∨ (text = i.Name ∧ budget = 20) ∨
          (text = i.Version ∧ budget = 10) ∨
          (text = i.DefaultFlavor.Name ∧ budget = 15) ∨
          (∃ flavor ∈ sortSlice Flavor (fun a b => stringLess a.Name b.Name) i.Flavors,
            text = PDFFormatter.flavorText i flavor ∧ budget = 90)))) ∨
    (∃ i ∈ instances, ∃ t, truncateText i.Description 80 = some t ∧ t.length ≤ 80 ∧
      txt = str "Description: " ++ t) ∨
    (∃ p ∈ providers, txt = p.ID ∨ txt = p.Name ++ str " (" ++ p.ID ++ str ")") ∨
    (∃ i ∈ instances,
      txt = i.Name ++ str " (" ++ i.Type_ ++ str ") - Version " ++ i.Version ∨
      txt = str "Tags: " ++ strings.Join i.Tags (str ", ")) ∨
    (∃ p ∈ providers, txt = fmt.d p.Plans.length) ∨
    (∃ i ∈ instances, txt = fmt.d i.Flavors.length ∨
      txt = str "Max instances: " ++ fmt.d i.MaxInstances ∨
      txt = (if i.Enabled then str "Yes" else str "No")) ∨
    txt ∈ [str "Complete Clever Cloud Services Overview",
      str "Automatically generated via Clever Cloud API",
      str "Addon Summary", str "Provider ID", str "Name", str "Plans",
      str "Application Summary", str "Type", str "Version", str "Enabled",
      str "Flavors", str "Default", str "Detailed Addon Plans",
      str "  No plans available", str "Detailed Application Flavors",
      str "  No flavors available", str "Available flavors:"] := by
  have ht : ∀ (text : GoString) (budget : Int), 3 ≤ budget →
      truncateText text budget = some (truncated text budget) ∧
      ((truncated text budget).length : Int) ≤ budget := truncated_spec
  unfold PDFFormatter.ops at hcell
  simp only [List.mem_append, List.mem_cons, List.mem_flatMap, List.mem_singleton,
    List.not_mem_nil, or_false, false_or, PdfOp.Cell.injEq, reduceCtorEq] at hcell
  rcases hcell with
    ((((((h1 | ⟨p, hp, hm⟩) | h1) | ⟨i, hi, hm⟩) | h1) | ⟨p, hp, hm⟩) | h1) | ⟨i, hi, hm⟩
  · iterate 6 right
    rcases h1 with ⟨_, _, rfl⟩ | ⟨_, _, rfl⟩ | ⟨_, _, rfl⟩ | ⟨_, _, rfl⟩ | ⟨_, _, rfl⟩ |
      ⟨_, _, rfl⟩ <;> simp only [List.mem_cons, true_or, or_true]
  · unfold PDFFormatter.addonSummaryRow at hm
    simp only [List.mem_cons, List.not_mem_nil, or_false, PdfOp.Cell.injEq,
      reduceCtorEq] at hm
    rcases hm with ⟨_, _, rfl⟩ | ⟨_, _, rfl⟩ | ⟨_, _, rfl⟩
    · exact Or.inr (Or.inr (Or.inl ⟨p, hp, Or.inl rfl⟩))
    · exact Or.inl ⟨p.Name, 35, (ht _ 35 (by decide)).1, (ht _ 35 (by decide)).2,
        Or.inl ⟨p, hp, Or.inl ⟨rfl, rfl⟩⟩⟩
    · exact Or.inr (Or.inr (Or.inr (Or.inr (Or.inl ⟨p, hp, rfl⟩))))
  · iterate 6 right
    rcases h1 with ⟨_, _, rfl⟩ | ⟨_, _, rfl⟩ | ⟨_, _, rfl⟩ | ⟨_, _, rfl⟩ | ⟨_, _, rfl⟩ |
      ⟨_, _, rfl⟩ | ⟨_, _, rfl⟩ <;> simp only [List.mem_cons, true_or, or_true]
  · unfold PDFFormatter.applicationSummaryRow at hm
    simp only [List.mem_cons, List.not_mem_nil, or_false, PdfOp.Cell.injEq,
      reduceCtorEq] at hm
    rcases hm with ⟨_, _, rfl⟩ | ⟨_, _, rfl⟩ | ⟨_, _, rfl⟩ | ⟨_, _, rfl⟩ | ⟨_, _, rfl⟩ |
      ⟨_, _, rfl⟩
    · exact Or.inl ⟨i.Type_, 12, (ht _ 12 (by decide)).1, (ht _ 12 (by decide)).2,
        Or.inr ⟨i, hi, Or.inl ⟨rfl, rfl⟩⟩⟩
    · exact Or.inl ⟨i.Name, 20, (ht _ 20 (by decide)).1, (ht _ 20 (by decide)).2,
        Or.inr ⟨i, hi, Or.inr (Or.inl ⟨rfl, rfl⟩)⟩⟩
    · exact Or.inl ⟨i.Version, 10, (ht _ 10 (by decide)).1, (ht _ 10 (by decide)).2,
        Or.inr ⟨i, hi, Or.inr (Or.inr (Or.inl ⟨rfl, rfl⟩))⟩⟩
    · exact Or.inr (Or.inr (Or.inr (Or.inr (Or.inr (Or.inl
        ⟨i, hi, Or.inr (Or.inr rfl)⟩)))))
    · exact Or.inr (Or.inr (Or.inr (Or.inr (Or.inr (Or.inl ⟨i, hi, Or.inl rfl⟩)))))
    · exact Or.inl ⟨i.DefaultFlavor.Name, 15, (ht _ 15 (by decide)).1,
        (ht _ 15 (by decide)).2,
        Or.inr ⟨i, hi, Or.inr (Or.inr (Or.inr (Or.inl ⟨rfl, rfl⟩)))⟩⟩
  · iterate 6 right
    obtain ⟨_, _, rfl⟩ := h1
    simp only [List.mem_cons, true_or, or_true]
  · unfold PDFFormatter.providerPlans at hm
    by_cases h0 : p.Plans.length = 0
    · simp only [h0, if_true, List.mem_append, List.mem_cons, List.not_mem_nil, or_false,
        PdfOp.Cell.injEq, reduceCtorEq, false_or] at hm
      rcases hm with ⟨_, _, rfl⟩ | ⟨_, _, rfl⟩
      · exact Or.inr (Or.inr (Or.inl ⟨p, hp, Or.inr rfl⟩))
      · iterate 6 right
        simp only [List.mem_cons, true_or, or_true]
    · simp only [h0, if_false, List.mem_append, List.mem_cons, List.not_mem_nil, or_false,
        PdfOp.Cell.injEq, reduceCtorEq, false_or, List.mem_flatMap] at hm
      rcases hm with ⟨_, _, rfl⟩ | ⟨plan, hplan, _, _, rfl⟩
      · exact Or.inr (Or.inr (Or.inl ⟨p, hp, Or.inr rfl⟩))
      · exact Or.inl ⟨PDFFormatter.planText plan, 80, (ht _ 80 (by decide)).1,
          (ht _ 80 (by decide)).2, Or.inl ⟨p, hp, Or.inr ⟨plan, hplan, rfl, rfl⟩⟩⟩
  · iterate 6 right
    obtain ⟨_, _, rfl⟩ := h1
    simp only [List.mem_cons, true_or, or_true]
  · unfold PDFFormatter.instanceFlavors at hm
    by_cases hen : i.Enabled = true
    swap
    · simp [hen] at hm
    have hd := ht i.Description 80 (by decide)
    by_cases h0 : i.Flavors.length = 0
    · simp only [hen, not_true_eq_false, if_false, h0, if_true, List.mem_append,
        List.mem_cons, List.not_mem_nil, or_false, PdfOp.Cell.injEq, reduceCtorEq,
        false_or] at hm
      rcases hm with (⟨_, _, rfl⟩ | ⟨_, _, rfl⟩ | ⟨_, _, rfl⟩ | ⟨_, _, rfl⟩) | ⟨_, _, rfl⟩
      · exact Or.inr (Or.inr (Or.inr (Or.inl ⟨i, hi, Or.inl rfl⟩)))
      · exact Or.inr (Or.inl ⟨i, hi, _, hd.1, by exact_mod_cast hd.2, rfl⟩)
      · exact Or.inr (Or.inr (Or.inr (Or.inr (Or.inr (Or.inl
          ⟨i, hi, Or.inr (Or.inl rfl)⟩)))))
      · exact Or.inr (Or.inr (Or.inr (Or.inl ⟨i, hi, Or.inr rfl⟩)))
      · iterate 6 right
        simp only [List.mem_cons, true_or, or_true]
    · simp only [hen, not_true_eq_false, if_false, h0, List.mem_append,
        List.mem_cons, List.not_mem_nil, or_false, PdfOp.Cell.injEq, reduceCtorEq,
        false_or, List.mem_flatMap] at hm
      rcases hm with (⟨_, _, rfl⟩ | ⟨_, _, rfl⟩ | ⟨_, _, rfl⟩ | ⟨_, _, rfl⟩) |
        (⟨_, _, rfl⟩ | ⟨flavor, hflavor, _, _, rfl⟩)
      · exact Or.inr (Or.inr (Or.inr (Or.inl ⟨i, hi, Or.inl rfl⟩)))
      · exact Or.inr (Or.inl ⟨i, hi, _, hd.1, by exact_mod_cast hd.2, rfl⟩)
      · exact Or.inr (Or.inr (Or.inr (Or.inr (Or.inr (Or.inl
          ⟨i, hi, Or.inr (Or.inl rfl)⟩)))))
      · exact Or.inr (Or.inr (Or.inr (Or.inl ⟨i, hi, Or.inr rfl⟩)))
      · iterate 6 right
        simp only [List.mem_cons, true_or, or_true]
      · exact Or.inl ⟨PDFFormatter.flavorText i flavor, 90, (ht _ 90 (by decide)).1,
          (ht _ 90 (by decide)).2,
          Or.inr ⟨i, hi, Or.inr (Or.inr (Or.inr (Or.inr ⟨flavor, hflavor, rfl, rfl⟩)))⟩⟩

set_option maxRecDepth 1000000 in
/-- Example of the classification of the cells: a provider whose name has 40 bytes; the
name cell of its summary row holds the first 32 bytes and "...". -/
theorem PDFFormatter.cell_texts_witness :
    let providers : List AddonProvider :=
      [{ ID := str "kv", Name := str "Key value store with a long product name" }]
    let txt := str "Key value store with a long prod..."
    PdfOp.Cell 80 6 txt ∈ PDFFormatter.ops insertionSortLessFunc providers [] ∧
    txt.length = 35 ∧
    truncateText (str "Key value store with a long product name") 35 = some txt ∧
    ((∃ text budget, truncateText text budget = some txt ∧ (txt.length : Int) ≤ budget ∧
      ((∃ p ∈ providers, (text = p.Name ∧ budget = 35) ∨
          (∃ plan ∈ insertionSortLessFunc AddonPlan
              (fun a b => stringLess a.Slug b.Slug) p.Plans,
            text = PDFFormatter.planText plan ∧ budget = 80)) ∨
       (∃ i ∈ ([] : List ProductInstance),
          (text = i.Type_ ∧ budget = 12) ∨ (text = i.Name ∧ budget = 20) ∨
          (text = i.Version ∧ budget = 10) ∨
          (text = i.DefaultFlavor.Name ∧ budget = 15) ∨
          (∃ flavor ∈ insertionSortLessFunc Flavor
              (fun a b => stringLess a.Name b.Name) i.Flavors,
            text = PDFFormatter.flavorText i flavor ∧ budget = 90)))) ∨
    (∃ i ∈ ([] : List ProductInstance), ∃ t,
      truncateText i.Description 80 = some t ∧ t.length ≤ 80 ∧
      txt = str "Description: " ++ t) ∨
    (∃ p ∈ providers, txt = p.ID ∨ txt = p.Name ++ str " (" ++ p.ID ++ str ")") ∨
    (∃ i ∈ ([] : List ProductInstance),
      txt = i.Name ++ str " (" ++ i.Type_ ++ str ") - Version " ++ i.Version ∨
      txt = str "Tags: " ++ strings.Join i.Tags (str ", ")) ∨
    (∃ p ∈ providers, txt = fmt.d p.Plans.length) ∨
    (∃ i ∈ ([] : List ProductInstance), txt = fmt.d i.Flavors.length ∨
      txt = str "Max instances: " ++ fmt.d i.MaxInstances ∨
      txt = (if i.Enabled then str "Yes" else str "No")) ∨
    txt ∈ [str "Complete Clever Cloud Services Overview",
      str "Automatically generated via Clever Cloud API",
      str "Addon Summary", str "Provider ID", str "Name", str "Plans",
      str "Application Summary", str "Type", str "Version", str "Enabled",
      str "Flavors", str "Default", str "Detailed Addon Plans",
      str "  No plans available", str "Detailed Application Flavors",
      str "  No flavors available", str "Available flavors:"]) := by
  intro providers txt
  exact ⟨by decide, by decide, by decide,
    PDFFormatter.cell_texts insertionSortLessFunc providers [] 80 6 txt (by decide)⟩
/-! ## Lemmas: slices in memory -/

theorem Slice.write_take {α : Type} (s : Slice) (v : List α) (m : Arrays α) (n : Nat)
    (h : n ≤ s.array) : (s.write v m).take n = m.take n := by
  unfold Slice.write
  apply List.ext_getElem?
  intro i
  by_cases hi : i < n
  · rw [List.getElem?_take_of_lt hi, List.getElem?_take_of_lt hi,
      List.getElem?_set_ne (by omega)]
  · rw [List.getElem?_take_eq_none (by omega), List.getElem?_take_eq_none (by omega)]

theorem Slice.write_length {α : Type} (s : Slice) (v : List α) (m : Arrays α) :
    (s.write v m).length = m.length := by
  unfold Slice.write
  exact List.length_set _ _ _

theorem sortedCopy_take {α : Type} (sortSlice : SortSlice) (less : α → α → Bool)
    (zero : α) (src : Slice) (m : Arrays α) :
    (sortedCopy sortSlice less zero src m).1.take m.length = m := by
  unfold sortedCopy sortInPlace copySlice Arrays.make
  simp only
  rw [Slice.write_take _ _ _ m.length (Nat.le_refl _),
    Slice.write_take _ _ _ m.length (Nat.le_refl _)]
  simp

theorem take_take_of_take {α : Type} (a b c : List α) (hab : b.take a.length = a)
    (hbc : c.take b.length = b) : c.take a.length = a := by
  have hle : a.length ≤ b.length := by
    have := congrArg List.length hab
    rw [List.length_take] at this
    omega
  calc c.take a.length = (c.take b.length).take a.length := by
        rw [List.take_take, Nat.min_eq_left hle]
    _ = a := by rw [hbc, hab]

theorem Slice.read_of_take {α : Type} (s : Slice) (m m2 : Arrays α)
    (h : m2.take m.length = m) (hs : s.array < m.length) : s.read m2 = s.read m := by
  unfold Slice.read
  have : m2.getD s.array [] = m.getD s.array [] := by
    rw [List.getD_eq_getElem?_getD, List.getD_eq_getElem?_getD]
    conv_rhs => rw [← h]
    rw [List.getElem?_take_of_lt hs]
  rw [this]

theorem foldl_rel {σ β : Type} (R : σ → σ → Prop) (hr : ∀ s, R s s)
    (ht : ∀ a b c, R a b → R b c → R a c) (f : σ → β → σ) (hf : ∀ s x, R s (f s x))
    (l : List β) (s : σ) : R s (l.foldl f s) := by
  induction l generalizing s with
  | nil => exact hr s
  | cons x rest ih => exact ht _ _ _ (hf s x) (ih (f s x))

theorem plansLoop_frame (sortSlice : SortSlice) (providers : List AddonProviderCell)
    (m : Heap) :
    (plansLoop sortSlice providers m).providers = m.providers ∧
    (plansLoop sortSlice providers m).instances = m.instances ∧
    (plansLoop sortSlice providers m).plans.take m.plans.length = m.plans ∧
    (plansLoop sortSlice providers m).flavors = m.flavors := by
  unfold plansLoop
  refine foldl_rel (fun a b : Heap => b.providers = a.providers ∧
    b.instances = a.instances ∧ b.plans.take a.plans.length = a.plans ∧
    b.flavors = a.flavors) ?_ ?_ _ ?_ providers m
  · intro s
    exact ⟨rfl, rfl, List.take_length _, rfl⟩
  · intro a b c hab hbc
    exact ⟨hbc.1.trans hab.1, hbc.2.1.trans hab.2.1,
      take_take_of_take _ _ _ hab.2.2.1 hbc.2.2.1, hbc.2.2.2.trans hab.2.2.2⟩
  · intro s provider
    show (if provider.Plans.len = 0 then s else _).providers = s.providers ∧ _
    split_ifs
    · exact ⟨rfl, rfl, List.take_length _, rfl⟩
    · exact ⟨rfl, rfl, sortedCopy_take _ _ _ _ _, rfl⟩

theorem flavorsLoop_frame (sortSlice : SortSlice) (enabledOnly : Bool)
    (instances : List ProductInstanceCell) (m : Heap) :
    (flavorsLoop sortSlice enabledOnly instances m).providers = m.providers ∧
    (flavorsLoop sortSlice enabledOnly instances m).instances = m.instances ∧
    (flavorsLoop sortSlice enabledOnly instances m).plans = m.plans ∧
    (flavorsLoop sortSlice enabledOnly instances m).flavors.take m.flavors.length =
      m.flavors := by
  unfold flavorsLoop
  refine foldl_rel (fun a b : Heap => b.providers = a.providers ∧
    b.instances = a.instances ∧ b.plans = a.plans ∧
    b.flavors.take a.flavors.length = a.flavors) ?_ ?_ _ ?_ instances m
  · intro s
    exact ⟨rfl, rfl, rfl, List.take_length _⟩
  · intro a b c hab hbc
    exact ⟨hbc.1.trans hab.1, hbc.2.1.trans hab.2.1, hbc.2.2.1.trans hab.2.2.1,
      take_take_of_take _ _ _ hab.2.2.2 hbc.2.2.2⟩
  · intro s instance_
    show (if enabledOnly = true ∧ ¬ instance_.head.Enabled = true then s
      else _).providers = s.providers ∧ _
    split_ifs
    · exact ⟨rfl, rfl, rfl, List.take_length _⟩
    · exact ⟨rfl, rfl, rfl, List.take_length _⟩
    · exact ⟨rfl, rfl, rfl, sortedCopy_take _ _ _ _ _⟩

theorem Slice.read_write_fresh {α : Type} (m : Arrays α) (n : Nat) (old v : List α)
    (hv : v.length = n) :
    ({ array := m.length, off := 0, len := n } : Slice).read
      (({ array := m.length, off := 0, len := n } : Slice).write v (m ++ [old])) = v := by
  unfold Slice.read Slice.write
  simp [List.getD_eq_getElem?_getD, ← hv]

theorem Slice.write_fresh {α : Type} (m : Arrays α) (n : Nat) (old v : List α)
    (hv : v.length = n) (hold : old.length = n) :
    ({ array := m.length, off := 0, len := n } : Slice).write v (m ++ [old]) =
      m ++ [v] := by
  unfold Slice.write
  simp [List.getD_eq_getElem?_getD, ← hv, hold]

/-- The copy a renderer ranges over: after `make`, `copy` and `sort.Slice`, the new slice
holds the elements of the source as `sort.Slice` orders them. -/
theorem sortedCopy_read {α : Type} (sortSlice : SortSlice)
    (hperm : SortSlice.Permutes sortSlice) (less : α → α → Bool) (zero : α) (src : Slice)
    (m : Arrays α) (hs : src.array < m.length) (hlen : (src.read m).length = src.len) :
    (sortedCopy sortSlice less zero src m).2.read (sortedCopy sortSlice less zero src m).1 =
      sortSlice α less (src.read m) := by
  have hsrc : src.read (m ++ [List.replicate src.len zero]) = src.read m :=
    Slice.read_of_take src m _ (by simp) hs
  unfold sortedCopy sortInPlace copySlice Arrays.make
  simp only [hsrc, Nat.min_self]
  have hfresh : ({ array := m.length, off := 0, len := src.len } : Slice).read
      (m ++ [List.replicate src.len zero]) = List.replicate src.len zero := by
    unfold Slice.read
    simp [List.getD_eq_getElem?_getD]
  rw [hfresh]
  have hcopy : List.take src.len (src.read m) ++
      List.drop src.len (List.replicate src.len zero) = src.read m := by
    rw [← hlen, List.take_length]
    simp
  rw [hcopy]
  have h1 := Slice.read_write_fresh m src.len (List.replicate src.len zero) (src.read m)
    hlen
  rw [h1, Slice.write_fresh m src.len _ (src.read m) hlen (List.length_replicate _ _)]
  exact Slice.read_write_fresh m src.len _ _ ((hperm α less _).length_eq.trans hlen)

theorem loops_frame (sortSlice : SortSlice) (enabledOnly : Bool)
    (providers : List AddonProviderCell) (instances : List ProductInstanceCell)
    (m : Heap) :
    (flavorsLoop sortSlice enabledOnly instances
      (plansLoop sortSlice providers m)).providers = m.providers ∧
    (flavorsLoop sortSlice enabledOnly instances
      (plansLoop sortSlice providers m)).instances = m.instances ∧
    (flavorsLoop sortSlice enabledOnly instances
      (plansLoop sortSlice providers m)).plans.take m.plans.length = m.plans ∧
    (flavorsLoop sortSlice enabledOnly instances
      (plansLoop sortSlice providers m)).flavors.take m.flavors.length = m.flavors := by
  obtain ⟨p1, p2, p3, p4⟩ := plansLoop_frame sortSlice providers m
  obtain ⟨f1, f2, f3, f4⟩ := flavorsLoop_frame sortSlice enabledOnly instances
    (plansLoop sortSlice providers m)
  refine ⟨f1.trans p1, f2.trans p2, ?_, ?_⟩
  · rw [f3]
    exact p3
  · rw [p4] at f4
    exact f4

theorem loops_frame_twice (sortSlice : SortSlice) (enabledOnly : Bool)
    (providers : List AddonProviderCell) (instances : List ProductInstanceCell)
    (m : Heap) :
    (flavorsLoop sortSlice enabledOnly instances (plansLoop sortSlice providers
      (flavorsLoop sortSlice enabledOnly instances
        (plansLoop sortSlice providers m)))).providers = m.providers ∧
    (flavorsLoop sortSlice enabledOnly instances (plansLoop sortSlice providers
      (flavorsLoop sortSlice enabledOnly instances
        (plansLoop sortSlice providers m)))).instances = m.instances ∧
    (flavorsLoop sortSlice enabledOnly instances (plansLoop sortSlice providers
      (flavorsLoop sortSlice enabledOnly instances
        (plansLoop sortSlice providers m)))).plans.take m.plans.length = m.plans ∧
    (flavorsLoop sortSlice enabledOnly instances (plansLoop sortSlice providers
      (flavorsLoop sortSlice enabledOnly instances
        (plansLoop sortSlice providers m)))).flavors.take m.flavors.length =
      m.flavors := by
  obtain ⟨a1, a2, a3, a4⟩ := loops_frame sortSlice enabledOnly providers instances m
  obtain ⟨b1, b2, b3, b4⟩ := loops_frame sortSlice enabledOnly providers instances
    (flavorsLoop sortSlice enabledOnly instances (plansLoop sortSlice providers m))
  exact ⟨b1.trans a1, b2.trans a2, take_take_of_take _ _ _ a3 b3,
    take_take_of_take _ _ _ a4 b4⟩

/-! ## Theorems: the caller's slices after a render call -/

/-- C21: for each of the four renderers and every input laid out in memory (the slice
headers of the plans and of the flavors point to allocated arrays), after the call the
provider slice and the instance slice read as the same providers and instances, each with
the same plans and the same flavors in the same order; no array that existed before the
call has changed: the sorts act on arrays made during the call.  For the CSV renderer
this holds wherever the run stops (after `k` providers and `j` instances). -/
theorem renderers_keep_input (sortSlice : SortSlice) (k j : Nat)
    (providers instances : Slice) (m m2 : Heap)
    (hp : ∀ c ∈ providers.read m.providers, c.Plans.array < m.plans.length)
    (hi : ∀ c ∈ instances.read m.instances, c.Flavors.array < m.flavors.length)
    (hm : m2 = CSVFormatter.memory sortSlice k j providers instances m ∨
      m2 = MarkdownFormatter.memory sortSlice providers instances m ∨
      m2 = TextFormatter.memory sortSlice providers instances m ∨
      m2 = PDFFormatter.memory sortSlice providers instances m) :
    (providers.read m2.providers).map (AddonProviderCell.load m2) =
      (providers.read m.providers).map (AddonProviderCell.load m) ∧
    (instances.read m2.instances).map (ProductInstanceCell.load m2) =
      (instances.read m.instances).map (ProductInstanceCell.load m) ∧
    m2.providers = m.providers ∧ m2.instances = m.instances ∧
    m2.plans.take m.plans.length = m.plans ∧
    m2.flavors.take m.flavors.length = m.flavors := by
  have hframe : m2.providers = m.providers ∧ m2.instances = m.instances ∧
      m2.plans.take m.plans.length = m.plans ∧
      m2.flavors.take m.flavors.length = m.flavors := by
    rcases hm with rfl | rfl | rfl | rfl
    · exact loops_frame sortSlice false _ _ m
    · exact loops_frame_twice sortSlice true _ _ m
    · exact loops_frame_twice sortSlice true _ _ m
    · exact loops_frame sortSlice true _ _ m
  obtain ⟨h1, h2, h3, h4⟩ := hframe
  refine ⟨?_, ?_, h1, h2, h3, h4⟩
  · rw [h1]
    apply List.map_congr_left
    intro c hc
    unfold AddonProviderCell.load
    rw [Slice.read_of_take c.Plans m.plans m2.plans h3 (hp c hc)]
  · rw [h2]
    apply List.map_congr_left
    intro c hc
    unfold ProductInstanceCell.load
    rw [Slice.read_of_take c.Flavors m.flavors m2.flavors h4 (hi c hc)]

set_option maxRecDepth 1000000 in
/-- Witness of C21: one provider whose two plans are stored out of order and one instance
whose two flavors are stored out of order; after the CSV renderer went through both, the
arrays of the caller are as before and the sorted copies are new arrays. -/
theorem renderers_keep_input_witness :
    let m : Heap :=
      { providers := [[{ ID := str "redis", Name := str "Redis",
                         Plans := { array := 0, off := 0, len := 2 } }]],
        instances := [[{ head := { Type_ := str "node", Enabled := true },
                         Flavors := { array := 0, off := 0, len := 2 } }]],
        plans := [[{ Slug := str "small" }, { Slug := str "large" }]],
        flavors := [[{ Name := str "S" }, { Name := str "M" }]] }
    let providers : Slice := { array := 0, off := 0, len := 1 }
    let instances : Slice := { array := 0, off := 0, len := 1 }
    let m2 := CSVFormatter.memory insertionSortLessFunc 1 1 providers instances m
    (∀ c ∈ providers.read m.providers, c.Plans.array < m.plans.length) ∧
    (∀ c ∈ instances.read m.instances, c.Flavors.array < m.flavors.length) ∧
    m2.plans = [[{ Slug := str "small" }, { Slug := str "large" }],
                [{ Slug := str "large" }, { Slug := str "small" }]] ∧
    m2.flavors = [[{ Name := str "S" }, { Name := str "M" }],
                  [{ Name := str "M" }, { Name := str "S" }]] ∧
    ((providers.read m2.providers).map (AddonProviderCell.load m2) =
      (providers.read m.providers).map (AddonProviderCell.load m) ∧
    (instances.read m2.instances).map (ProductInstanceCell.load m2) =
      (instances.read m.instances).map (ProductInstanceCell.load m) ∧
    m2.providers = m.providers ∧ m2.instances = m.instances ∧
    m2.plans.take m.plans.length = m.plans ∧
    m2.flavors.take m.flavors.length = m.flavors) := by
  intro m providers instances m2
  exact ⟨by decide, by decide, by decide, by decide,
    renderers_keep_input insertionSortLessFunc 1 1 providers instances m m2
      (by decide) (by decide) (Or.inl rfl)⟩

end CcPlansLister
